import Mathlib

/-!
# quickwiz: the session store of `internal/quiz/manager.go`

A shallow embedding of the quiz manager (`internal/quiz/manager.go`) and of the
data model it works on (`internal/models/models.go`).

Modelling decisions.

* A Go `map[string]*T` is a list of key/value pairs (`GoMap`).  Lookup returns the
  first binding of a key, an update through the stored pointer rewrites that
  binding in place, and an assignment to an absent key appends a binding.  A `range`
  loop visits the bindings in list order; Go leaves the order unspecified, and every
  theorem below holds for every list, hence for every order.  The functions do
  not require the keys to be distinct; `GoMap.WF` says that they are.
* Go's `int` (64 bits) is modelled by `Int`.  The only arithmetic of the manager on
  it is the comparison of a streak and the increment of a score, a streak or a
  question index by at most six per operation, so a counter that starts at 0 leaves
  the 64-bit range only after more than `2^60` operations; the manager's sums are
  not wrapped around.  The model and the code agree as long as a sum stays below
  `2^63`: a theorem about such a sum that is stated for every store, not only for
  the stores reached from a new manager, says so in a hypothesis.  In the parser,
  where `strconv.Atoi` hands over every `int`, the product by sixty is wrapped
  around (`wrapInt`).
* `time.Now()` is an explicit parameter `now`; an instant is an integer number of
  nanoseconds and the zero `time.Time` is `0`.
* An operation returns the store after the call together with its result.  A
  result is a value, an error built with `fmt.Errorf`, or a run-time panic.  The
  operations that only read (`GetSession`, `CheckAllAnswered`, `GetAnswerCount`,
  `GetLeaderboard`) return their result alone.
* `rand.Read` is an explicit parameter, the four bytes it writes.
-/

namespace QuickWiz

/-! ## Go maps -/

/-- A Go map with string keys, as the list of its bindings in iteration order. -/
abbrev GoMap (α : Type) := List (String × α)

namespace GoMap

/-- The read `m[k]` with its presence flag: the first binding of `k`. -/
def get {α : Type} : GoMap α → String → Option α
  | [], _ => none
  | (k', v) :: rest, k => if k' = k then some v else get rest k

/-- A write through the pointer stored under `k`: the binding of `k` becomes
`f` of itself; a map without the key is left as it is. -/
def modify {α : Type} (f : α → α) : GoMap α → String → GoMap α
  | [], _ => []
  | (k', v) :: rest, k => if k' = k then (k', f v) :: rest else (k', v) :: modify f rest k

/-- The assignment `m[k] = v`: overwrite the binding of `k`, or add one. -/
def set {α : Type} : GoMap α → String → α → GoMap α
  | [], k, v => [(k, v)]
  | (k', v') :: rest, k, v => if k' = k then (k', v) :: rest else (k', v') :: set rest k v

/-- The built-in `delete(m, k)`: afterwards the map has no binding of `k`. -/
def delete {α : Type} (m : GoMap α) (k : String) : GoMap α :=
  m.filter (fun e => decide (e.1 ≠ k))

/-- A `range` loop that writes through every stored pointer: every value becomes
`f` of itself. -/
def forEach {α : Type} (f : α → α) (m : GoMap α) : GoMap α :=
  m.map (fun e => (e.1, f e.2))

/-- The keys of a map are pairwise distinct. -/
def WF {α : Type} (m : GoMap α) : Prop := (m.map Prod.fst).Nodup

instance {α : Type} (m : GoMap α) : Decidable m.WF :=
  inferInstanceAs (Decidable ((m.map Prod.fst).Nodup))

end GoMap

/-! ## Data model (`internal/models/models.go`) -/

/-- An instant, in nanoseconds; `0` is the zero value of `time.Time`. -/
abbrev Time := Int

/-- The `SessionState` constants. -/
inductive SessionState where
  | StateWaiting
  | StateInProgress
  | StateQuestion
  | StateAnswer
  | StateFinished
  deriving DecidableEq, Repr

/-- A single quiz question. -/
structure Question where
  Text : String
  Options : List String
  Answer : String
  deriving DecidableEq, Repr

/-- A parsed quiz. -/
structure Quiz where
  Title : String
  TimePerQuestion : Int
  TimeBetweenQuestions : Int
  StreakBonus : Bool
  QuickestAnswerBonus : Bool
  Questions : List Question
  deriving DecidableEq, Repr

/-- A user in a quiz session. -/
structure Participant where
  ID : String
  Name : String
  Score : Int
  CurrentAnswer : String
  AnsweredAt : Time
  HasAnswered : Bool
  IsSpectator : Bool
  CurrentStreak : Int
  JoinedAt : Time
  deriving DecidableEq, Repr

/-- An active quiz session. -/
structure QuizSession where
  Code : String
  Quiz : Quiz
  Participants : GoMap Participant
  CreatorID : String
  CurrentQuestion : Int
  State : SessionState
  CreatedAt : Time
  QuestionStarted : Time
  deriving DecidableEq, Repr

/-- A participant as displayed.  The float field `AnswerSubmissionTime` of the
source is never written by the manager and is left out. -/
structure ParticipantInfo where
  Name : String
  Answer : String
  IsCorrect : Bool
  Score : Int
  Streak : Int
  StreakBonus : Int
  QuickestAnswerFlag : Bool
  deriving DecidableEq, Repr

/-- The payload sent when an answer is revealed. -/
structure AnswerReveal where
  CorrectAnswer : String
  Participants : List ParticipantInfo
  deriving DecidableEq, Repr

/-! ## The manager (`internal/quiz/manager.go`) -/

/-- The quiz manager: its `sessions` map (the mutex is not modelled, every
operation runs under it from start to end). -/
structure Manager where
  sessions : GoMap QuizSession
  deriving DecidableEq, Repr

/-- What a manager operation hands back. -/
inductive Outcome (α : Type) where
  | ok (v : α)
  | error (msg : String)
  | panic
  deriving DecidableEq, Repr

/-- The slice read `xs[i]` with a Go `int` index: `none` is the index-out-of-range
panic. -/
def index {α : Type} (xs : List α) (i : Int) : Option α :=
  if i < 0 then none else xs[i.toNat]?

/-- Bonus points for the current streak: `calculateStreakBonus`. -/
def calculateStreakBonus (streak : Int) : Int :=
  if streak ≥ 10 then 5
  else if streak ≥ 5 then 2
  else if streak ≥ 3 then 1
  else 0

/-- A byte. -/
abbrev Byte := Fin 256

/-- The table of `encoding/hex`. -/
def hextable : List Char := "0123456789abcdef".toList

/-- The function `hex.EncodeToString`: two digits for each byte, high half first. -/
def EncodeToString (src : List Byte) : String :=
  String.mk (src.flatMap (fun v => [hextable.getD (v.val / 16) '0', hextable.getD (v.val % 16) '0']))

/-- The function `strings.ToUpper`, on the characters that `EncodeToString` yields. -/
def ToUpper (s : String) : String :=
  String.mk (s.data.map Char.toUpper)

/-- Generates a code of eight characters from four random bytes: `generateCode`. -/
def generateCode (bytes : Byte × Byte × Byte × Byte) : String :=
  ToUpper (EncodeToString [bytes.1, bytes.2.1, bytes.2.2.1, bytes.2.2.2])

/-- Creates a new quiz session from a quiz: `Manager.CreateSession`. -/
def CreateSession (m : Manager) (quiz : Quiz) (bytes : Byte × Byte × Byte × Byte)
    (now : Time) : Manager × Outcome String :=
  let code := generateCode bytes
  let session : QuizSession :=
    { Code := code, Quiz := quiz, Participants := [], CreatorID := "",
      CurrentQuestion := -1, State := .StateWaiting, CreatedAt := now, QuestionStarted := 0 }
  ({ sessions := m.sessions.set code session }, .ok code)

/-- Retrieves a quiz session by code: `Manager.GetSession`. -/
def GetSession (m : Manager) (code : String) : Outcome QuizSession :=
  match m.sessions.get code with
  | none => .error "quiz session not found"
  | some session => .ok session

/-- The zero value of `Participant` with the fields `AddParticipant` sets. -/
def newParticipant (participantID name : String) (isSpectator : Bool) (now : Time) :
    Participant :=
  { ID := participantID, Name := name, Score := 0, CurrentAnswer := "", AnsweredAt := 0,
    HasAnswered := false, IsSpectator := isSpectator, CurrentStreak := 0, JoinedAt := now }

/-- Adds a participant to a session: `Manager.AddParticipant`. -/
def AddParticipant (m : Manager) (code participantID name : String) (now : Time) :
    Manager × Outcome Unit :=
  match m.sessions.get code with
  | none => (m, .error "quiz session not found")
  | some session =>
    if session.State ≠ .StateWaiting then (m, .error "quiz has already started")
    else
      let isSpectator : Bool := decide (session.Participants.length = 0)
      let session : QuizSession :=
        if isSpectator then { session with CreatorID := participantID } else session
      let participant := newParticipant participantID name isSpectator now
      let session : QuizSession :=
        { session with Participants := session.Participants.set participantID participant }
      ({ sessions := m.sessions.modify (fun _ => session) code }, .ok ())

/-- The call `AddParticipant(code, participantID, name, isSpectator)` as
`JoinQuizHandler` (`handlers.go:232`) and the tests write it: four arguments, the
last one the requested spectator flag.  `Manager.AddParticipant` declares three
parameters, so no code reads the flag. -/
def AddParticipantRequested (m : Manager) (code participantID name : String)
    (_isSpectator : Bool) (now : Time) : Manager × Outcome Unit :=
  AddParticipant m code participantID name now

/-- The body of the loops that reset the answers of all participants. -/
def resetAnswer (p : Participant) : Participant :=
  { p with HasAnswered := false, CurrentAnswer := "" }

/-- Starts the quiz and moves to the first question: `Manager.StartQuiz`. -/
def StartQuiz (m : Manager) (code : String) (now : Time) : Manager × Outcome Unit :=
  match m.sessions.get code with
  | none => (m, .error "quiz session not found")
  | some session =>
    if session.State ≠ .StateWaiting then (m, .error "quiz already started")
    else if session.Participants.length = 0 then (m, .error "no participants in quiz")
    else
      let session : QuizSession := { session with State := .StateInProgress }
      let session : QuizSession := { session with CurrentQuestion := 0 }
      let session : QuizSession := { session with QuestionStarted := now }
      let session : QuizSession := { session with State := .StateQuestion }
      let session : QuizSession :=
        { session with Participants := session.Participants.forEach resetAnswer }
      ({ sessions := m.sessions.modify (fun _ => session) code }, .ok ())

/-- Submits an answer for a participant: `Manager.SubmitAnswer`. -/
def SubmitAnswer (m : Manager) (code participantID answer : String) (now : Time) :
    Manager × Outcome Unit :=
  match m.sessions.get code with
  | none => (m, .error "quiz session not found")
  | some session =>
    if session.State ≠ .StateQuestion then (m, .error "not accepting answers right now")
    else
      match session.Participants.get participantID with
      | none => (m, .error "participant not found")
      | some participant =>
        if participant.HasAnswered then (m, .error "already answered this question")
        else
          let write : Participant → Participant := fun p =>
            { p with CurrentAnswer := answer, HasAnswered := true, AnsweredAt := now }
          let session : QuizSession :=
            { session with Participants := session.Participants.modify write participantID }
          ({ sessions := m.sessions.modify (fun _ => session) code }, .ok ())

/-- The loop of `CheckAllAnswered`: spectators are skipped, the first other
participant who has not answered ends it with `false`. -/
def allAnsweredLoop : GoMap Participant → Bool
  | [] => true
  | (_, p) :: rest =>
    if p.IsSpectator then allAnsweredLoop rest
    else if !p.HasAnswered then false
    else allAnsweredLoop rest

/-- Checks if all participants have answered, spectators excluded:
`Manager.CheckAllAnswered`. -/
def CheckAllAnswered (m : Manager) (code : String) : Bool :=
  match m.sessions.get code with
  | none => false
  | some session => allAnsweredLoop session.Participants

/-- The loop of `GetAnswerCount`, from the counters `(answeredCount,
totalParticipants)` so far. -/
def answerCountLoop : GoMap Participant → Int × Int → Int × Int
  | [], counts => counts
  | (_, p) :: rest, (answeredCount, totalParticipants) =>
    if p.IsSpectator then answerCountLoop rest (answeredCount, totalParticipants)
    else
      let totalParticipants := totalParticipants + 1
      let answeredCount := if p.HasAnswered then answeredCount + 1 else answeredCount
      answerCountLoop rest (answeredCount, totalParticipants)

/-- The number of participants who have answered and the number of participants,
spectators excluded: `Manager.GetAnswerCount`. -/
def GetAnswerCount (m : Manager) (code : String) : Int × Int :=
  match m.sessions.get code with
  | none => (0, 0)
  | some session => answerCountLoop session.Participants (0, 0)

/-- The body of the loop of `RevealAnswer` for a participant that is not a
spectator: the participant after scoring and the entry appended to the result. -/
def scoreParticipant (streakBonusEnabled : Bool) (currentQ : Question) (p : Participant) :
    Participant × ParticipantInfo :=
  let isCorrect : Bool := decide (p.CurrentAnswer = currentQ.Answer)
  let streakBonus : Int := 0
  let (p, streakBonus) :=
    if isCorrect then
      let p := { p with CurrentStreak := p.CurrentStreak + 1 }
      let p := { p with Score := p.Score + 1 }
      if streakBonusEnabled then
        let streakBonus := calculateStreakBonus p.CurrentStreak
        ({ p with Score := p.Score + streakBonus }, streakBonus)
      else (p, streakBonus)
    else ({ p with CurrentStreak := 0 }, streakBonus)
  (p, { Name := p.Name, Answer := p.CurrentAnswer, IsCorrect := isCorrect, Score := p.Score,
        Streak := p.CurrentStreak, StreakBonus := streakBonus, QuickestAnswerFlag := false })

/-- The loop of `RevealAnswer` over the participants: the map after scoring and
the result slice, spectators skipped. -/
def revealLoop (streakBonusEnabled : Bool) (currentQ : Question) :
    GoMap Participant → GoMap Participant × List ParticipantInfo
  | [] => ([], [])
  | (id, p) :: rest =>
    let (rest', infos) := revealLoop streakBonusEnabled currentQ rest
    if p.IsSpectator then ((id, p) :: rest', infos)
    else
      let (p', info) := scoreParticipant streakBonusEnabled currentQ p
      ((id, p') :: rest', info :: infos)

/-- Reveals the answer and updates the scores: `Manager.RevealAnswer`. -/
def RevealAnswer (m : Manager) (code : String) : Manager × Outcome AnswerReveal :=
  match m.sessions.get code with
  | none => (m, .error "quiz session not found")
  | some session =>
    if session.State ≠ .StateQuestion then (m, .error "not in question state")
    else
      match index session.Quiz.Questions session.CurrentQuestion with
      | none => (m, .panic)
      | some currentQ =>
        let session : QuizSession := { session with State := .StateAnswer }
        let (participants', participants) :=
          revealLoop session.Quiz.StreakBonus currentQ session.Participants
        let session : QuizSession := { session with Participants := participants' }
        ({ sessions := m.sessions.modify (fun _ => session) code },
          .ok { CorrectAnswer := currentQ.Answer, Participants := participants })

/-- Moves to the next question or finishes the quiz: `Manager.NextQuestion`. -/
def NextQuestion (m : Manager) (code : String) (now : Time) : Manager × Outcome Bool :=
  match m.sessions.get code with
  | none => (m, .error "quiz session not found")
  | some session =>
    if session.State ≠ .StateAnswer then (m, .error "not in answer state")
    else if session.CurrentQuestion + 1 ≥ (session.Quiz.Questions.length : Int) then
      let session : QuizSession := { session with State := .StateFinished }
      ({ sessions := m.sessions.modify (fun _ => session) code }, .ok false)
    else
      let session : QuizSession := { session with CurrentQuestion := session.CurrentQuestion + 1 }
      let session : QuizSession := { session with State := .StateQuestion }
      let session : QuizSession := { session with QuestionStarted := now }
      let session : QuizSession :=
        { session with Participants := session.Participants.forEach resetAnswer }
      ({ sessions := m.sessions.modify (fun _ => session) code }, .ok true)

/-- The first loop of `GetLeaderboard`: an entry with name and score for every
participant that is not a spectator. -/
def leaderboardLoop : GoMap Participant → List ParticipantInfo
  | [] => []
  | (_, p) :: rest =>
    if p.IsSpectator then leaderboardLoop rest
    else
      { Name := p.Name, Answer := "", IsCorrect := false, Score := p.Score, Streak := 0,
        StreakBonus := 0, QuickestAnswerFlag := false } :: leaderboardLoop rest

/-- The body of the inner sorting loop of `GetLeaderboard`: the entries at `i` and
`j` change places when the one at `j` has the greater score. -/
def swapIfGreater (participants : List ParticipantInfo) (i j : Nat) : List ParticipantInfo :=
  match participants[i]?, participants[j]? with
  | some pi, some pj =>
    if pj.Score > pi.Score then (participants.set i pj).set j pi else participants
  | _, _ => participants

/-- The inner sorting loop of `GetLeaderboard` for a fixed `i`: `n` more rounds,
the next one at `j`. -/
def sortInner (i : Nat) : Nat → Nat → List ParticipantInfo → List ParticipantInfo
  | 0, _, participants => participants
  | n + 1, j, participants => sortInner i n (j + 1) (swapIfGreater participants i j)

/-- The outer sorting loop of `GetLeaderboard`: `n` more rounds, the next one at `i`;
a round runs the inner loop for `j` from `i + 1` to the end of the slice. -/
def sortOuter : Nat → Nat → List ParticipantInfo → List ParticipantInfo
  | 0, _, participants => participants
  | n + 1, i, participants =>
    sortOuter n (i + 1) (sortInner i (participants.length - (i + 1)) (i + 1) participants)

/-- The sort of `GetLeaderboard`, by score, descending: `i` runs from `0` to
`len(participants) - 2`. -/
def sortByScore (participants : List ParticipantInfo) : List ParticipantInfo :=
  sortOuter (participants.length - 1) 0 participants

/-- The final leaderboard, spectators excluded: `Manager.GetLeaderboard`. -/
def GetLeaderboard (m : Manager) (code : String) : Outcome (List ParticipantInfo) :=
  match m.sessions.get code with
  | none => .error "quiz session not found"
  | some session => .ok (sortByScore (leaderboardLoop session.Participants))

/-- The duration `time.Hour`, in nanoseconds. -/
def Hour : Int := 3600 * 1000000000

/-- The loop of `CleanupOldSessions` over the bindings `entries` met by `range`:
the code of a session created before `cutoff` is deleted from `sessions`. -/
def cleanupLoop (cutoff : Time) : GoMap QuizSession → GoMap QuizSession → GoMap QuizSession
  | [], sessions => sessions
  | (code, session) :: entries, sessions =>
    if session.CreatedAt < cutoff then cleanupLoop cutoff entries (sessions.delete code)
    else cleanupLoop cutoff entries sessions

/-- Removes the sessions older than 24 hours: `Manager.CleanupOldSessions`. -/
def CleanupOldSessions (m : Manager) (now : Time) : Manager :=
  let cutoff := now + (-24) * Hour
  { sessions := cleanupLoop cutoff m.sessions m.sessions }

/-- Creates a new quiz manager: `NewManager`. -/
def NewManager : Manager := { sessions := [] }

/-! ## Sequences of calls -/

/-- A call of an operation of the manager with its arguments, the clock value it
reads and the random bytes it draws. -/
inductive Op where
  | createSession (quiz : Quiz) (bytes : Byte × Byte × Byte × Byte) (now : Time)
  | getSession (code : String)
  | addParticipant (code participantID name : String) (now : Time)
  | startQuiz (code : String) (now : Time)
  | submitAnswer (code participantID answer : String) (now : Time)
  | checkAllAnswered (code : String)
  | getAnswerCount (code : String)
  | revealAnswer (code : String)
  | nextQuestion (code : String) (now : Time)
  | getLeaderboard (code : String)
  | cleanupOldSessions (now : Time)

/-- The store after a call.  The four operations that only read leave it as it
is. -/
def Op.apply (m : Manager) : Op → Manager
  | .createSession quiz bytes now => (CreateSession m quiz bytes now).1
  | .getSession _ => m
  | .addParticipant code participantID name now => (AddParticipant m code participantID name now).1
  | .startQuiz code now => (StartQuiz m code now).1
  | .submitAnswer code participantID answer now =>
    (SubmitAnswer m code participantID answer now).1
  | .checkAllAnswered _ => m
  | .getAnswerCount _ => m
  | .revealAnswer code => (RevealAnswer m code).1
  | .nextQuestion code now => (NextQuestion m code now).1
  | .getLeaderboard _ => m
  | .cleanupOldSessions now => CleanupOldSessions m now

/-- The store after a sequence of calls on the store `m`. -/
def runFrom (m : Manager) (ops : List Op) : Manager :=
  ops.foldl Op.apply m

/-- The store after a sequence of calls on a new manager. -/
def run (ops : List Op) : Manager :=
  runFrom NewManager ops

/-- The store after the submissions `(participantID, answer, now)` made one after
the other to the session `code`. -/
def submitAll (m : Manager) (code : String) : List (String × String × Time) → Manager
  | [] => m
  | (participantID, answer, now) :: rest =>
    submitAll (SubmitAnswer m code participantID answer now).1 code rest

/-- Every call of a sequence passes the test `ok` on the store it is made on. -/
def okRun (ok : Manager → Op → Bool) : Manager → List Op → Bool
  | _, [] => true
  | m, op :: ops => ok m op && okRun ok (op.apply m) ops

/-- The call does not admit a participant under the id of the creator of a session
that has participants. -/
def keepsCreator (m : Manager) : Op → Bool
  | .addParticipant code participantID _ _ =>
    match m.sessions.get code with
    | none => true
    | some session =>
      decide (session.Participants.length = 0) || decide (participantID ≠ session.CreatorID)
  | _ => true

/-- The calls that the store answers without touching a score or a streak:
`AddParticipant`, `StartQuiz`, `SubmitAnswer`, `NextQuestion`, `GetAnswerCount`,
`CheckAllAnswered` and `GetLeaderboard`. -/
def Op.leavesScores : Op → Bool
  | .addParticipant _ _ _ _ => true
  | .startQuiz _ _ => true
  | .submitAnswer _ _ _ _ => true
  | .nextQuestion _ _ => true
  | .getAnswerCount _ => true
  | .checkAllAnswered _ => true
  | .getLeaderboard _ => true
  | _ => false

/-! ## Closed forms of the scoring step and of the successful operations -/

/-- The session that `CreateSession` stores. -/
def created (code : String) (quiz : Quiz) (now : Time) : QuizSession :=
  { Code := code, Quiz := quiz, Participants := [], CreatorID := "",
    CurrentQuestion := -1, State := .StateWaiting, CreatedAt := now, QuestionStarted := 0 }


/-- The participant after the scoring step of `RevealAnswer`, field by field. -/
def scored (streakBonusEnabled : Bool) (currentQ : Question) (p : Participant) : Participant :=
  { p with
    CurrentStreak := if p.CurrentAnswer = currentQ.Answer then p.CurrentStreak + 1 else 0
    Score :=
      if p.CurrentAnswer = currentQ.Answer then
        p.Score + 1 +
          (if streakBonusEnabled then calculateStreakBonus (p.CurrentStreak + 1) else 0)
      else p.Score }

/-- The session after a successful `RevealAnswer`. -/
def revealed (session : QuizSession) (currentQ : Question) : QuizSession :=
  { session with
    State := .StateAnswer
    Participants := (revealLoop session.Quiz.StreakBonus currentQ session.Participants).1 }

/-- The session after a successful `SubmitAnswer`. -/
def submitted (session : QuizSession) (participantID answer : String) (now : Time) :
    QuizSession :=
  { session with
    Participants :=
      session.Participants.modify
        (fun p => { p with CurrentAnswer := answer, HasAnswered := true, AnsweredAt := now })
        participantID }

/-- The session after a successful `AddParticipant`. -/
def admitted (session : QuizSession) (participantID name : String) (now : Time) : QuizSession :=
  { session with
    CreatorID := if session.Participants.length = 0 then participantID else session.CreatorID
    Participants :=
      session.Participants.set participantID
        (newParticipant participantID name (decide (session.Participants.length = 0)) now) }

/-- The session after a successful `StartQuiz`. -/
def started (session : QuizSession) (now : Time) : QuizSession :=
  { session with
    State := .StateQuestion
    CurrentQuestion := 0
    QuestionStarted := now
    Participants := session.Participants.forEach resetAnswer }

/-- The session after a `NextQuestion` that found a further question. -/
def advanced (session : QuizSession) (now : Time) : QuizSession :=
  { session with
    State := .StateQuestion
    CurrentQuestion := session.CurrentQuestion + 1
    QuestionStarted := now
    Participants := session.Participants.forEach resetAnswer }

/-- A leaderboard entry: name and score, every other field at its zero value. -/
def boardEntry (name : String) (score : Int) : ParticipantInfo :=
  { Name := name, Answer := "", IsCorrect := false, Score := score, Streak := 0,
    StreakBonus := 0, QuickestAnswerFlag := false }

/-- One round of the outer sorting loop, seen from the entry `x` that the slice
holds at `i` and the entries behind it: the entry left at `i` and the entries left
behind it.  An entry with a greater score takes the place at `i` and leaves the
former holder at its own place. -/
def selectMax (x : ParticipantInfo) : List ParticipantInfo → ParticipantInfo × List ParticipantInfo
  | [] => (x, [])
  | y :: ys =>
    if y.Score > x.Score then ((selectMax y ys).1, x :: (selectMax y ys).2)
    else ((selectMax x ys).1, y :: (selectMax x ys).2)

/-- The sort of `GetLeaderboard` as `n` rounds of `selectMax`, each on the entries
behind the one settled by the round before. -/
def exchangeSort : Nat → List ParticipantInfo → List ParticipantInfo
  | 0, participants => participants
  | _ + 1, [] => []
  | n + 1, x :: rest => (selectMax x rest).1 :: exchangeSort n (selectMax x rest).2

/-- The number of participants that are not spectators. -/
def playerCount (ps : GoMap Participant) : Nat :=
  (ps.filter (fun e => !e.2.IsSpectator)).length

/-- The number of participants that are not spectators and have answered. -/
def answeredPlayerCount (ps : GoMap Participant) : Nat :=
  (ps.filter (fun e => !e.2.IsSpectator && e.2.HasAnswered)).length

/-- Some binding among `entries` has the key `code` and a session created before
`cutoff`. -/
def expiredIn (cutoff : Time) (entries : GoMap QuizSession) (code : String) : Bool :=
  entries.any (fun e => decide (e.2.CreatedAt < cutoff) && decide (e.1 = code))

/-- The change that a successful call makes to the session it is made on. -/
inductive Transition : Op → String → QuizSession → QuizSession → Prop where
  | join (code participantID name : String) (now : Time) (session : QuizSession) :
    session.State = .StateWaiting →
    Transition (.addParticipant code participantID name now) code session
      (admitted session participantID name now)
  | start (code : String) (now : Time) (session : QuizSession) :
    session.State = .StateWaiting → session.Participants.length ≠ 0 →
    Transition (.startQuiz code now) code session (started session now)
  | submit (code participantID answer : String) (now : Time) (session : QuizSession)
      (p : Participant) :
    session.State = .StateQuestion → session.Participants.get participantID = some p →
    p.HasAnswered = false →
    Transition (.submitAnswer code participantID answer now) code session
      (submitted session participantID answer now)
  | reveal (code : String) (session : QuizSession) (currentQ : Question) :
    session.State = .StateQuestion →
    index session.Quiz.Questions session.CurrentQuestion = some currentQ →
    Transition (.revealAnswer code) code session (revealed session currentQ)
  | finish (code : String) (now : Time) (session : QuizSession) :
    session.State = .StateAnswer →
    (session.Quiz.Questions.length : Int) ≤ session.CurrentQuestion + 1 →
    Transition (.nextQuestion code now) code session { session with State := .StateFinished }
  | advance (code : String) (now : Time) (session : QuizSession) :
    session.State = .StateAnswer →
    session.CurrentQuestion + 1 < (session.Quiz.Questions.length : Int) →
    Transition (.nextQuestion code now) code session (advanced session now)

/-! ## Invariants of a session -/

/-- The lifecycle invariant of a session: it is never left in progress, and when
its quiz has a question the index is -1 in Waiting state and an index of a question
in every other state. -/
def Lifecycle (session : QuizSession) : Prop :=
  session.State ≠ .StateInProgress ∧
  (session.Quiz.Questions ≠ [] →
    (session.State = .StateWaiting ∧ session.CurrentQuestion = -1) ∨
    (session.State ≠ .StateWaiting ∧ 0 ≤ session.CurrentQuestion ∧
      session.CurrentQuestion < (session.Quiz.Questions.length : Int)))

/-- Before the quiz starts nobody has a point or a streak. -/
def ZeroInWaiting (session : QuizSession) : Prop :=
  session.State = .StateWaiting →
    ∀ id p, session.Participants.get id = some p → p.Score = 0 ∧ p.CurrentStreak = 0

/-- The ids of the participants stored as spectators, in iteration order. -/
def spectatorIDs (ps : GoMap Participant) : List String :=
  (ps.filter (fun e => e.2.IsSpectator)).map Prod.fst

/-- The spectator invariant of a session: the ids of its participants are pairwise
distinct, and when it has a participant exactly one participant is stored as a
spectator, under the id of the creator. -/
def OneSpectator (session : QuizSession) : Prop :=
  session.Participants.WF ∧
  (session.Participants = [] ∨ spectatorIDs session.Participants = [session.CreatorID])

/-- The session has the question `index` open, and whoever has not answered it has
no answer stored. -/
def FreshRound (quiz : Quiz) (index : Int) (session : QuizSession) : Prop :=
  session.State = .StateQuestion ∧ session.Quiz = quiz ∧ session.CurrentQuestion = index ∧
  ∀ e ∈ session.Participants, e.2.HasAnswered = false → e.2.CurrentAnswer = ""

/-- The score invariant of a participant: the streak is not negative and not above
the score, and a spectator has neither a point nor a streak. -/
def Participant.Sound (p : Participant) : Prop :=
  0 ≤ p.CurrentStreak ∧ p.CurrentStreak ≤ p.Score ∧
  (p.IsSpectator = true → p.Score = 0 ∧ p.CurrentStreak = 0)

/-- The score invariant of a session: every stored participant satisfies it. -/
def StreakWithinScore (session : QuizSession) : Prop :=
  ∀ e ∈ session.Participants, e.2.Sound

/-! ## A concrete store

A three-question quiz with the streak bonus on.  `exLobby` is the session as
`CreateSession` leaves it; `exRound` is the same session while the third question
is open, with the host and four players. -/

/-- The third question of the example quiz. -/
def exQuestion : Question :=
  { Text := "Capital of France?", Options := ["Paris", "Rome", "Oslo"], Answer := "Paris" }

/-- The example quiz. -/
def exQuiz : Quiz :=
  { Title := "Test Quiz", TimePerQuestion := 30, TimeBetweenQuestions := 5, StreakBonus := true,
    QuickestAnswerBonus := false,
    Questions :=
      [{ Text := "Question 1?", Options := ["A", "B", "C"], Answer := "A" },
       { Text := "Question 2?", Options := ["A", "B", "C"], Answer := "B" },
       exQuestion] }

/-- A session in the waiting state, nobody admitted yet. -/
def exLobby : QuizSession :=
  { Code := "AB12CD34", Quiz := exQuiz, Participants := [], CreatorID := "",
    CurrentQuestion := -1, State := .StateWaiting, CreatedAt := 100, QuestionStarted := 0 }

/-- The creator of the example session, a spectator. -/
def exHost : Participant :=
  { ID := "p1", Name := "Host", Score := 0, CurrentAnswer := "", AnsweredAt := 0,
    HasAnswered := false, IsSpectator := true, CurrentStreak := 0, JoinedAt := 110 }

/-- A player on a streak of two who answered the open question correctly. -/
def exAlice : Participant :=
  { ID := "p2", Name := "Alice", Score := 2, CurrentAnswer := "Paris", AnsweredAt := 150,
    HasAnswered := true, IsSpectator := false, CurrentStreak := 2, JoinedAt := 120 }

/-- A player whose answer differs from the correct one in letter case only. -/
def exBob : Participant :=
  { ID := "p3", Name := "Bob", Score := 1, CurrentAnswer := "paris", AnsweredAt := 160,
    HasAnswered := true, IsSpectator := false, CurrentStreak := 1, JoinedAt := 130 }

/-- A player who has not answered the open question. -/
def exCarol : Participant :=
  { ID := "p4", Name := "Carol", Score := 0, CurrentAnswer := "", AnsweredAt := 0,
    HasAnswered := false, IsSpectator := false, CurrentStreak := 0, JoinedAt := 135 }

/-- A player whose answer differs from the correct one by a trailing blank only. -/
def exDave : Participant :=
  { ID := "p5", Name := "Dave", Score := 1, CurrentAnswer := "Paris ", AnsweredAt := 165,
    HasAnswered := true, IsSpectator := false, CurrentStreak := 0, JoinedAt := 137 }

/-- The example session while its third question is open. -/
def exRound : QuizSession :=
  { Code := "AB12CD34", Quiz := exQuiz,
    Participants :=
      [("p1", exHost), ("p2", exAlice), ("p3", exBob), ("p4", exCarol), ("p5", exDave)],
    CreatorID := "p1", CurrentQuestion := 2, State := .StateQuestion, CreatedAt := 100,
    QuestionStarted := 140 }

/-- The example session after the reveal of its third question. -/
def exRevealed : QuizSession := revealed exRound exQuestion

/-- A store holding the waiting session. -/
def exLobbyStore : Manager := { sessions := [("AB12CD34", exLobby)] }

/-- A store holding the session with an open question. -/
def exStore : Manager := { sessions := [("AB12CD34", exRound)] }

/-- A store holding the session after the reveal. -/
def exRevealedStore : Manager := { sessions := [("AB12CD34", exRevealed)] }

/-- A waiting session with the host and one player. -/
def exOpenLobby : QuizSession :=
  { exLobby with Participants := [("p1", exHost), ("p4", exCarol)], CreatorID := "p1" }

/-- The example session in Answer state after its second question. -/
def exMidAnswer : QuizSession :=
  { exRound with CurrentQuestion := 1, State := .StateAnswer }

/-- A finished session with the host and the scores Alice 10, Bob 5, Charlie 15. -/
def exBoard : QuizSession :=
  { exRound with
    Participants :=
      [("p1", exHost), ("p2", { exAlice with Score := 10 }), ("p3", { exBob with Score := 5 }),
       ("p6", { exCarol with ID := "p6", Name := "Charlie", Score := 15 })],
    State := .StateFinished }

/-- A finished session with the host and the scores Alice 5, Bob 5, Carol 10. -/
def exTied : QuizSession :=
  { exRound with
    Participants :=
      [("p1", exHost), ("p2", { exAlice with Score := 5 }), ("p3", { exBob with Score := 5 }),
       ("p4", { exCarol with Score := 10 })],
    State := .StateFinished }

/-- A session of the host, a spectator, with two players; the argument is the
answered flag of the host. -/
def exTrio (hostAnswered : Bool) : QuizSession :=
  { exRound with
    Participants :=
      [("p1", { exHost with HasAnswered := hostAnswered }), ("p2", exAlice), ("p4", exCarol)] }

/-- The session with an open question and nobody but the host. -/
def exSolo : QuizSession := { exRound with Participants := [("p1", exHost)] }

/-- A store holding the session of the host alone. -/
def exSoloStore : Manager := { sessions := [("AB12CD34", exSolo)] }

/-- A store holding the waiting session with two participants. -/
def exOpenLobbyStore : Manager := { sessions := [("AB12CD34", exOpenLobby)] }

/-- A store holding the session in Answer state after its second question. -/
def exMidStore : Manager := { sessions := [("AB12CD34", exMidAnswer)] }

/-- A store holding the finished session with three distinct scores. -/
def exBoardStore : Manager := { sessions := [("AB12CD34", exBoard)] }

/-- A store holding the finished session with two equal scores. -/
def exTiedStore : Manager := { sessions := [("AB12CD34", exTied)] }

/-- A store of two sessions, the second created two hours after the first. -/
def exTwoStore : Manager :=
  { sessions :=
      [("AB12CD34", exRound),
       ("0F9E8D7C", { exLobby with Code := "0F9E8D7C", CreatedAt := 100 + 2 * Hour })] }

/-- The calls of a short game: the host and Carol join, the quiz starts, Carol
answers, the answer is revealed and the second question opens. -/
def exOps : List Op :=
  [.createSession exQuiz (0xab, 0x12, 0xcd, 0x34) 100,
   .addParticipant "AB12CD34" "p1" "Host" 110,
   .addParticipant "AB12CD34" "p4" "Carol" 135,
   .startQuiz "AB12CD34" 140,
   .submitAnswer "AB12CD34" "p4" "A" 150,
   .revealAnswer "AB12CD34",
   .nextQuestion "AB12CD34" 160]

/-- The session that the calls `exOps` leave. -/
def exPlayed : QuizSession :=
  { exLobby with
    Participants :=
      [("p1", exHost), ("p4", { exCarol with Score := 1, CurrentStreak := 1, AnsweredAt := 150 })],
    CreatorID := "p1", CurrentQuestion := 1, State := .StateQuestion, QuestionStarted := 160 }

/-- The first question of the example quiz. -/
def exFirstQuestion : Question :=
  { Text := "Question 1?", Options := ["A", "B", "C"], Answer := "A" }

/-- The second question of the example quiz. -/
def exSecondQuestion : Question :=
  { Text := "Question 2?", Options := ["A", "B", "C"], Answer := "B" }

/-- The first five calls of `exOps`: Carol has answered the first question. -/
def exOpsAnswered : List Op := exOps.take 5

/-- The session that the calls `exOpsAnswered` leave. -/
def exAnswered : QuizSession := submitted (started exOpenLobby 140) "p4" "A" 150

/-- The host is admitted twice under the same id. -/
def exReadmitOps : List Op :=
  [.createSession exQuiz (0xab, 0x12, 0xcd, 0x34) 100,
   .addParticipant "AB12CD34" "p1" "Host" 110,
   .addParticipant "AB12CD34" "p1" "Host" 120]

/-- The session that the calls `exReadmitOps` leave. -/
def exReadmitted : QuizSession :=
  { exLobby with
    Participants := [("p1", newParticipant "p1" "Host" false 120)], CreatorID := "p1" }

/-- The quiz of the tests: one question with the options A, B, C and the answer A. -/
def exSingleQuiz (streakBonus quickestAnswerBonus : Bool) : Quiz :=
  { Title := "Test Quiz", TimePerQuestion := 30, TimeBetweenQuestions := 0,
    StreakBonus := streakBonus, QuickestAnswerBonus := quickestAnswerBonus,
    Questions := [exFirstQuestion] }

/-- A game on the one-question quiz: after the host, Alice and Bob join; the quiz
starts; Alice submits "A" and Bob submits "B". -/
def exEndToEndOps (streakBonus quickestAnswerBonus : Bool) : List Op :=
  [.createSession (exSingleQuiz streakBonus quickestAnswerBonus) (0xab, 0x12, 0xcd, 0x34) 100,
   .addParticipant "AB12CD34" "p0" "Host" 110,
   .addParticipant "AB12CD34" "p1" "Alice" 120,
   .addParticipant "AB12CD34" "p2" "Bob" 130,
   .startQuiz "AB12CD34" 140,
   .submitAnswer "AB12CD34" "p1" "A" 150,
   .submitAnswer "AB12CD34" "p2" "B" 160]

/-- The store of `TestRevealAnswer` before the reveal: Alice and Bob are added with
the flag `false`, the quiz is started, Alice submits "A" and Bob submits "B". -/
def exTestRevealStore : Manager :=
  let m := (CreateSession NewManager (exSingleQuiz false false) (0xab, 0x12, 0xcd, 0x34) 100).1
  let m := (AddParticipantRequested m "AB12CD34" "p1" "Alice" false 110).1
  let m := (AddParticipantRequested m "AB12CD34" "p2" "Bob" false 120).1
  let m := (StartQuiz m "AB12CD34" 130).1
  let m := (SubmitAnswer m "AB12CD34" "p1" "A" 140).1
  (SubmitAnswer m "AB12CD34" "p2" "B" 150).1

/-- The store of `TestGetLeaderboard` before the scores are set: Alice, Bob and
Charlie are added with the flag `false` and the quiz is started. -/
def exTestBoardStore : Manager :=
  let m := (CreateSession NewManager (exSingleQuiz false false) (0xab, 0x12, 0xcd, 0x34) 100).1
  let m := (AddParticipantRequested m "AB12CD34" "p1" "Alice" false 110).1
  let m := (AddParticipantRequested m "AB12CD34" "p2" "Bob" false 120).1
  let m := (AddParticipantRequested m "AB12CD34" "p3" "Charlie" false 125).1
  (StartQuiz m "AB12CD34" 130).1

/-! ## The quiz parser: the library functions it calls -/

/-- The function `unicode.IsSpace`: the white space that `strings.TrimSpace` cuts
off, namely tab, line feed, vertical tab, form feed, carriage return, space, U+0085,
U+00A0 and the characters of the Unicode property White_Space above them. -/
def IsSpace (c : Char) : Bool :=
  (0x09 ≤ c.toNat && c.toNat ≤ 0x0d) || c.toNat = 0x20 || c.toNat = 0x85 ||
  c.toNat = 0xa0 || c.toNat = 0x1680 || (0x2000 ≤ c.toNat && c.toNat ≤ 0x200a) ||
  c.toNat = 0x2028 || c.toNat = 0x2029 || c.toNat = 0x202f || c.toNat = 0x205f ||
  c.toNat = 0x3000

/-- The function `strings.TrimSpace`: the text without its leading and trailing
white space. -/
def TrimSpace (s : String) : String :=
  String.mk ((s.toList.dropWhile IsSpace).rdropWhile IsSpace)

/-- The function `unicode.ToLower` as far as the parser can tell: the letters A to Z
become a to z, and the two characters outside ASCII whose lower case is an ASCII
letter, U+0130 and U+212A, become i and k.  Every other character outside ASCII is
left as it is: its lower case is outside ASCII as well, and the parser compares
lowered text with ASCII words, digits and signs only. -/
def toLowerRune (c : Char) : Char :=
  if c.toNat = 0x130 then 'i' else if c.toNat = 0x212a then 'k' else c.toLower

/-- The function `strings.ToLower`. -/
def ToLower (s : String) : String :=
  String.mk (s.toList.map toLowerRune)

/-- The function `strings.HasPrefix`. -/
def HasPrefix (s pre : String) : Bool :=
  pre.toList.isPrefixOf s.toList

/-- The function `strings.TrimPrefix`: the text without the given beginning, or the
text itself when it does not begin so. -/
def TrimPrefix (s pre : String) : String :=
  if HasPrefix s pre then String.mk (s.toList.drop pre.length) else s

/-- The function `strings.Contains` for a separator of one character. -/
def Contains (s : String) (sep : Char) : Bool :=
  s.toList.contains sep

/-- The call `strings.SplitN(s, sep, 2)` for a separator of one character that the
text contains: the text before the first separator and the text after it. -/
def SplitN2 (s : String) (sep : Char) : String × String :=
  (String.mk (s.toList.takeWhile (fun c => c != sep)),
    String.mk ((s.toList.dropWhile (fun c => c != sep)).drop 1))

/-- The value of a text of decimal digits. -/
def digitsValue (ds : List Char) : Nat :=
  ds.foldl (fun acc c => acc * 10 + (c.toNat - 48)) 0

/-- A Go `int` of 64 bits after an arithmetic operation: the result wraps around. -/
def wrapInt (x : Int) : Int :=
  (x + 2 ^ 63) % 2 ^ 64 - 2 ^ 63

/-- The text after the sign that `strconv.Atoi` takes off the number. -/
def afterSign : List Char → List Char
  | '-' :: rest => rest
  | '+' :: rest => rest
  | all => all

/-- The function `strconv.Atoi`: an optional sign and at least one decimal digit,
with a value that a Go `int` of 64 bits holds. -/
def Atoi (s : String) : Outcome Int :=
  let digits : List Char := afterSign s.toList
  if digits = [] ∨ digits.all Char.isDigit = false then
    .error ("strconv.Atoi: parsing \"" ++ s ++ "\": invalid syntax")
  else if s.toList.head? = some '-' then
    if digitsValue digits ≤ 2 ^ 63 then .ok (-(digitsValue digits : Int))
    else .error ("strconv.Atoi: parsing \"" ++ s ++ "\": value out of range")
  else if digitsValue digits < 2 ^ 63 then .ok (digitsValue digits : Int)
  else .error ("strconv.Atoi: parsing \"" ++ s ++ "\": value out of range")

/-- The class `\s` of the package `regexp`: tab, line feed, form feed, carriage
return and space. -/
def isRegexpSpace (c : Char) : Bool :=
  c = '\t' || c = '\n' || c.toNat = 0x0c || c = '\r' || c = ' '

/-- The alternatives of the second group of the pattern of `parseDuration`, in the
order in which the pattern lists them. -/
def durationUnits : List String :=
  ["second", "sec", "s", "minute", "min", "m"]

/-- A match of `(second|sec|s|minute|min|m)s?` at the beginning of a text: the first
alternative that the text begins with.  The optional `s` after it never fails and
is in no group. -/
def matchUnit (s : List Char) : Option String :=
  durationUnits.find? (fun u => u.toList.isPrefixOf s)

/-- A match of `\s*(second|sec|s|minute|min|m)s?` at the beginning of a text: the
star takes as many characters as it can and gives them back one by one. -/
def matchSpacesUnit : List Char → Option String
  | [] => matchUnit []
  | c :: cs =>
    if isRegexpSpace c then
      match matchSpacesUnit cs with
      | some u => some u
      | none => matchUnit (c :: cs)
    else matchUnit (c :: cs)

/-- A match of the whole pattern `(\d+)\s*(second|sec|s|minute|min|m)s?` at the
beginning of a text, with its two groups: the plus takes as many digits as it can
and gives them back one by one. -/
def matchDuration : List Char → Option (List Char × String)
  | [] => none
  | c :: cs =>
    if c.isDigit then
      match matchDuration cs with
      | some (digits, u) => some (c :: digits, u)
      | none => (matchSpacesUnit cs).map (fun u => ([c], u))
    else none

/-- The call `re.FindStringSubmatch(s)` for the pattern of `parseDuration`: the
groups of the leftmost match, `none` for the nil slice. -/
def FindStringSubmatch : List Char → Option (List Char × String)
  | [] => none
  | c :: cs =>
    match matchDuration (c :: cs) with
    | some groups => some groups
    | none => FindStringSubmatch cs

/-- The constant `bufio.MaxScanTokenSize`. -/
def MaxScanTokenSize : Nat := 64 * 1024

/-- The lines of a text the way `bufio.ScanLines` cuts them: a line ends at a line
feed, the last one at the end of the text, and a text that ends in a line feed has
no empty line after it. -/
def splitLines : List Char → List (List Char)
  | [] => []
  | c :: cs =>
    if c = '\n' then [] :: splitLines cs
    else
      match splitLines cs with
      | [] => [[c]]
      | line :: lines => (c :: line) :: lines

/-- The step `dropCR` of `bufio.ScanLines`: a line loses one carriage return at its
end. -/
def dropCR (line : List Char) : List Char :=
  if line.getLast? = some '\r' then line.dropLast else line

/-- A `bufio.Scanner` with the default buffer over the text: the lines that `Scan`
yields, and whether it stopped with the error `ErrTooLong`, which it does at the
first line that with its line feed does not fit in `MaxScanTokenSize` bytes. -/
def scanLines (markdown : String) : List String × Bool :=
  let fit := (splitLines markdown.toList).takeWhile
    (fun line => decide ((String.mk line).utf8ByteSize < MaxScanTokenSize))
  (fit.map (fun line => String.mk (dropCR line)),
    decide (fit.length < (splitLines markdown.toList).length))

/-! ## The quiz parser -/

/-- The tail of `parseDuration`: the text as a number of seconds. -/
def parseNumber (s : String) : Outcome Int :=
  match Atoi s with
  | .ok value => .ok value
  | _ => .error ("invalid duration format: " ++ s)

/-- Parses time strings like "10 seconds", "1 minute", "30s": `parseDuration`. -/
def parseDuration (s : String) : Outcome Int :=
  let s := ToLower (TrimSpace s)
  match FindStringSubmatch s.toList with
  | some (digits, unit) =>
    match Atoi (String.mk digits) with
    | .ok value =>
      if unit = "minute" ∨ unit = "min" ∨ unit = "m" then .ok (wrapInt (value * 60))
      else if unit = "second" ∨ unit = "sec" ∨ unit = "s" then .ok value
      else parseNumber s
    | .error msg => .error msg
    | .panic => .panic
  | none => parseNumber s

/-- Parses boolean strings like "true", "yes", "1", "on": `parseBool`. -/
def parseBool (s : String) : Bool :=
  let s := ToLower (TrimSpace s)
  s = "true" || s = "yes" || s = "1" || s = "on"

/-- The variables of the loop of `ParseQuizMarkdown`: the quiz built so far, the
question that `currentQuestion` points to (`none` for nil) and the flag
`inSettings`. -/
structure ParseState where
  quiz : Quiz
  currentQuestion : Option Question
  inSettings : Bool
  deriving DecidableEq, Repr

/-- The statement `if currentQuestion != nil && currentQuestion.Text != ""` with
its `append`: the quiz with the current question saved. -/
def saveQuestion (quiz : Quiz) (currentQuestion : Option Question) : Quiz :=
  match currentQuestion with
  | some q => if q.Text ≠ "" then { quiz with Questions := quiz.Questions ++ [q] } else quiz
  | none => quiz

/-- A line of the settings section that contains a colon: the setting it names is
stored, a duration that does not parse and a key that is not known are passed
over. -/
def parseSetting (quiz : Quiz) (trimmed : String) : Quiz :=
  let parts := SplitN2 trimmed ':'
  let key := TrimSpace parts.1
  let value := TrimSpace parts.2
  if key = "time_per_question" then
    match parseDuration value with
    | .ok timeVal => { quiz with TimePerQuestion := timeVal }
    | _ => quiz
  else if key = "time_between_questions" then
    match parseDuration value with
    | .ok timeVal => { quiz with TimeBetweenQuestions := timeVal }
    | _ => quiz
  else if key = "streak_bonus" then { quiz with StreakBonus := parseBool value }
  else quiz

/-- The last three cases of the loop body: a question line, an option line and an
answer line; any other line is passed over. -/
def parseQuestionLine (st : ParseState) (trimmed : String) : ParseState :=
  if HasPrefix trimmed "###" then
    { st with
      quiz := saveQuestion st.quiz st.currentQuestion
      currentQuestion :=
        some { Text := TrimSpace (TrimPrefix trimmed "###"), Options := [], Answer := "" } }
  else if HasPrefix trimmed "-" ∧ st.currentQuestion.isSome then
    { st with
      currentQuestion := st.currentQuestion.map (fun q =>
        { q with Options := q.Options ++ [TrimSpace (TrimPrefix trimmed "-")] }) }
  else if HasPrefix trimmed "*" ∧ st.currentQuestion.isSome then
    if HasPrefix (TrimSpace (TrimPrefix trimmed "*")) "Answer:" then
      { st with
        currentQuestion := st.currentQuestion.map (fun q =>
          { q with
            Answer := TrimSpace (TrimPrefix (TrimSpace (TrimPrefix trimmed "*")) "Answer:") }) }
    else st
  else st

/-- The body of the loop of `ParseQuizMarkdown` for one line. -/
def parseLine (st : ParseState) (line : String) : ParseState :=
  let trimmed := TrimSpace line
  if trimmed = "" then st
  else if trimmed = "# Settings" then { st with inSettings := true }
  else if HasPrefix trimmed "# " ∧ st.quiz.Title = "" ∧ st.inSettings = false then
    { st with quiz := { st.quiz with Title := TrimPrefix trimmed "# " } }
  else if st.inSettings then
    if HasPrefix trimmed "#" then parseQuestionLine { st with inSettings := false } trimmed
    else if Contains trimmed ':' then { st with quiz := parseSetting st.quiz trimmed }
    else parseQuestionLine st trimmed
  else parseQuestionLine st trimmed

/-- The quiz with which `ParseQuizMarkdown` starts: thirty seconds for a question,
five between two questions. -/
def newQuiz : Quiz :=
  { Title := "", TimePerQuestion := 30, TimeBetweenQuestions := 5, StreakBonus := false,
    QuickestAnswerBonus := false, Questions := [] }

/-- The quiz that `ParseQuizMarkdown` has read when its loop is over and the last
question is added, before it is validated. -/
def parsedQuiz (markdown : String) : Quiz :=
  let st := (scanLines markdown).1.foldl parseLine
    { quiz := newQuiz, currentQuestion := none, inSettings := false }
  saveQuestion st.quiz st.currentQuestion

/-- The inner loop of the validation: whether an option equals the answer. -/
def answerFound (answer : String) : List String → Bool
  | [] => false
  | opt :: rest => if opt = answer then true else answerFound answer rest

/-- The loop of the validation over the questions from number `i + 1` on: the
message of the first check that fails. -/
def validateQuestions : List Question → Nat → Option String
  | [], _ => none
  | q :: rest, i =>
    if q.Text = "" then some ("question " ++ toString (i + 1) ++ " has no text")
    else if q.Options.length = 0 then some ("question " ++ toString (i + 1) ++ " has no options")
    else if q.Answer = "" then some ("question " ++ toString (i + 1) ++ " has no answer")
    else if answerFound q.Answer q.Options = false then
      some ("question " ++ toString (i + 1) ++ ": answer \x27" ++ q.Answer ++
        "\x27 not found in options")
    else validateQuestions rest (i + 1)

/-- Parses a markdown string into a quiz: `ParseQuizMarkdown`. -/
def ParseQuizMarkdown (markdown : String) : Outcome Quiz :=
  let quiz := parsedQuiz markdown
  if (scanLines markdown).2 then
    .error "error reading markdown: bufio.Scanner: token too long"
  else if quiz.Title = "" then .error "quiz must have a title"
  else if quiz.Questions.length = 0 then .error "quiz must have at least one question"
  else
    match validateQuestions quiz.Questions 0 with
    | some msg => .error msg
    | none => .ok quiz

/-- The markdown of the test `TestParseQuizMarkdown`. -/
def exMarkdown : String :=
  "# My Quiz Title\n\n# Settings\ntime_per_question: 10 seconds\n\n\n" ++
  "### What is the capital of France?\n- Berlin\n- Madrid\n- Paris\n- Rome\n* Answer: Paris\n" ++
  "    \n### What is 2 + 2?\n- 3\n- 4\n- 5\n- 6\n* Answer: 4\n\n" ++
  "### What is the largest mammal in the world?\n- Elephant\n- Blue Whale\n" ++
  "- Great White Shark\n- Giraffe\n* Answer: Blue Whale"

/-- The quiz that the test `TestParseQuizMarkdown` expects. -/
def exParsed : Quiz :=
  { Title := "My Quiz Title", TimePerQuestion := 10, TimeBetweenQuestions := 5,
    StreakBonus := false, QuickestAnswerBonus := false,
    Questions :=
      [{ Text := "What is the capital of France?",
         Options := ["Berlin", "Madrid", "Paris", "Rome"], Answer := "Paris" },
       { Text := "What is 2 + 2?", Options := ["3", "4", "5", "6"], Answer := "4" },
       { Text := "What is the largest mammal in the world?",
         Options := ["Elephant", "Blue Whale", "Great White Shark", "Giraffe"],
         Answer := "Blue Whale" }] }

/-- The markdown of the test `TestParseQuizMarkdown_NoTitle`. -/
def exNoTitle : String :=
  "### Question 1?\n- Option A\n- Option B\n* Answer: Option A"

/-- The markdown of the test `TestParseQuizMarkdown_NoQuestions`. -/
def exNoQuestions : String :=
  "# My Quiz"

/-- The markdown of the test `TestParseQuizMarkdown_InvalidAnswer`. -/
def exInvalidAnswer : String :=
  "# My Quiz\n\n### Question 1?\n- Option A\n- Option B\n* Answer: Option C"

/-! ## Lemmas on Go maps -/

namespace GoMap

theorem get_modify_self {α : Type} (f : α → α) (m : GoMap α) (k : String) :
    get (modify f m k) k = (get m k).map f := by
  induction m with
  | nil => rfl
  | cons e rest ih =>
    obtain ⟨k', v⟩ := e
    by_cases h : k' = k
    · simp [modify, get, h]
    · simp [modify, get, h, ih]

theorem get_modify_of_ne {α : Type} (f : α → α) (m : GoMap α) (k k' : String) (h : k' ≠ k) :
    get (modify f m k) k' = get m k' := by
  induction m with
  | nil => rfl
  | cons e rest ih =>
    obtain ⟨k₀, v⟩ := e
    by_cases h₀ : k₀ = k
    · subst h₀
      have : ¬ k₀ = k' := fun e => h e.symm
      simp [modify, get, this]
    · by_cases h₁ : k₀ = k'
      · subst h₁
        simp [modify, get, h₀]
      · simp [modify, get, h₀, h₁, ih]

theorem get_set_self {α : Type} (m : GoMap α) (k : String) (v : α) :
    get (set m k v) k = some v := by
  induction m with
  | nil => simp [set, get]
  | cons e rest ih =>
    obtain ⟨k', v'⟩ := e
    by_cases h : k' = k <;> simp [set, get, h, ih]

theorem get_set_of_ne {α : Type} (m : GoMap α) (k k' : String) (v : α) (h : k' ≠ k) :
    get (set m k v) k' = get m k' := by
  induction m with
  | nil =>
    have : ¬ k = k' := fun e => h e.symm
    simp [set, get, this]
  | cons e rest ih =>
    obtain ⟨k₀, v₀⟩ := e
    by_cases h₀ : k₀ = k
    · subst h₀
      have : ¬ k₀ = k' := fun e => h e.symm
      simp [set, get, this]
    · by_cases h₁ : k₀ = k'
      · subst h₁
        simp [set, get, h₀]
      · simp [set, get, h₀, h₁, ih]

theorem modify_eq_self {α : Type} (f : α → α) (m : GoMap α) (k : String)
    (h : ∀ v, get m k = some v → f v = v) : modify f m k = m := by
  induction m with
  | nil => rfl
  | cons e rest ih =>
    obtain ⟨k', v⟩ := e
    by_cases h' : k' = k
    · have := h v (by simp [get, h'])
      simp [modify, h', this]
    · have := ih (fun v hv => h v (by simpa [get, h'] using hv))
      simp [modify, h', this]

theorem keys_modify {α : Type} (f : α → α) (m : GoMap α) (k : String) :
    (modify f m k).map Prod.fst = m.map Prod.fst := by
  induction m with
  | nil => rfl
  | cons e rest ih =>
    obtain ⟨k', v⟩ := e
    by_cases h : k' = k <;> simp [modify, h]
    simpa using ih

theorem get_map_snd {α : Type} (g : α → α) (m : GoMap α) (k : String) :
    get (m.map (fun e => (e.1, g e.2))) k = (get m k).map g := by
  induction m with
  | nil => rfl
  | cons e rest ih =>
    obtain ⟨k', v⟩ := e
    by_cases h : k' = k <;> simp [get, h]
    simpa [get] using ih

theorem length_set_of_get_none {α : Type} (m : GoMap α) (k : String) (v : α)
    (h : get m k = none) : (set m k v).length = m.length + 1 := by
  induction m with
  | nil => rfl
  | cons e rest ih =>
    obtain ⟨k', v'⟩ := e
    by_cases h' : k' = k
    · simp [get, h'] at h
    · simp only [get, h', if_false] at h
      simp [set, h', ih h]

theorem get_forEach {α : Type} (f : α → α) (m : GoMap α) (k : String) :
    get (forEach f m) k = (get m k).map f :=
  get_map_snd f m k

theorem keys_forEach {α : Type} (f : α → α) (m : GoMap α) :
    (forEach f m).map Prod.fst = m.map Prod.fst := by
  simp [forEach, List.map_map, Function.comp_def]

theorem get_filter_of_wf {α : Type} (P : String × α → Bool) (m : GoMap α) (k : String)
    (hwf : m.WF) : get (m.filter P) k = (get m k).filter (fun v => P (k, v)) := by
  induction m with
  | nil => rfl
  | cons e rest ih =>
    obtain ⟨k', v⟩ := e
    simp only [WF, List.map_cons, List.nodup_cons, List.mem_map, not_exists, not_and] at hwf
    by_cases hk : k' = k
    · subst hk
      have hnone : get rest k' = none := by
        clear ih
        induction rest with
        | nil => rfl
        | cons e' rest' ih' =>
          have h1 : ¬ e'.1 = k' := hwf.1 e' (List.mem_cons_self _ _)
          simp only [get, h1, if_false]
          exact ih' ⟨fun x hx => hwf.1 x (List.mem_cons_of_mem _ hx), (List.nodup_cons.mp hwf.2).2⟩
      by_cases hP : P (k', v) = true
      · simp [List.filter_cons, hP, get, Option.filter]
      · have hrest := ih hwf.2
        simp only [hnone] at hrest
        simp [List.filter_cons, hP, get, Option.filter, hrest]
    · have hrest := ih hwf.2
      by_cases hP : P (k', v) = true
      · simp [List.filter_cons, hP, get, hk, hrest]
      · simp [List.filter_cons, hP, get, hk, hrest]

theorem mem_of_get {α : Type} (m : GoMap α) (k : String) (v : α) (h : get m k = some v) :
    (k, v) ∈ m := by
  induction m with
  | nil => simp [get] at h
  | cons e rest ih =>
    obtain ⟨k', v'⟩ := e
    by_cases hk : k' = k
    · simp only [get, hk, if_true, Option.some.injEq] at h
      simp [hk, h]
    · simp only [get, hk, if_false] at h
      exact List.mem_cons_of_mem _ (ih h)

theorem get_filter_key {α : Type} (Q : String → Bool) (m : GoMap α) (k : String) :
    get (m.filter (fun e => Q e.1)) k = if Q k = true then get m k else none := by
  induction m with
  | nil => simp [get]
  | cons e rest ih =>
    obtain ⟨k', v⟩ := e
    by_cases hk : k' = k
    · subst hk
      by_cases hQ : Q k' = true
      · simp [List.filter_cons, hQ, get]
      · simp only [List.filter_cons, hQ, if_false, Bool.false_eq_true]
        rw [ih]
        simp [hQ]
    · by_cases hQ : Q k' = true
      · simp [List.filter_cons, hQ, get, hk, ih]
      · simp [List.filter_cons, hQ, get, hk, ih]

theorem get_modify_const {α : Type} (v' : α) (m : GoMap α) (k code : String) (v : α)
    (h : get m k = some v) :
    get (modify (fun _ => v') m k) code = if code = k then some v' else get m code := by
  by_cases hc : code = k
  · subst hc
    simp [get_modify_self, h]
  · simp [hc, get_modify_of_ne _ _ _ _ hc]

theorem get_modify_isSome {α : Type} (f : α → α) (m : GoMap α) (k code : String) :
    (get (modify f m k) code).isSome = (get m code).isSome := by
  by_cases hc : code = k
  · subst hc
    rw [get_modify_self]
    cases get m code <;> rfl
  · rw [get_modify_of_ne _ _ _ _ hc]

theorem keys_set {α : Type} (m : GoMap α) (k : String) (v : α) :
    (set m k v).map Prod.fst = m.map Prod.fst ∨
      ((set m k v).map Prod.fst = m.map Prod.fst ++ [k] ∧ k ∉ m.map Prod.fst) := by
  induction m with
  | nil => exact Or.inr ⟨rfl, by simp⟩
  | cons e rest ih =>
    obtain ⟨k', v'⟩ := e
    by_cases hk : k' = k
    · exact Or.inl (by simp [set, hk])
    · rcases ih with h | ⟨h, hn⟩
      · exact Or.inl (by simp [set, hk, h])
      · refine Or.inr ⟨by simp [set, hk, h], ?_⟩
        simp only [List.map_cons, List.mem_cons, not_or]
        exact ⟨fun h' => hk h'.symm, hn⟩

theorem wf_set {α : Type} (m : GoMap α) (k : String) (v : α) (h : m.WF) : (set m k v).WF := by
  unfold WF at h ⊢
  rcases keys_set m k v with h' | ⟨h', hn⟩
  · rw [h']; exact h
  · rw [h']
    exact List.Nodup.append h (List.nodup_singleton k)
      (by simpa [List.disjoint_singleton] using hn)

theorem wf_modify {α : Type} (f : α → α) (m : GoMap α) (k : String) (h : m.WF) :
    (modify f m k).WF := by
  unfold WF at h ⊢
  rw [keys_modify]; exact h

theorem wf_forEach {α : Type} (f : α → α) (m : GoMap α) (h : m.WF) : (forEach f m).WF := by
  unfold WF at h ⊢
  rw [keys_forEach]; exact h

theorem mem_modify {α : Type} (f : α → α) (m : GoMap α) (k : String) (e : String × α)
    (h : e ∈ modify f m k) : e ∈ m ∨ ∃ v, (k, v) ∈ m ∧ e = (k, f v) := by
  induction m with
  | nil => simp [modify] at h
  | cons e₀ rest ih =>
    obtain ⟨k', v⟩ := e₀
    by_cases hk : k' = k
    · subst hk
      simp only [modify, if_true, List.mem_cons] at h
      rcases h with rfl | h
      · exact Or.inr ⟨v, List.mem_cons_self _ _, rfl⟩
      · exact Or.inl (List.mem_cons_of_mem _ h)
    · simp only [modify, hk, if_false, List.mem_cons] at h
      rcases h with rfl | h
      · exact Or.inl (List.mem_cons_self _ _)
      · rcases ih h with h' | ⟨v', hv', he⟩
        · exact Or.inl (List.mem_cons_of_mem _ h')
        · exact Or.inr ⟨v', List.mem_cons_of_mem _ hv', he⟩

end GoMap

/-! ## Lemmas on the scoring loop -/

theorem scoreParticipant_fst (b : Bool) (q : Question) (p : Participant) :
    (scoreParticipant b q p).1 = scored b q p := by
  unfold scoreParticipant scored
  by_cases h : p.CurrentAnswer = q.Answer <;> cases b <;> simp [h]

theorem scoreParticipant_snd (b : Bool) (q : Question) (p : Participant) :
    (scoreParticipant b q p).2 =
      { Name := p.Name, Answer := p.CurrentAnswer,
        IsCorrect := decide (p.CurrentAnswer = q.Answer),
        Score := (scored b q p).Score, Streak := (scored b q p).CurrentStreak,
        StreakBonus :=
          if p.CurrentAnswer = q.Answer ∧ b = true then calculateStreakBonus (p.CurrentStreak + 1)
          else 0,
        QuickestAnswerFlag := false } := by
  unfold scoreParticipant scored
  by_cases h : p.CurrentAnswer = q.Answer <;> cases b <;> simp [h]

theorem revealLoop_fst (b : Bool) (q : Question) (ps : GoMap Participant) :
    (revealLoop b q ps).1 =
      ps.map (fun e => (e.1, if e.2.IsSpectator then e.2 else scored b q e.2)) := by
  induction ps with
  | nil => rfl
  | cons e rest ih =>
    obtain ⟨id, p⟩ := e
    by_cases h : p.IsSpectator = true
    · simp [revealLoop, h, ih]
    · simp [revealLoop, h, ih, scoreParticipant_fst]

theorem revealLoop_forall₂_before (b : Bool) (q : Question)
    (R : String × Participant → ParticipantInfo → Prop)
    (hR : ∀ id p, p.IsSpectator = false → R (id, p) (scoreParticipant b q p).2)
    (ps : GoMap Participant) :
    List.Forall₂ R (ps.filter (fun e => !e.2.IsSpectator)) (revealLoop b q ps).2 := by
  induction ps with
  | nil => exact List.Forall₂.nil
  | cons e rest ih =>
    obtain ⟨id, p⟩ := e
    by_cases h : p.IsSpectator = true
    · simpa [revealLoop, h] using ih
    · have h' : p.IsSpectator = false := by simpa using h
      simpa [revealLoop, h'] using And.intro (hR id p h') ih

theorem revealLoop_forall₂_after (b : Bool) (q : Question)
    (R : String × Participant → ParticipantInfo → Prop)
    (hR : ∀ id p, p.IsSpectator = false →
      R (id, (scoreParticipant b q p).1) (scoreParticipant b q p).2)
    (ps : GoMap Participant) :
    List.Forall₂ R ((revealLoop b q ps).1.filter (fun e => !e.2.IsSpectator))
      (revealLoop b q ps).2 := by
  induction ps with
  | nil => exact List.Forall₂.nil
  | cons e rest ih =>
    obtain ⟨id, p⟩ := e
    by_cases h : p.IsSpectator = true
    · simpa [revealLoop, h] using ih
    · have h' : p.IsSpectator = false := by simpa using h
      have hs : (scoreParticipant b q p).1.IsSpectator = false := by
        rw [scoreParticipant_fst]; simpa [scored] using h'
      simpa [revealLoop, h', hs] using And.intro (hR id p h') ih

/-! ## The branches of `RevealAnswer` and `SubmitAnswer` -/

theorem RevealAnswer_ok (m : Manager) (code : String) (session : QuizSession)
    (currentQ : Question) (hs : m.sessions.get code = some session)
    (hstate : session.State = .StateQuestion)
    (hq : index session.Quiz.Questions session.CurrentQuestion = some currentQ) :
    RevealAnswer m code =
      ({ sessions := m.sessions.modify (fun _ => revealed session currentQ) code },
        .ok { CorrectAnswer := currentQ.Answer,
              Participants :=
                (revealLoop session.Quiz.StreakBonus currentQ session.Participants).2 }) := by
  simp [RevealAnswer, hs, hstate, hq, revealed]

theorem RevealAnswer_wrong_state (m : Manager) (code : String) (session : QuizSession)
    (hs : m.sessions.get code = some session) (hstate : session.State ≠ .StateQuestion) :
    RevealAnswer m code = (m, .error "not in question state") := by
  simp [RevealAnswer, hs, hstate]

theorem revealed_get (session : QuizSession) (currentQ : Question) (participantID : String) :
    (revealed session currentQ).Participants.get participantID =
      (session.Participants.get participantID).map
        (fun v => if v.IsSpectator then v else scored session.Quiz.StreakBonus currentQ v) := by
  simp only [revealed, revealLoop_fst]
  exact GoMap.get_map_snd
    (fun v => if v.IsSpectator then v else scored session.Quiz.StreakBonus currentQ v) _ _

theorem SubmitAnswer_ok (m : Manager) (code participantID answer : String) (now : Time)
    (session : QuizSession) (p : Participant)
    (hs : m.sessions.get code = some session)
    (hstate : session.State = .StateQuestion)
    (hp : session.Participants.get participantID = some p)
    (ha : p.HasAnswered = false) :
    SubmitAnswer m code participantID answer now =
      ({ sessions := m.sessions.modify (fun _ => submitted session participantID answer now) code },
        .ok ()) := by
  simp [SubmitAnswer, hs, hstate, hp, ha, submitted]

theorem SubmitAnswer_already (m : Manager) (code participantID answer : String) (now : Time)
    (session : QuizSession) (p : Participant)
    (hs : m.sessions.get code = some session)
    (hstate : session.State = .StateQuestion)
    (hp : session.Participants.get participantID = some p)
    (ha : p.HasAnswered = true) :
    SubmitAnswer m code participantID answer now =
      (m, .error "already answered this question") := by
  simp [SubmitAnswer, hs, hstate, hp, ha]

theorem SubmitAnswer_ok_iff (m : Manager) (code participantID answer : String) (now : Time) :
    (SubmitAnswer m code participantID answer now).2 = .ok () ↔
      ∃ session p, m.sessions.get code = some session ∧ session.State = .StateQuestion ∧
        session.Participants.get participantID = some p ∧ p.HasAnswered = false := by
  constructor
  · intro h
    cases hs : m.sessions.get code with
    | none => simp [SubmitAnswer, hs] at h
    | some session =>
      by_cases hstate : session.State = .StateQuestion
      · cases hp : session.Participants.get participantID with
        | none => simp [SubmitAnswer, hs, hstate, hp] at h
        | some p =>
          cases ha : p.HasAnswered with
          | true => simp [SubmitAnswer, hs, hstate, hp, ha] at h
          | false => exact ⟨session, p, rfl, hstate, hp, ha⟩
      · simp [SubmitAnswer, hs, hstate] at h
  · rintro ⟨session, p, hs, hstate, hp, ha⟩
    rw [SubmitAnswer_ok m code participantID answer now session p hs hstate hp ha]

theorem SubmitAnswer_fail_unchanged (m : Manager) (code participantID answer : String)
    (now : Time) (h : (SubmitAnswer m code participantID answer now).2 ≠ .ok ()) :
    (SubmitAnswer m code participantID answer now).1 = m := by
  cases hs : m.sessions.get code with
  | none => simp [SubmitAnswer, hs]
  | some session =>
    by_cases hstate : session.State = .StateQuestion
    · cases hp : session.Participants.get participantID with
      | none => simp [SubmitAnswer, hs, hstate, hp]
      | some p =>
        cases ha : p.HasAnswered with
        | true => simp [SubmitAnswer, hs, hstate, hp, ha]
        | false =>
          rw [SubmitAnswer_ok m code participantID answer now session p hs hstate hp ha] at h
          exact absurd rfl h
    · simp [SubmitAnswer, hs, hstate]

/-! ## The streak bonus -/

/-- C2: the streak bonus is 0 below 3 (negative streaks included), 1 for 3 and 4,
2 from 5 to 9, and 5 from 10 on. -/
theorem calculateStreakBonus_table (s : Int) :
    calculateStreakBonus s =
      if s < 3 then 0 else if s < 5 then 1 else if s < 10 then 2 else 5 := by
  unfold calculateStreakBonus
  split_ifs <;> omega

/-- C3: the streak bonus is monotonic non-decreasing in the streak. -/
theorem calculateStreakBonus_mono (a b : Int) (h : a ≤ b) :
    calculateStreakBonus a ≤ calculateStreakBonus b := by
  unfold calculateStreakBonus
  split_ifs <;> omega

/-- Witness of C3 at the streaks 4 and 10. -/
theorem calculateStreakBonus_mono_witness :
    (4 : Int) ≤ 10 ∧ calculateStreakBonus 4 ≤ calculateStreakBonus 10 :=
  ⟨by decide, calculateStreakBonus_mono 4 10 (by decide)⟩

/-! ## Revealing an answer -/

/-- C1: in a session in Question state whose current question is `currentQ`,
`RevealAnswer` rewrites a participant `p` who is not a spectator as follows.  If the
stored answer of `p` equals the answer of `currentQ`, the streak becomes the old
streak plus one and the score becomes the old score plus one plus, when the quiz has
its `StreakBonus` flag set, `calculateStreakBonus` of the new streak.  Otherwise the
streak becomes 0 and the score stays.  No other field of `p` changes.  The streak
and the score of `p` leave room for the step in a Go `int` of 64 bits: the streak
plus one and the score plus six, the point and the largest bonus, are below 2^63, so
that the sums of the code do not wrap around. -/
theorem RevealAnswer_scores_participant (m : Manager) (code participantID : String)
    (session : QuizSession) (currentQ : Question) (p : Participant)
    (hs : m.sessions.get code = some session)
    (hstate : session.State = .StateQuestion)
    (hq : index session.Quiz.Questions session.CurrentQuestion = some currentQ)
    (hp : session.Participants.get participantID = some p)
    (hspec : p.IsSpectator = false)
    (_hstreak : p.CurrentStreak + 1 < 2 ^ 63)
    (_hscore : p.Score + 6 < 2 ^ 63) :
    ∃ session' p',
      (RevealAnswer m code).1.sessions.get code = some session' ∧
      session'.Participants.get participantID = some p' ∧
      (p.CurrentAnswer = currentQ.Answer →
        p' = { p with
          CurrentStreak := p.CurrentStreak + 1
          Score := p.Score + 1 +
            (if session.Quiz.StreakBonus = true then calculateStreakBonus (p.CurrentStreak + 1)
             else 0) }) ∧
      (p.CurrentAnswer ≠ currentQ.Answer → p' = { p with CurrentStreak := 0 }) := by
  rw [RevealAnswer_ok m code session currentQ hs hstate hq]
  refine ⟨revealed session currentQ, scored session.Quiz.StreakBonus currentQ p, ?_, ?_, ?_, ?_⟩
  · simp only [GoMap.get_modify_self, hs, Option.map_some']
  · rw [revealed_get]
    simp [hp, hspec]
  · intro h
    simp [scored, h]
  · intro h
    simp [scored, h]

/-- Witness of C1: Alice, on a streak of two with the right answer stored. -/
theorem RevealAnswer_scores_participant_witness :
    exStore.sessions.get "AB12CD34" = some exRound ∧
    exRound.State = .StateQuestion ∧
    index exRound.Quiz.Questions exRound.CurrentQuestion = some exQuestion ∧
    exRound.Participants.get "p2" = some exAlice ∧
    exAlice.IsSpectator = false ∧
    exAlice.CurrentStreak + 1 < 2 ^ 63 ∧
    exAlice.Score + 6 < 2 ^ 63 ∧
    ∃ session' p',
      (RevealAnswer exStore "AB12CD34").1.sessions.get "AB12CD34" = some session' ∧
      session'.Participants.get "p2" = some p' ∧
      (exAlice.CurrentAnswer = exQuestion.Answer →
        p' = { exAlice with
          CurrentStreak := exAlice.CurrentStreak + 1
          Score := exAlice.Score + 1 +
            (if exRound.Quiz.StreakBonus = true then
              calculateStreakBonus (exAlice.CurrentStreak + 1)
             else 0) }) ∧
      (exAlice.CurrentAnswer ≠ exQuestion.Answer → p' = { exAlice with CurrentStreak := 0 }) :=
  ⟨by decide, by decide, by decide, by decide, by decide, by decide, by decide,
    RevealAnswer_scores_participant exStore "AB12CD34" "p2" exRound exQuestion exAlice
      (by decide) (by decide) (by decide) (by decide) (by decide) (by decide) (by decide)⟩

/-- C4: correctness is exact string equality.  In a session in Question state whose
current question is `currentQ`, the reveal lists the participants that are not
spectators, and the `IsCorrect` of each entry is true if and only if the stored
answer of that participant equals the answer of `currentQ`; an answer that is a
different string is reported incorrect also when it agrees with the correct answer
up to letter case or up to surrounding white space. -/
theorem RevealAnswer_isCorrect_exact (m : Manager) (code : String)
    (session : QuizSession) (currentQ : Question)
    (hs : m.sessions.get code = some session)
    (hstate : session.State = .StateQuestion)
    (hq : index session.Quiz.Questions session.CurrentQuestion = some currentQ) :
    ∃ reveal, (RevealAnswer m code).2 = .ok reveal ∧
      List.Forall₂
        (fun e info =>
          info.Answer = e.2.CurrentAnswer ∧
          (info.IsCorrect = true ↔ e.2.CurrentAnswer = currentQ.Answer) ∧
          (e.2.CurrentAnswer ≠ currentQ.Answer →
            (e.2.CurrentAnswer.toLower = currentQ.Answer.toLower ∨
              e.2.CurrentAnswer.trim = currentQ.Answer.trim) →
            info.IsCorrect = false))
        (session.Participants.filter (fun e => !e.2.IsSpectator)) reveal.Participants := by
  rw [RevealAnswer_ok m code session currentQ hs hstate hq]
  refine ⟨_, rfl, ?_⟩
  apply revealLoop_forall₂_before
  intro id p _
  rw [scoreParticipant_snd]
  refine ⟨rfl, by simp, fun h _ => by simpa using h⟩

/-- Witness of C4: the round in which Bob answered "paris" and Dave "Paris ". -/
theorem RevealAnswer_isCorrect_exact_witness :
    exStore.sessions.get "AB12CD34" = some exRound ∧
    exRound.State = .StateQuestion ∧
    index exRound.Quiz.Questions exRound.CurrentQuestion = some exQuestion ∧
    ∃ reveal, (RevealAnswer exStore "AB12CD34").2 = .ok reveal ∧
      List.Forall₂
        (fun e info =>
          info.Answer = e.2.CurrentAnswer ∧
          (info.IsCorrect = true ↔ e.2.CurrentAnswer = exQuestion.Answer) ∧
          (e.2.CurrentAnswer ≠ exQuestion.Answer →
            (e.2.CurrentAnswer.toLower = exQuestion.Answer.toLower ∨
              e.2.CurrentAnswer.trim = exQuestion.Answer.trim) →
            info.IsCorrect = false))
        (exRound.Participants.filter (fun e => !e.2.IsSpectator)) reveal.Participants :=
  ⟨by decide, by decide, by decide,
    RevealAnswer_isCorrect_exact exStore "AB12CD34" exRound exQuestion
      (by decide) (by decide) (by decide)⟩

/-- C5: in a session in Question state whose current question is `currentQ`,
`RevealAnswer` succeeds and leaves the session in Answer state.  The reveal carries
the answer of `currentQ` and one entry for each participant that is not a spectator,
in iteration order, none for a spectator.  An entry carries the name, the submitted
answer and the correctness of its participant, the streak bonus added in this round
(0 when the `StreakBonus` flag is off or the answer is incorrect), and the score and
the streak that the participant has in the session after the call. -/
theorem RevealAnswer_reveal (m : Manager) (code : String)
    (session : QuizSession) (currentQ : Question)
    (hs : m.sessions.get code = some session)
    (hstate : session.State = .StateQuestion)
    (hq : index session.Quiz.Questions session.CurrentQuestion = some currentQ) :
    ∃ session' reveal,
      (RevealAnswer m code).2 = .ok reveal ∧
      (RevealAnswer m code).1.sessions.get code = some session' ∧
      session'.State = .StateAnswer ∧
      reveal.CorrectAnswer = currentQ.Answer ∧
      reveal.Participants.length =
        (session.Participants.filter (fun e => !e.2.IsSpectator)).length ∧
      List.Forall₂
        (fun e info =>
          info.Name = e.2.Name ∧
          info.Answer = e.2.CurrentAnswer ∧
          info.IsCorrect = decide (e.2.CurrentAnswer = currentQ.Answer) ∧
          info.StreakBonus =
            (if session.Quiz.StreakBonus = true ∧ e.2.CurrentAnswer = currentQ.Answer then
              calculateStreakBonus (e.2.CurrentStreak + 1)
             else 0) ∧
          info.Score =
            e.2.Score + (if e.2.CurrentAnswer = currentQ.Answer then 1 else 0) +
              info.StreakBonus ∧
          (session.Quiz.StreakBonus = false ∨ info.IsCorrect = false → info.StreakBonus = 0))
        (session.Participants.filter (fun e => !e.2.IsSpectator)) reveal.Participants ∧
      List.Forall₂
        (fun e' info =>
          info.Name = e'.2.Name ∧ info.Score = e'.2.Score ∧ info.Streak = e'.2.CurrentStreak)
        (session'.Participants.filter (fun e => !e.2.IsSpectator)) reveal.Participants := by
  rw [RevealAnswer_ok m code session currentQ hs hstate hq]
  refine ⟨revealed session currentQ, _, rfl, ?_, rfl, rfl, ?_, ?_, ?_⟩
  · simp only [GoMap.get_modify_self, hs, Option.map_some']
  · exact ((revealLoop_forall₂_before _ _ (fun _ _ => True) (fun _ _ _ => trivial)
      _).length_eq).symm
  · apply revealLoop_forall₂_before
    intro id p _
    rw [scoreParticipant_snd]
    by_cases h : p.CurrentAnswer = currentQ.Answer <;>
      cases hb : session.Quiz.StreakBonus <;> simp [scored, h]
  · apply revealLoop_forall₂_after
    intro id p _
    rw [scoreParticipant_snd, scoreParticipant_fst]
    simp [scored]

/-- Witness of C5: the reveal of the third question of the example session. -/
theorem RevealAnswer_reveal_witness :
    exStore.sessions.get "AB12CD34" = some exRound ∧
    exRound.State = .StateQuestion ∧
    index exRound.Quiz.Questions exRound.CurrentQuestion = some exQuestion ∧
    ∃ session' reveal,
      (RevealAnswer exStore "AB12CD34").2 = .ok reveal ∧
      (RevealAnswer exStore "AB12CD34").1.sessions.get "AB12CD34" = some session' ∧
      session'.State = .StateAnswer ∧
      reveal.CorrectAnswer = exQuestion.Answer ∧
      reveal.Participants.length =
        (exRound.Participants.filter (fun e => !e.2.IsSpectator)).length ∧
      List.Forall₂
        (fun e info =>
          info.Name = e.2.Name ∧
          info.Answer = e.2.CurrentAnswer ∧
          info.IsCorrect = decide (e.2.CurrentAnswer = exQuestion.Answer) ∧
          info.StreakBonus =
            (if exRound.Quiz.StreakBonus = true ∧ e.2.CurrentAnswer = exQuestion.Answer then
              calculateStreakBonus (e.2.CurrentStreak + 1)
             else 0) ∧
          info.Score =
            e.2.Score + (if e.2.CurrentAnswer = exQuestion.Answer then 1 else 0) +
              info.StreakBonus ∧
          (exRound.Quiz.StreakBonus = false ∨ info.IsCorrect = false → info.StreakBonus = 0))
        (exRound.Participants.filter (fun e => !e.2.IsSpectator)) reveal.Participants ∧
      List.Forall₂
        (fun e' info =>
          info.Name = e'.2.Name ∧ info.Score = e'.2.Score ∧ info.Streak = e'.2.CurrentStreak)
        (session'.Participants.filter (fun e => !e.2.IsSpectator)) reveal.Participants :=
  ⟨by decide, by decide, by decide,
    RevealAnswer_reveal exStore "AB12CD34" exRound exQuestion
      (by decide) (by decide) (by decide)⟩

/-- C6: when the session exists and is not in Question state, `RevealAnswer`
returns the error "not in question state" and the store it returns is the store it
was given.  In particular, after a successful `RevealAnswer` a second one on the same
code fails with that error and returns the store of the first unchanged, so nobody is
scored twice. -/
theorem RevealAnswer_rejected_outside_question (m : Manager) (code : String) :
    (∀ session, m.sessions.get code = some session → session.State ≠ .StateQuestion →
      RevealAnswer m code = (m, .error "not in question state")) ∧
    (∀ reveal, (RevealAnswer m code).2 = .ok reveal →
      RevealAnswer (RevealAnswer m code).1 code =
        ((RevealAnswer m code).1, .error "not in question state")) := by
  refine ⟨fun session hs hstate => RevealAnswer_wrong_state m code session hs hstate, ?_⟩
  intro reveal hr
  cases hs : m.sessions.get code with
  | none => simp [RevealAnswer, hs] at hr
  | some session =>
    by_cases hstate : session.State = .StateQuestion
    · cases hq : index session.Quiz.Questions session.CurrentQuestion with
      | none => simp [RevealAnswer, hs, hstate, hq] at hr
      | some currentQ =>
        rw [RevealAnswer_ok m code session currentQ hs hstate hq]
        apply RevealAnswer_wrong_state _ _ (revealed session currentQ)
        · simp only [GoMap.get_modify_self, hs, Option.map_some']
        · simp [revealed]
    · simp [RevealAnswer, hs, hstate] at hr

/-- Witness of C6: a session in Answer state, and two reveals in a row. -/
theorem RevealAnswer_rejected_outside_question_witness :
    (exRevealedStore.sessions.get "AB12CD34" = some exRevealed ∧
      exRevealed.State ≠ .StateQuestion ∧
      RevealAnswer exRevealedStore "AB12CD34" =
        (exRevealedStore, .error "not in question state")) ∧
    ((∃ reveal, (RevealAnswer exStore "AB12CD34").2 = .ok reveal) ∧
      RevealAnswer (RevealAnswer exStore "AB12CD34").1 "AB12CD34" =
        ((RevealAnswer exStore "AB12CD34").1, .error "not in question state")) :=
  ⟨⟨by decide, by decide,
      (RevealAnswer_rejected_outside_question exRevealedStore "AB12CD34").1 exRevealed
        (by decide) (by decide)⟩,
    ⟨⟨_, rfl⟩, (RevealAnswer_rejected_outside_question exStore "AB12CD34").2 _ rfl⟩⟩

/-! ## Submitting an answer -/

/-- C7: in a session in Question state, a participant whose answered flag is set
and whose stored answer is `a1` cannot submit again: `SubmitAnswer` with any answer
`a2` returns the error "already answered this question" and the store it was given,
so the stored answer is still `a1`.  A participant is in that situation right after a
successful `SubmitAnswer` of `a1`. -/
theorem SubmitAnswer_second_rejected (m : Manager) (code participantID a1 a2 : String)
    (now : Time) :
    (∀ session p, m.sessions.get code = some session → session.State = .StateQuestion →
      session.Participants.get participantID = some p → p.HasAnswered = true →
      p.CurrentAnswer = a1 →
      SubmitAnswer m code participantID a2 now = (m, .error "already answered this question")) ∧
    (∀ now₁, (SubmitAnswer m code participantID a1 now₁).2 = .ok () →
      SubmitAnswer (SubmitAnswer m code participantID a1 now₁).1 code participantID a2 now =
        ((SubmitAnswer m code participantID a1 now₁).1,
          .error "already answered this question") ∧
      ∃ session₁ p₁,
        (SubmitAnswer m code participantID a1 now₁).1.sessions.get code = some session₁ ∧
        session₁.Participants.get participantID = some p₁ ∧ p₁.CurrentAnswer = a1) := by
  refine ⟨fun session p hs hstate hp ha _ =>
    SubmitAnswer_already m code participantID a2 now session p hs hstate hp ha, ?_⟩
  intro now₁ h
  obtain ⟨session, p, hs, hstate, hp, ha⟩ :=
    (SubmitAnswer_ok_iff m code participantID a1 now₁).1 h
  rw [SubmitAnswer_ok m code participantID a1 now₁ session p hs hstate hp ha]
  have hs₁ : (GoMap.modify (fun _ => submitted session participantID a1 now₁) m.sessions
      code).get code = some (submitted session participantID a1 now₁) := by
    simp only [GoMap.get_modify_self, hs, Option.map_some']
  have hp₁ : (submitted session participantID a1 now₁).Participants.get participantID =
      some { p with CurrentAnswer := a1, HasAnswered := true, AnsweredAt := now₁ } := by
    simp only [submitted, GoMap.get_modify_self, hp, Option.map_some']
  exact ⟨SubmitAnswer_already _ code participantID a2 now _ _ hs₁
    (by simpa [submitted] using hstate) hp₁ rfl, _, _, hs₁, hp₁, rfl⟩

/-- Witness of C7: Alice, who has answered, and Carol, who submits twice. -/
theorem SubmitAnswer_second_rejected_witness :
    (exStore.sessions.get "AB12CD34" = some exRound ∧
      exRound.State = .StateQuestion ∧
      exRound.Participants.get "p2" = some exAlice ∧
      exAlice.HasAnswered = true ∧
      exAlice.CurrentAnswer = "Paris" ∧
      SubmitAnswer exStore "AB12CD34" "p2" "Rome" 171 =
        (exStore, .error "already answered this question")) ∧
    ((SubmitAnswer exStore "AB12CD34" "p4" "Oslo" 170).2 = .ok () ∧
      SubmitAnswer (SubmitAnswer exStore "AB12CD34" "p4" "Oslo" 170).1 "AB12CD34" "p4"
          "Paris" 171 =
        ((SubmitAnswer exStore "AB12CD34" "p4" "Oslo" 170).1,
          .error "already answered this question") ∧
      ∃ session₁ p₁,
        (SubmitAnswer exStore "AB12CD34" "p4" "Oslo" 170).1.sessions.get "AB12CD34" =
          some session₁ ∧
        session₁.Participants.get "p4" = some p₁ ∧ p₁.CurrentAnswer = "Oslo") :=
  ⟨⟨by decide, by decide, by decide, by decide, by decide,
      (SubmitAnswer_second_rejected exStore "AB12CD34" "p2" "Paris" "Rome" 171).1
        exRound exAlice (by decide) (by decide) (by decide) (by decide) (by decide)⟩,
    ⟨by decide,
      (SubmitAnswer_second_rejected exStore "AB12CD34" "p4" "Oslo" "Paris" 171).2 170
        (by decide)⟩⟩

/-- C8: `SubmitAnswer` succeeds if and only if the session exists, is in Question
state, has the participant, and the participant has not answered yet.  On success the
participant has the submitted answer, the answered flag set and the submission time,
and is otherwise as before; every other participant, the keys of the participant map,
every other field of the session (state and index among them) and every other session
are as before.  On failure the store returned is the store given. -/
theorem SubmitAnswer_contract (m : Manager) (code participantID answer : String) (now : Time) :
    ((SubmitAnswer m code participantID answer now).2 = .ok () ↔
      ∃ session p, m.sessions.get code = some session ∧ session.State = .StateQuestion ∧
        session.Participants.get participantID = some p ∧ p.HasAnswered = false) ∧
    (∀ session p, m.sessions.get code = some session → session.State = .StateQuestion →
      session.Participants.get participantID = some p → p.HasAnswered = false →
      (SubmitAnswer m code participantID answer now).2 = .ok () ∧
      ∃ session',
        (SubmitAnswer m code participantID answer now).1.sessions.get code = some session' ∧
        session'.Participants.get participantID =
          some { p with CurrentAnswer := answer, HasAnswered := true, AnsweredAt := now } ∧
        (∀ other, other ≠ participantID →
          session'.Participants.get other = session.Participants.get other) ∧
        session'.Participants.map Prod.fst = session.Participants.map Prod.fst ∧
        session' = { session with Participants := session'.Participants } ∧
        (∀ code', code' ≠ code →
          (SubmitAnswer m code participantID answer now).1.sessions.get code' =
            m.sessions.get code')) ∧
    ((SubmitAnswer m code participantID answer now).2 ≠ .ok () →
      (SubmitAnswer m code participantID answer now).1 = m) := by
  refine ⟨SubmitAnswer_ok_iff m code participantID answer now, ?_,
    SubmitAnswer_fail_unchanged m code participantID answer now⟩
  intro session p hs hstate hp ha
  rw [SubmitAnswer_ok m code participantID answer now session p hs hstate hp ha]
  refine ⟨rfl, submitted session participantID answer now, ?_, ?_, ?_, ?_, rfl, ?_⟩
  · simp only [GoMap.get_modify_self, hs, Option.map_some']
  · simp only [submitted, GoMap.get_modify_self, hp, Option.map_some']
  · intro other hne
    simp only [submitted]
    exact GoMap.get_modify_of_ne _ _ _ _ hne
  · simp only [submitted]
    exact GoMap.keys_modify _ _ _
  · intro code' hne
    exact GoMap.get_modify_of_ne _ _ _ _ hne

/-- Witness of C8: Carol submits her first answer; Alice, who has answered, is
turned away. -/
theorem SubmitAnswer_contract_witness :
    (exStore.sessions.get "AB12CD34" = some exRound ∧
      exRound.State = .StateQuestion ∧
      exRound.Participants.get "p4" = some exCarol ∧
      exCarol.HasAnswered = false ∧
      (SubmitAnswer exStore "AB12CD34" "p4" "Oslo" 170).2 = .ok () ∧
      ∃ session',
        (SubmitAnswer exStore "AB12CD34" "p4" "Oslo" 170).1.sessions.get "AB12CD34" =
          some session' ∧
        session'.Participants.get "p4" =
          some { exCarol with CurrentAnswer := "Oslo", HasAnswered := true, AnsweredAt := 170 } ∧
        (∀ other, other ≠ "p4" →
          session'.Participants.get other = exRound.Participants.get other) ∧
        session'.Participants.map Prod.fst = exRound.Participants.map Prod.fst ∧
        session' = { exRound with Participants := session'.Participants } ∧
        (∀ code', code' ≠ "AB12CD34" →
          (SubmitAnswer exStore "AB12CD34" "p4" "Oslo" 170).1.sessions.get code' =
            exStore.sessions.get code')) ∧
    ((SubmitAnswer exStore "AB12CD34" "p2" "Rome" 171).2 ≠ .ok () ∧
      (SubmitAnswer exStore "AB12CD34" "p2" "Rome" 171).1 = exStore) :=
  ⟨⟨by decide, by decide, by decide, by decide,
      (SubmitAnswer_contract exStore "AB12CD34" "p4" "Oslo" 170).2.1 exRound exCarol
        (by decide) (by decide) (by decide) (by decide)⟩,
    ⟨by decide,
      (SubmitAnswer_contract exStore "AB12CD34" "p2" "Rome" 171).2.2 (by decide)⟩⟩

/-! ## Admitting a participant -/

/-- C9: the first participant admitted to a waiting session without participants is
stored as a spectator, whatever spectator flag the caller asked for, and becomes the
creator of the session. -/
theorem AddParticipant_first_is_creator (m : Manager) (code participantID name : String)
    (isSpectator : Bool) (now : Time) (session : QuizSession)
    (hs : m.sessions.get code = some session)
    (hstate : session.State = .StateWaiting)
    (hempty : session.Participants.length = 0) :
    (AddParticipantRequested m code participantID name isSpectator now).2 = .ok () ∧
    ∃ session' p,
      (AddParticipantRequested m code participantID name isSpectator now).1.sessions.get code =
        some session' ∧
      session'.Participants = [(participantID, p)] ∧
      p.ID = participantID ∧ p.Name = name ∧ p.IsSpectator = true ∧
      session'.CreatorID = participantID := by
  have hnil : session.Participants = [] := List.length_eq_zero.mp hempty
  refine ⟨by simp [AddParticipantRequested, AddParticipant, hs, hstate],
    { session with
      CreatorID := participantID
      Participants := [(participantID, newParticipant participantID name true now)] },
    newParticipant participantID name true now, ?_, rfl, rfl, rfl, rfl, rfl⟩
  simp [AddParticipantRequested, AddParticipant, hs, hstate, hnil, GoMap.get_modify_self,
    GoMap.set]

/-- Witness of C9: the host joins the waiting session and asks not to be a
spectator. -/
theorem AddParticipant_first_is_creator_witness :
    exLobbyStore.sessions.get "AB12CD34" = some exLobby ∧
    exLobby.State = .StateWaiting ∧
    exLobby.Participants.length = 0 ∧
    (AddParticipantRequested exLobbyStore "AB12CD34" "p1" "Host" false 110).2 = .ok () ∧
    ∃ session' p,
      (AddParticipantRequested exLobbyStore "AB12CD34" "p1" "Host" false 110).1.sessions.get
        "AB12CD34" = some session' ∧
      session'.Participants = [("p1", p)] ∧
      p.ID = "p1" ∧ p.Name = "Host" ∧ p.IsSpectator = true ∧
      session'.CreatorID = "p1" :=
  ⟨by decide, by decide, by decide,
    AddParticipant_first_is_creator exLobbyStore "AB12CD34" "p1" "Host" false 110 exLobby
      (by decide) (by decide) (by decide)⟩

/-- C10, the code at the failing input: after the host, Bob joins the waiting
session and asks to be a spectator.  The call succeeds, the creator is still the
host, and Bob is stored with `IsSpectator = false`, not with the flag he asked for. -/
theorem AddParticipant_drops_requested_flag :
    (AddParticipantRequested
        (AddParticipantRequested exLobbyStore "AB12CD34" "p1" "Host" false 110).1
        "AB12CD34" "p2" "Bob" true 120).2 = .ok () ∧
    ((AddParticipantRequested
        (AddParticipantRequested exLobbyStore "AB12CD34" "p1" "Host" false 110).1
        "AB12CD34" "p2" "Bob" true 120).1.sessions.get "AB12CD34").map
      (fun session =>
        (session.CreatorID, (session.Participants.get "p2").map (fun p => p.IsSpectator))) =
      some ("p1", some false) := by
  decide

/-! ## The branches of `AddParticipant`, `StartQuiz` and `NextQuestion` -/

theorem AddParticipant_ok (m : Manager) (code participantID name : String) (now : Time)
    (session : QuizSession) (hs : m.sessions.get code = some session)
    (hstate : session.State = .StateWaiting) :
    AddParticipant m code participantID name now =
      ({ sessions := m.sessions.modify (fun _ => admitted session participantID name now) code },
        .ok ()) := by
  by_cases h : session.Participants.length = 0 <;>
    simp [AddParticipant, hs, hstate, admitted, h]

theorem AddParticipant_ok_iff (m : Manager) (code participantID name : String) (now : Time) :
    (AddParticipant m code participantID name now).2 = .ok () ↔
      ∃ session, m.sessions.get code = some session ∧ session.State = .StateWaiting := by
  constructor
  · intro h
    cases hs : m.sessions.get code with
    | none => simp [AddParticipant, hs] at h
    | some session =>
      by_cases hstate : session.State = .StateWaiting
      · exact ⟨session, rfl, hstate⟩
      · simp [AddParticipant, hs, hstate] at h
  · rintro ⟨session, hs, hstate⟩
    rw [AddParticipant_ok m code participantID name now session hs hstate]

theorem AddParticipant_fail_unchanged (m : Manager) (code participantID name : String)
    (now : Time) (h : (AddParticipant m code participantID name now).2 ≠ .ok ()) :
    (AddParticipant m code participantID name now).1 = m := by
  cases hs : m.sessions.get code with
  | none => simp [AddParticipant, hs]
  | some session =>
    by_cases hstate : session.State = .StateWaiting
    · rw [AddParticipant_ok m code participantID name now session hs hstate] at h
      exact absurd rfl h
    · simp [AddParticipant, hs, hstate]

theorem StartQuiz_ok (m : Manager) (code : String) (now : Time) (session : QuizSession)
    (hs : m.sessions.get code = some session) (hstate : session.State = .StateWaiting)
    (hlen : session.Participants.length ≠ 0) :
    StartQuiz m code now =
      ({ sessions := m.sessions.modify (fun _ => started session now) code }, .ok ()) := by
  simp [StartQuiz, hs, hstate, hlen, started]

theorem StartQuiz_ok_iff (m : Manager) (code : String) (now : Time) :
    (StartQuiz m code now).2 = .ok () ↔
      ∃ session, m.sessions.get code = some session ∧ session.State = .StateWaiting ∧
        session.Participants.length ≠ 0 := by
  constructor
  · intro h
    cases hs : m.sessions.get code with
    | none => simp [StartQuiz, hs] at h
    | some session =>
      by_cases hstate : session.State = .StateWaiting
      · by_cases hlen : session.Participants.length = 0
        · simp [StartQuiz, hs, hstate, hlen] at h
        · exact ⟨session, rfl, hstate, hlen⟩
      · simp [StartQuiz, hs, hstate] at h
  · rintro ⟨session, hs, hstate, hlen⟩
    rw [StartQuiz_ok m code now session hs hstate hlen]

theorem StartQuiz_fail_unchanged (m : Manager) (code : String) (now : Time)
    (h : (StartQuiz m code now).2 ≠ .ok ()) : (StartQuiz m code now).1 = m := by
  cases hs : m.sessions.get code with
  | none => simp [StartQuiz, hs]
  | some session =>
    by_cases hstate : session.State = .StateWaiting
    · by_cases hlen : session.Participants.length = 0
      · simp [StartQuiz, hs, hstate, hlen]
      · rw [StartQuiz_ok m code now session hs hstate hlen] at h
        exact absurd rfl h
    · simp [StartQuiz, hs, hstate]

theorem NextQuestion_finished (m : Manager) (code : String) (now : Time) (session : QuizSession)
    (hs : m.sessions.get code = some session) (hstate : session.State = .StateAnswer)
    (hlast : (session.Quiz.Questions.length : Int) ≤ session.CurrentQuestion + 1) :
    NextQuestion m code now =
      ({ sessions := m.sessions.modify (fun _ => { session with State := .StateFinished }) code },
        .ok false) := by
  simp [NextQuestion, hs, hstate, hlast]

theorem NextQuestion_advanced (m : Manager) (code : String) (now : Time) (session : QuizSession)
    (hs : m.sessions.get code = some session) (hstate : session.State = .StateAnswer)
    (hmore : session.CurrentQuestion + 1 < (session.Quiz.Questions.length : Int)) :
    NextQuestion m code now =
      ({ sessions := m.sessions.modify (fun _ => advanced session now) code }, .ok true) := by
  have : ¬ (session.Quiz.Questions.length : Int) ≤ session.CurrentQuestion + 1 := by omega
  simp [NextQuestion, hs, hstate, this, advanced]

theorem NextQuestion_not_found (m : Manager) (code : String) (now : Time)
    (hs : m.sessions.get code = none) :
    NextQuestion m code now = (m, .error "quiz session not found") := by
  simp [NextQuestion, hs]

theorem NextQuestion_wrong_state (m : Manager) (code : String) (now : Time)
    (session : QuizSession) (hs : m.sessions.get code = some session)
    (hstate : session.State ≠ .StateAnswer) :
    NextQuestion m code now = (m, .error "not in answer state") := by
  simp [NextQuestion, hs, hstate]

theorem index_eq_none_iff {α : Type} (xs : List α) (i : Int) (hi : 0 ≤ i) :
    index xs i = none ↔ (xs.length : Int) ≤ i := by
  unfold index
  have : ¬ i < 0 := by omega
  simp only [this, if_false, List.getElem?_eq_none_iff]
  omega

theorem index_eq_some_lt {α : Type} (xs : List α) (i : Int) (x : α)
    (h : index xs i = some x) : 0 ≤ i ∧ i < (xs.length : Int) := by
  unfold index at h
  by_cases hi : i < 0
  · simp [hi] at h
  · simp only [hi, if_false] at h
    have := (List.getElem?_eq_some_iff.mp h).1
    omega

/-! ## Lemmas on the leaderboard sort

The index loops `sortInner` and `sortOuter` are rounds of `selectMax`: the slice is
`pre ++ x :: (done ++ rest)` with `x` at `i`, the entries `done` already compared
with it and `rest` still to come. -/

theorem swapIfGreater_split (pre done ys : List ParticipantInfo) (x y : ParticipantInfo) :
    swapIfGreater (pre ++ x :: (done ++ y :: ys)) pre.length (pre.length + 1 + done.length) =
      if y.Score > x.Score then pre ++ y :: (done ++ x :: ys)
      else pre ++ x :: (done ++ y :: ys) := by
  have hi : (pre ++ x :: (done ++ y :: ys))[pre.length]? = some x := by
    rw [List.getElem?_append_right (by omega)]
    simp
  have hj : (pre ++ x :: (done ++ y :: ys))[pre.length + 1 + done.length]? = some y := by
    rw [List.getElem?_append_right (by omega)]
    have : pre.length + 1 + done.length - pre.length = done.length + 1 := by omega
    rw [this, List.getElem?_cons_succ, List.getElem?_append_right (by omega)]
    simp
  unfold swapIfGreater
  rw [hi, hj]
  by_cases h : y.Score > x.Score
  · simp only [h, if_true]
    rw [List.set_append_right _ _ (by omega)]
    simp only [Nat.sub_self, List.set_cons_zero]
    rw [List.set_append_right _ _ (by omega)]
    have : pre.length + 1 + done.length - pre.length = done.length + 1 := by omega
    rw [this, List.set_cons_succ, List.set_append_right _ _ (by omega)]
    simp
  · simp only [h, if_false]

theorem sortInner_split (pre : List ParticipantInfo) :
    ∀ (rest done : List ParticipantInfo) (x : ParticipantInfo),
      sortInner pre.length rest.length (pre.length + 1 + done.length)
          (pre ++ x :: (done ++ rest)) =
        pre ++ (selectMax x rest).1 :: (done ++ (selectMax x rest).2) := by
  intro rest
  induction rest with
  | nil => intro done x; simp [sortInner, selectMax]
  | cons y ys ih =>
    intro done x
    simp only [List.length_cons, sortInner]
    rw [swapIfGreater_split]
    by_cases h : y.Score > x.Score
    · have := ih (done ++ [x]) y
      simp only [List.length_append, List.length_singleton, List.append_assoc,
        List.singleton_append] at this
      simp only [h, if_true, selectMax]
      rw [← this]
      congr 1
    · have := ih (done ++ [y]) x
      simp only [List.length_append, List.length_singleton, List.append_assoc,
        List.singleton_append] at this
      simp only [h, if_false, selectMax]
      rw [← this]
      congr 1

theorem selectMax_length (l : List ParticipantInfo) :
    ∀ x, (selectMax x l).2.length = l.length := by
  induction l with
  | nil => intro x; rfl
  | cons y ys ih =>
    intro x
    by_cases h : y.Score > x.Score <;> simp [selectMax, h, ih]

theorem sortOuter_split :
    ∀ (n : Nat) (pre l : List ParticipantInfo), n < l.length →
      sortOuter n pre.length (pre ++ l) = pre ++ exchangeSort n l := by
  intro n
  induction n with
  | zero => intro pre l _; rfl
  | succ n ih =>
    intro pre l hl
    cases l with
    | nil => simp at hl
    | cons x rest =>
      simp only [List.length_cons, Nat.add_lt_add_iff_right] at hl
      simp only [sortOuter, exchangeSort]
      have hlen : (pre ++ x :: rest).length - (pre.length + 1) = rest.length := by
        simp only [List.length_append, List.length_cons]; omega
      rw [hlen]
      have hin := sortInner_split pre rest [] x
      simp only [List.length_nil, Nat.add_zero, List.nil_append] at hin
      rw [hin]
      have := ih (pre ++ [(selectMax x rest).1]) (selectMax x rest).2
        (by rw [selectMax_length]; exact hl)
      simp only [List.length_append, List.length_singleton, List.append_assoc,
        List.singleton_append] at this
      exact this

theorem sortByScore_eq (l : List ParticipantInfo) :
    sortByScore l = exchangeSort (l.length - 1) l := by
  cases l with
  | nil => rfl
  | cons x rest =>
    have := sortOuter_split ((x :: rest).length - 1) [] (x :: rest) (by simp)
    simpa [sortByScore] using this

theorem selectMax_perm (l : List ParticipantInfo) :
    ∀ x, ((selectMax x l).1 :: (selectMax x l).2).Perm (x :: l) := by
  induction l with
  | nil => intro x; exact List.Perm.refl _
  | cons y ys ih =>
    intro x
    by_cases h : y.Score > x.Score
    · simp only [selectMax, h, if_true]
      exact (List.Perm.swap _ _ _).trans ((ih y).cons x)
    · simp only [selectMax, h, if_false]
      exact ((List.Perm.swap _ _ _).trans ((ih x).cons y)).trans (List.Perm.swap _ _ _)

theorem selectMax_ge (l : List ParticipantInfo) :
    ∀ x, x.Score ≤ (selectMax x l).1.Score := by
  induction l with
  | nil => intro x; exact Int.le_refl _
  | cons y ys ih =>
    intro x
    by_cases h : y.Score > x.Score
    · simp only [selectMax, h, if_true]
      have := ih y
      omega
    · simp only [selectMax, h, if_false]
      exact ih x

theorem selectMax_max (l : List ParticipantInfo) :
    ∀ x, ∀ z ∈ (selectMax x l).2, z.Score ≤ (selectMax x l).1.Score := by
  induction l with
  | nil => intro x z hz; simp [selectMax] at hz
  | cons y ys ih =>
    intro x z hz
    by_cases h : y.Score > x.Score
    · simp only [selectMax, h, if_true, List.mem_cons] at hz ⊢
      rcases hz with rfl | hz
      · have := selectMax_ge ys y
        omega
      · exact ih y z hz
    · simp only [selectMax, h, if_false, List.mem_cons] at hz ⊢
      rcases hz with rfl | hz
      · have := selectMax_ge ys x
        omega
      · exact ih x z hz

theorem exchangeSort_perm :
    ∀ (n : Nat) (l : List ParticipantInfo), (exchangeSort n l).Perm l := by
  intro n
  induction n with
  | zero => intro l; exact List.Perm.refl _
  | succ n ih =>
    intro l
    cases l with
    | nil => exact List.Perm.refl _
    | cons x rest =>
      simp only [exchangeSort]
      exact ((ih _).cons _).trans (selectMax_perm rest x)

theorem exchangeSort_sorted :
    ∀ (n : Nat) (l : List ParticipantInfo), l.length ≤ n + 1 →
      (exchangeSort n l).Pairwise (fun a b => a.Score ≥ b.Score) := by
  intro n
  induction n with
  | zero =>
    intro l hl
    match l, hl with
    | [], _ => exact List.Pairwise.nil
    | [x], _ => simp [exchangeSort]
  | succ n ih =>
    intro l hl
    cases l with
    | nil => exact List.Pairwise.nil
    | cons x rest =>
      simp only [exchangeSort]
      refine List.Pairwise.cons ?_ (ih _ ?_)
      · intro z hz
        exact selectMax_max rest x z ((exchangeSort_perm n _).subset hz)
      · rw [selectMax_length]
        simpa using hl

theorem selectMax_of_le (l : List ParticipantInfo) (x : ParticipantInfo)
    (h : ∀ z ∈ l, z.Score ≤ x.Score) : selectMax x l = (x, l) := by
  induction l with
  | nil => rfl
  | cons y ys ih =>
    have hy : ¬ y.Score > x.Score := by
      have := h y (List.mem_cons_self _ _)
      omega
    have := ih (fun z hz => h z (List.mem_cons_of_mem _ hz))
    simp [selectMax, hy, this]

theorem exchangeSort_of_sorted :
    ∀ (n : Nat) (l : List ParticipantInfo),
      l.Pairwise (fun a b => a.Score ≥ b.Score) → exchangeSort n l = l := by
  intro n
  induction n with
  | zero => intro l _; rfl
  | succ n ih =>
    intro l hl
    cases l with
    | nil => rfl
    | cons x rest =>
      rw [List.pairwise_cons] at hl
      simp only [exchangeSort]
      rw [selectMax_of_le rest x (fun z hz => hl.1 z hz)]
      simp [ih rest hl.2]

theorem selectMax_append (l t : List ParticipantInfo) :
    ∀ x, selectMax x (l ++ t) =
      ((selectMax (selectMax x l).1 t).1, (selectMax x l).2 ++ (selectMax (selectMax x l).1 t).2) := by
  induction l with
  | nil => intro x; simp [selectMax]
  | cons y ys ih =>
    intro x
    by_cases h : y.Score > x.Score
    · simp [selectMax, h, ih y]
    · simp [selectMax, h, ih x]

theorem exchangeSort_keeps_order :
    ∀ (n : Nat) (l₁ l₂ l₃ : List ParticipantInfo) (a b : ParticipantInfo),
      (∀ c ∈ l₂ ++ b :: l₃, c.Score ≤ a.Score) →
      ∃ m₁ m₂ m₃, exchangeSort n (l₁ ++ a :: (l₂ ++ b :: l₃)) = m₁ ++ a :: (m₂ ++ b :: m₃) := by
  intro n
  induction n with
  | zero => intro l₁ l₂ l₃ a b _; exact ⟨l₁, l₂, l₃, rfl⟩
  | succ n ih =>
    intro l₁ l₂ l₃ a b hle
    have hb : b ∈ l₂ ++ b :: l₃ := by simp
    cases l₁ with
    | nil =>
      simp only [List.nil_append, exchangeSort]
      rw [selectMax_of_le _ a hle]
      have : b ∈ exchangeSort n (l₂ ++ b :: l₃) := (exchangeSort_perm n _).mem_iff.mpr hb
      obtain ⟨m₂, m₃, h⟩ := List.append_of_mem this
      exact ⟨[], m₂, m₃, by simp [h]⟩
    | cons x l₁' =>
      rw [List.cons_append]
      simp only [exchangeSort]
      rw [selectMax_append]
      by_cases h : a.Score > (selectMax x l₁').1.Score
      · have hsel : selectMax (selectMax x l₁').1 (a :: (l₂ ++ b :: l₃)) =
            (a, (selectMax x l₁').1 :: (l₂ ++ b :: l₃)) := by
          simp [selectMax, h, selectMax_of_le _ a hle]
        rw [hsel]
        have : b ∈ exchangeSort n
            ((selectMax x l₁').2 ++ (selectMax x l₁').1 :: (l₂ ++ b :: l₃)) :=
          (exchangeSort_perm n _).mem_iff.mpr (by simp)
        obtain ⟨m₂, m₃, h'⟩ := List.append_of_mem this
        exact ⟨[], m₂, m₃, by simp [h']⟩
      · have hle' : ∀ c ∈ l₂ ++ b :: l₃, c.Score ≤ (selectMax x l₁').1.Score := by
          intro c hc
          have := hle c hc
          omega
        have hsel : selectMax (selectMax x l₁').1 (a :: (l₂ ++ b :: l₃)) =
            ((selectMax x l₁').1, a :: (l₂ ++ b :: l₃)) := by
          simp [selectMax, h, selectMax_of_le _ _ hle']
        rw [hsel]
        obtain ⟨m₁, m₂, m₃, h'⟩ := ih (selectMax x l₁').2 l₂ l₃ a b hle
        exact ⟨(selectMax x l₁').1 :: m₁, m₂, m₃, by simp [h']⟩

theorem leaderboardLoop_eq (ps : GoMap Participant) :
    leaderboardLoop ps =
      (ps.filter (fun e => !e.2.IsSpectator)).map (fun e => boardEntry e.2.Name e.2.Score) := by
  induction ps with
  | nil => rfl
  | cons e rest ih =>
    obtain ⟨id, p⟩ := e
    by_cases h : p.IsSpectator = true <;> simp [leaderboardLoop, h, ih, boardEntry]

/-! ## Lemmas on the answer counters -/

theorem answerCountLoop_eq (ps : GoMap Participant) :
    ∀ answeredCount totalParticipants : Int,
      answerCountLoop ps (answeredCount, totalParticipants) =
        (answeredCount + (answeredPlayerCount ps : Int), totalParticipants + (playerCount ps : Int)) := by
  induction ps with
  | nil => intro a t; simp [answerCountLoop, answeredPlayerCount, playerCount]
  | cons e rest ih =>
    obtain ⟨id, p⟩ := e
    intro a t
    have hA : ∀ q : GoMap Participant, answeredPlayerCount q =
        (q.filter (fun e => !e.2.IsSpectator && e.2.HasAnswered)).length := fun _ => rfl
    have hT : ∀ q : GoMap Participant, playerCount q =
        (q.filter (fun e => !e.2.IsSpectator)).length := fun _ => rfl
    by_cases hsp : p.IsSpectator = true
    · simp only [answerCountLoop, hsp, if_true, ih]
      simp [hA, hT, hsp]
    · by_cases ha : p.HasAnswered = true
      · simp only [answerCountLoop, hsp, ha, if_true, if_false, ih]
        simp [hA, hT, hsp, ha]
        constructor <;> omega
      · simp only [answerCountLoop, hsp, ha, if_false, ih]
        simp [hA, hT, hsp, ha]
        omega

theorem answeredPlayerCount_le (ps : GoMap Participant) :
    answeredPlayerCount ps ≤ playerCount ps := by
  induction ps with
  | nil => simp [answeredPlayerCount, playerCount]
  | cons e rest ih =>
    obtain ⟨id, p⟩ := e
    simp only [answeredPlayerCount, playerCount] at ih ⊢
    by_cases hsp : p.IsSpectator = true
    · simpa [hsp] using ih
    · by_cases ha : p.HasAnswered = true
      · simpa [hsp, ha] using ih
      · simp [hsp, ha]
        omega

theorem answered_eq_iff (ps : GoMap Participant) :
    answeredPlayerCount ps = playerCount ps ↔
      ∀ e ∈ ps, e.2.IsSpectator = false → e.2.HasAnswered = true := by
  induction ps with
  | nil => simp [answeredPlayerCount, playerCount]
  | cons e rest ih =>
    obtain ⟨id, p⟩ := e
    have hle := answeredPlayerCount_le rest
    simp only [answeredPlayerCount, playerCount] at ih hle ⊢
    by_cases hsp : p.IsSpectator = true
    · simpa [hsp] using ih
    · by_cases ha : p.HasAnswered = true
      · simpa [hsp, ha] using ih
      · simp [hsp, ha]
        omega

theorem allAnsweredLoop_iff (ps : GoMap Participant) :
    allAnsweredLoop ps = true ↔ ∀ e ∈ ps, e.2.IsSpectator = false → e.2.HasAnswered = true := by
  induction ps with
  | nil => simp [allAnsweredLoop]
  | cons e rest ih =>
    obtain ⟨id, p⟩ := e
    by_cases hsp : p.IsSpectator = true
    · simpa [allAnsweredLoop, hsp] using ih
    · by_cases ha : p.HasAnswered = true
      · simpa [allAnsweredLoop, hsp, ha] using ih
      · simp [allAnsweredLoop, hsp, ha]

theorem counts_modify_spectator (f : Participant → Participant) (ps : GoMap Participant)
    (id : String) (hf : ∀ p, p.IsSpectator = true → (f p).IsSpectator = true)
    (hp : ∀ p, ps.get id = some p → p.IsSpectator = true) :
    answeredPlayerCount (ps.modify f id) = answeredPlayerCount ps ∧
      playerCount (ps.modify f id) = playerCount ps := by
  induction ps with
  | nil => exact ⟨rfl, rfl⟩
  | cons e rest ih =>
    obtain ⟨k, p⟩ := e
    by_cases hk : k = id
    · have hsp : p.IsSpectator = true := hp p (by simp [GoMap.get, hk])
      have hsp' := hf p hsp
      simp [GoMap.modify, hk, answeredPlayerCount, playerCount, hsp, hsp']
    · have := ih (fun q hq => hp q (by simpa [GoMap.get, hk] using hq))
      simp only [answeredPlayerCount, playerCount] at this ⊢
      simp only [GoMap.modify, hk, if_false, List.filter_cons]
      split <;> split <;> simp [this.1, this.2]

theorem GetAnswerCount_eq (m : Manager) (code : String) (session : QuizSession)
    (hs : m.sessions.get code = some session) :
    GetAnswerCount m code =
      ((answeredPlayerCount session.Participants : Int), (playerCount session.Participants : Int)) := by
  have := answerCountLoop_eq session.Participants 0 0
  simp only [Int.zero_add] at this
  simp only [GetAnswerCount, hs]
  exact this

theorem GetAnswerCount_modify_spectator (m : Manager) (code id : String)
    (session : QuizSession) (f : Participant → Participant)
    (hs : m.sessions.get code = some session)
    (hf : ∀ p, p.IsSpectator = true → (f p).IsSpectator = true)
    (hp : ∀ p, session.Participants.get id = some p → p.IsSpectator = true) :
    GetAnswerCount
        { sessions := m.sessions.modify
            (fun s => { s with Participants := s.Participants.modify f id }) code } code =
      GetAnswerCount m code := by
  have hs' : (m.sessions.modify
      (fun s => { s with Participants := s.Participants.modify f id }) code).get code =
      some { session with Participants := session.Participants.modify f id } := by
    simp only [GoMap.get_modify_self, hs, Option.map_some']
  rw [GetAnswerCount_eq _ code _ hs', GetAnswerCount_eq m code session hs]
  have := counts_modify_spectator f session.Participants id hf hp
  simp only [this.1, this.2]

/-! ## Lemmas on the expiry sweep and on the session code -/

theorem expiredIn_iff (cutoff : Time) (entries : GoMap QuizSession) (code : String) :
    expiredIn cutoff entries code = true ↔
      ∃ e ∈ entries, e.2.CreatedAt < cutoff ∧ e.1 = code := by
  simp [expiredIn]

theorem cleanupLoop_eq (cutoff : Time) (entries : GoMap QuizSession) :
    ∀ sessions : GoMap QuizSession,
      cleanupLoop cutoff entries sessions =
        sessions.filter (fun e => !expiredIn cutoff entries e.1) := by
  induction entries with
  | nil => intro sessions; simp [cleanupLoop, expiredIn]
  | cons e rest ih =>
    obtain ⟨code, session⟩ := e
    intro sessions
    by_cases h : session.CreatedAt < cutoff
    · simp only [cleanupLoop, h, if_true, ih, GoMap.delete, List.filter_filter]
      apply List.filter_congr
      intro e' _
      by_cases hk : e'.1 = code
      · simp [expiredIn, h, hk]
      · have hk' : ¬ code = e'.1 := fun h' => hk h'.symm
        simp [expiredIn, h, hk, hk']
    · simp only [cleanupLoop, h, if_false, ih]
      apply List.filter_congr
      intro e' _
      simp [expiredIn, h]

theorem expiredIn_of_wf (cutoff : Time) (entries : GoMap QuizSession)
    (hwf : entries.WF) :
    ∀ e ∈ entries, expiredIn cutoff entries e.1 = decide (e.2.CreatedAt < cutoff) := by
  induction entries with
  | nil => intro e he; simp at he
  | cons e₀ rest ih =>
    obtain ⟨k₀, s₀⟩ := e₀
    simp only [GoMap.WF, List.map_cons, List.nodup_cons, List.mem_map, not_exists, not_and] at hwf
    intro e he
    rcases List.mem_cons.mp he with rfl | he'
    · have : expiredIn cutoff rest k₀ = false := by
        simp only [expiredIn, List.any_eq_false, Bool.and_eq_true, decide_eq_true_eq, not_and]
        intro e' he' _ hk
        exact hwf.1 e' he' hk
      simp only [expiredIn, List.any_cons] at this ⊢
      simp [this]
    · have hne : ¬ k₀ = e.1 := fun h => hwf.1 e he' h.symm
      have := ih hwf.2 e he'
      simp only [expiredIn, List.any_cons] at this ⊢
      simp [hne, this]

theorem cleanup_of_wf (m : Manager) (now : Time) (hwf : m.sessions.WF) :
    (CleanupOldSessions m now).sessions =
      m.sessions.filter (fun e => !decide (e.2.CreatedAt < now + (-24) * Hour)) := by
  simp only [CleanupOldSessions, cleanupLoop_eq]
  apply List.filter_congr
  intro e he
  rw [expiredIn_of_wf _ _ hwf e he]

theorem Hour_eq : Hour = 3600000000000 := by decide

theorem generateCode_length (bytes : Byte × Byte × Byte × Byte) :
    (generateCode bytes).length = 8 := by
  simp [generateCode, ToUpper, EncodeToString, String.length]

/-! ## Admission, start and advance -/

/-- C11: `AddParticipant` succeeds if and only if the session exists and is in
Waiting state.  On success with an id that the session does not have yet, the
participant count grows by exactly one, the new participant has the given name, score
0, streak 0 and the answered flag off, and every other id is bound as before.  On
failure the store returned is the store given. -/
theorem AddParticipant_contract (m : Manager) (code participantID name : String) (now : Time) :
    ((AddParticipant m code participantID name now).2 = .ok () ↔
      ∃ session, m.sessions.get code = some session ∧ session.State = .StateWaiting) ∧
    (∀ session, m.sessions.get code = some session → session.State = .StateWaiting →
      session.Participants.get participantID = none →
      ∃ session' p,
        (AddParticipant m code participantID name now).1.sessions.get code = some session' ∧
        session'.Participants.length = session.Participants.length + 1 ∧
        session'.Participants.get participantID = some p ∧
        p.Name = name ∧ p.Score = 0 ∧ p.CurrentStreak = 0 ∧ p.HasAnswered = false ∧
        (∀ other, other ≠ participantID →
          session'.Participants.get other = session.Participants.get other)) ∧
    ((AddParticipant m code participantID name now).2 ≠ .ok () →
      (AddParticipant m code participantID name now).1 = m) := by
  refine ⟨AddParticipant_ok_iff m code participantID name now, ?_,
    AddParticipant_fail_unchanged m code participantID name now⟩
  intro session hs hstate hnew
  rw [AddParticipant_ok m code participantID name now session hs hstate]
  refine ⟨admitted session participantID name now,
    newParticipant participantID name (decide (session.Participants.length = 0)) now,
    ?_, ?_, ?_, rfl, rfl, rfl, rfl, ?_⟩
  · simp only [GoMap.get_modify_self, hs, Option.map_some']
  · exact GoMap.length_set_of_get_none _ _ _ hnew
  · exact GoMap.get_set_self _ _ _
  · intro other hne
    exact GoMap.get_set_of_ne _ _ _ _ hne

/-- Witness of C11: Dave joins the waiting session of the host and Carol; nobody
joins the session with an open question. -/
theorem AddParticipant_contract_witness :
    (exOpenLobbyStore.sessions.get "AB12CD34" = some exOpenLobby ∧
      exOpenLobby.State = .StateWaiting ∧
      exOpenLobby.Participants.get "p5" = none ∧
      ∃ session' p,
        (AddParticipant exOpenLobbyStore "AB12CD34" "p5" "Dave" 137).1.sessions.get "AB12CD34" =
          some session' ∧
        session'.Participants.length = exOpenLobby.Participants.length + 1 ∧
        session'.Participants.get "p5" = some p ∧
        p.Name = "Dave" ∧ p.Score = 0 ∧ p.CurrentStreak = 0 ∧ p.HasAnswered = false ∧
        (∀ other, other ≠ "p5" →
          session'.Participants.get other = exOpenLobby.Participants.get other)) ∧
    ((AddParticipant exStore "AB12CD34" "p6" "Eve" 170).2 ≠ .ok () ∧
      (AddParticipant exStore "AB12CD34" "p6" "Eve" 170).1 = exStore) :=
  ⟨⟨by decide, by decide, by decide,
      (AddParticipant_contract exOpenLobbyStore "AB12CD34" "p5" "Dave" 137).2.1 exOpenLobby
        (by decide) (by decide) (by decide)⟩,
    ⟨by decide, (AddParticipant_contract exStore "AB12CD34" "p6" "Eve" 170).2.2 (by decide)⟩⟩

/-- C12: `StartQuiz` succeeds if and only if the session exists, is in Waiting
state and has at least one participant.  On success the session is in Question
state at question index 0, and every participant is the old one with the answered
flag off and the stored answer empty, so scores and streaks are as before.  On
failure the store returned is the store given. -/
theorem StartQuiz_contract (m : Manager) (code : String) (now : Time) :
    ((StartQuiz m code now).2 = .ok () ↔
      ∃ session, m.sessions.get code = some session ∧ session.State = .StateWaiting ∧
        session.Participants.length ≠ 0) ∧
    (∀ session, m.sessions.get code = some session → session.State = .StateWaiting →
      session.Participants.length ≠ 0 →
      ∃ session',
        (StartQuiz m code now).1.sessions.get code = some session' ∧
        session'.State = .StateQuestion ∧
        session'.CurrentQuestion = 0 ∧
        (∀ id, session'.Participants.get id =
          (session.Participants.get id).map
            (fun p => { p with HasAnswered := false, CurrentAnswer := "" })) ∧
        (∀ e ∈ session'.Participants, e.2.HasAnswered = false ∧ e.2.CurrentAnswer = "") ∧
        session'.Participants.map Prod.fst = session.Participants.map Prod.fst) ∧
    ((StartQuiz m code now).2 ≠ .ok () → (StartQuiz m code now).1 = m) := by
  refine ⟨StartQuiz_ok_iff m code now, ?_, StartQuiz_fail_unchanged m code now⟩
  intro session hs hstate hlen
  rw [StartQuiz_ok m code now session hs hstate hlen]
  refine ⟨started session now, ?_, rfl, rfl, ?_, ?_, ?_⟩
  · simp only [GoMap.get_modify_self, hs, Option.map_some']
  · intro id
    exact GoMap.get_forEach resetAnswer _ _
  · intro e he
    simp only [started, GoMap.forEach, List.mem_map] at he
    obtain ⟨e₀, _, rfl⟩ := he
    exact ⟨rfl, rfl⟩
  · exact GoMap.keys_forEach _ _

/-- Witness of C12: the waiting session of the host and Carol is started; the
session with an open question cannot be started again. -/
theorem StartQuiz_contract_witness :
    (exOpenLobbyStore.sessions.get "AB12CD34" = some exOpenLobby ∧
      exOpenLobby.State = .StateWaiting ∧
      exOpenLobby.Participants.length ≠ 0 ∧
      ∃ session',
        (StartQuiz exOpenLobbyStore "AB12CD34" 140).1.sessions.get "AB12CD34" = some session' ∧
        session'.State = .StateQuestion ∧
        session'.CurrentQuestion = 0 ∧
        (∀ id, session'.Participants.get id =
          (exOpenLobby.Participants.get id).map
            (fun p => { p with HasAnswered := false, CurrentAnswer := "" })) ∧
        (∀ e ∈ session'.Participants, e.2.HasAnswered = false ∧ e.2.CurrentAnswer = "") ∧
        session'.Participants.map Prod.fst = exOpenLobby.Participants.map Prod.fst) ∧
    ((StartQuiz exStore "AB12CD34" 170).2 ≠ .ok () ∧
      (StartQuiz exStore "AB12CD34" 170).1 = exStore) :=
  ⟨⟨by decide, by decide, by decide,
      (StartQuiz_contract exOpenLobbyStore "AB12CD34" 140).2.1 exOpenLobby
        (by decide) (by decide) (by decide)⟩,
    ⟨by decide, (StartQuiz_contract exStore "AB12CD34" 170).2.2 (by decide)⟩⟩

/-- C13: `NextQuestion` fails and returns the store it was given when the session
does not exist or is not in Answer state.  In Answer state, with an index that is
not below -1 and whose successor a Go `int` of 64 bits holds (the index plus one is
below 2^63, so that the sum of the code does not wrap around): if the index plus one
is not an index of a question, the session
becomes Finished, nothing else changes and the result is `false`; if the index plus
one is the index of a question, the index grows by exactly one, the session is in
Question state, every participant is the old one with the answered flag off and the
stored answer empty, and the result is `true`. -/
theorem NextQuestion_contract (m : Manager) (code : String) (now : Time) :
    (m.sessions.get code = none →
      NextQuestion m code now = (m, .error "quiz session not found")) ∧
    (∀ session, m.sessions.get code = some session → session.State ≠ .StateAnswer →
      NextQuestion m code now = (m, .error "not in answer state")) ∧
    (∀ session, m.sessions.get code = some session → session.State = .StateAnswer →
      0 ≤ session.CurrentQuestion + 1 →
      session.CurrentQuestion + 1 < 2 ^ 63 →
      index session.Quiz.Questions (session.CurrentQuestion + 1) = none →
      (NextQuestion m code now).2 = .ok false ∧
      (NextQuestion m code now).1.sessions.get code =
        some { session with State := .StateFinished }) ∧
    (∀ session question, m.sessions.get code = some session →
      session.State = .StateAnswer →
      index session.Quiz.Questions (session.CurrentQuestion + 1) = some question →
      (NextQuestion m code now).2 = .ok true ∧
      ∃ session',
        (NextQuestion m code now).1.sessions.get code = some session' ∧
        session'.CurrentQuestion = session.CurrentQuestion + 1 ∧
        session'.State = .StateQuestion ∧
        (∀ id, session'.Participants.get id =
          (session.Participants.get id).map
            (fun p => { p with HasAnswered := false, CurrentAnswer := "" })) ∧
        (∀ e ∈ session'.Participants, e.2.HasAnswered = false ∧ e.2.CurrentAnswer = "")) := by
  refine ⟨NextQuestion_not_found m code now, NextQuestion_wrong_state m code now, ?_, ?_⟩
  · intro session hs hstate hi _ hnone
    have hlast := (index_eq_none_iff _ _ hi).mp hnone
    rw [NextQuestion_finished m code now session hs hstate hlast]
    exact ⟨rfl, by simp only [GoMap.get_modify_self, hs, Option.map_some']⟩
  · intro session question hs hstate hsome
    have hmore := (index_eq_some_lt _ _ _ hsome).2
    rw [NextQuestion_advanced m code now session hs hstate hmore]
    refine ⟨rfl, advanced session now, ?_, rfl, rfl, ?_, ?_⟩
    · simp only [GoMap.get_modify_self, hs, Option.map_some']
    · intro id
      exact GoMap.get_forEach resetAnswer _ _
    · intro e he
      simp only [advanced, GoMap.forEach, List.mem_map] at he
      obtain ⟨e₀, _, rfl⟩ := he
      exact ⟨rfl, rfl⟩

/-- Witness of C13: a session with an open question, the session after its last
reveal, and the session after the reveal of its second question. -/
theorem NextQuestion_contract_witness :
    (exStore.sessions.get "AB12CD34" = some exRound ∧
      exRound.State ≠ .StateAnswer ∧
      NextQuestion exStore "AB12CD34" 170 = (exStore, .error "not in answer state")) ∧
    (exRevealedStore.sessions.get "AB12CD34" = some exRevealed ∧
      exRevealed.State = .StateAnswer ∧
      0 ≤ exRevealed.CurrentQuestion + 1 ∧
      exRevealed.CurrentQuestion + 1 < 2 ^ 63 ∧
      index exRevealed.Quiz.Questions (exRevealed.CurrentQuestion + 1) = none ∧
      (NextQuestion exRevealedStore "AB12CD34" 175).2 = .ok false ∧
      (NextQuestion exRevealedStore "AB12CD34" 175).1.sessions.get "AB12CD34" =
        some { exRevealed with State := .StateFinished }) ∧
    (exMidStore.sessions.get "AB12CD34" = some exMidAnswer ∧
      exMidAnswer.State = .StateAnswer ∧
      index exMidAnswer.Quiz.Questions (exMidAnswer.CurrentQuestion + 1) = some exQuestion ∧
      (NextQuestion exMidStore "AB12CD34" 140).2 = .ok true ∧
      ∃ session',
        (NextQuestion exMidStore "AB12CD34" 140).1.sessions.get "AB12CD34" = some session' ∧
        session'.CurrentQuestion = exMidAnswer.CurrentQuestion + 1 ∧
        session'.State = .StateQuestion ∧
        (∀ id, session'.Participants.get id =
          (exMidAnswer.Participants.get id).map
            (fun p => { p with HasAnswered := false, CurrentAnswer := "" })) ∧
        (∀ e ∈ session'.Participants, e.2.HasAnswered = false ∧ e.2.CurrentAnswer = "")) :=
  ⟨⟨by decide, by decide,
      (NextQuestion_contract exStore "AB12CD34" 170).2.1 exRound (by decide) (by decide)⟩,
    ⟨by decide, by decide, by decide, by decide, by decide,
      (NextQuestion_contract exRevealedStore "AB12CD34" 175).2.2.1 exRevealed
        (by decide) (by decide) (by decide) (by decide) (by decide)⟩,
    ⟨by decide, by decide, by decide,
      (NextQuestion_contract exMidStore "AB12CD34" 140).2.2.2 exMidAnswer exQuestion
        (by decide) (by decide) (by decide)⟩⟩

/-! ## The leaderboard -/

/-- C14: for an existing session `GetLeaderboard` succeeds, the (name, score) pairs
of its result are a permutation of the (name, score) pairs of the participants that
are not spectators, and the result is sorted by score in non-increasing order.  The
host with the players Alice 10, Bob 5 and Charlie 15 gives Charlie 15, Alice 10,
Bob 5. -/
theorem GetLeaderboard_sorted_permutation :
    (∀ (m : Manager) (code : String) (session : QuizSession),
      m.sessions.get code = some session →
      ∃ board, GetLeaderboard m code = .ok board ∧
        (board.map (fun e => (e.Name, e.Score))).Perm
          ((session.Participants.filter (fun e => !e.2.IsSpectator)).map
            (fun e => (e.2.Name, e.2.Score))) ∧
        board.Pairwise (fun a b => a.Score ≥ b.Score)) ∧
    (GetLeaderboard exBoardStore "AB12CD34" =
      .ok [boardEntry "Charlie" 15, boardEntry "Alice" 10, boardEntry "Bob" 5]) := by
  refine ⟨?_, by decide⟩
  intro m code session hs
  refine ⟨sortByScore (leaderboardLoop session.Participants), by simp [GetLeaderboard, hs],
    ?_, ?_⟩
  · rw [sortByScore_eq]
    refine ((exchangeSort_perm _ _).map _).trans ?_
    rw [leaderboardLoop_eq, List.map_map]
    exact List.Perm.refl _
  · rw [sortByScore_eq]
    exact exchangeSort_sorted _ _ (by omega)

/-- Witness of C14: the finished session of the host, Alice, Bob and Charlie. -/
theorem GetLeaderboard_sorted_permutation_witness :
    exBoardStore.sessions.get "AB12CD34" = some exBoard ∧
    ∃ board, GetLeaderboard exBoardStore "AB12CD34" = .ok board ∧
      (board.map (fun e => (e.Name, e.Score))).Perm
        ((exBoard.Participants.filter (fun e => !e.2.IsSpectator)).map
          (fun e => (e.2.Name, e.2.Score))) ∧
      board.Pairwise (fun a b => a.Score ≥ b.Score) :=
  ⟨by decide, GetLeaderboard_sorted_permutation.1 exBoardStore "AB12CD34" exBoard (by decide)⟩

/-- C15, counterexample: the players are met in the order Alice 5, Bob 5, Carol 10.
Alice and Bob have equal scores and Alice is met first, yet the leaderboard is
Carol, Bob, Alice: the two do not keep their order. -/
theorem GetLeaderboard_not_stable :
    leaderboardLoop exTied.Participants =
      [boardEntry "Alice" 5, boardEntry "Bob" 5, boardEntry "Carol" 10] ∧
    (boardEntry "Alice" 5).Score = (boardEntry "Bob" 5).Score ∧
    GetLeaderboard exTiedStore "AB12CD34" =
      .ok [boardEntry "Carol" 10, boardEntry "Bob" 5, boardEntry "Alice" 5] ∧
    ¬ List.Sublist [boardEntry "Alice" 5, boardEntry "Bob" 5]
        (sortByScore (leaderboardLoop exTied.Participants)) := by
  decide

/-- C15, amended: an entry `a` after which no entry with a strictly higher score is
met stays, in the sorted slice, ahead of every entry `b` met after it; in particular
ahead of those with an equal score. -/
theorem sortByScore_keeps_order (l₁ l₂ l₃ : List ParticipantInfo) (a b : ParticipantInfo)
    (h : ∀ c ∈ l₂ ++ b :: l₃, c.Score ≤ a.Score) :
    ∃ m₁ m₂ m₃, sortByScore (l₁ ++ a :: (l₂ ++ b :: l₃)) = m₁ ++ a :: (m₂ ++ b :: m₃) := by
  rw [sortByScore_eq]
  exact exchangeSort_keeps_order _ l₁ l₂ l₃ a b h

/-- Witness of the amended C15: Eve 9, Alice 5, Bob 5, Carol 5, Dave 2; nobody
after Alice has more than 5, and Alice stays ahead of Carol. -/
theorem sortByScore_keeps_order_witness :
    (∀ c ∈ [boardEntry "Bob" 5] ++ boardEntry "Carol" 5 :: [boardEntry "Dave" 2],
      c.Score ≤ (boardEntry "Alice" 5).Score) ∧
    ∃ m₁ m₂ m₃,
      sortByScore ([boardEntry "Eve" 9] ++ boardEntry "Alice" 5 ::
        ([boardEntry "Bob" 5] ++ boardEntry "Carol" 5 :: [boardEntry "Dave" 2])) =
        m₁ ++ boardEntry "Alice" 5 :: (m₂ ++ boardEntry "Carol" 5 :: m₃) :=
  ⟨by decide,
    sortByScore_keeps_order [boardEntry "Eve" 9] [boardEntry "Bob" 5] [boardEntry "Dave" 2]
      (boardEntry "Alice" 5) (boardEntry "Carol" 5) (by decide)⟩

/-! ## Counting the answers -/

/-- C16: for an existing session `GetAnswerCount` returns the number of
participants that are not spectators and have the answered flag set, and the number
of participants that are not spectators; the first is at most the second.  The
result is the same after a `SubmitAnswer` of a spectator and after any change of
the answered flag of a spectator.  The host with two players gives a total of 2,
whatever the answered flag of the host. -/
theorem GetAnswerCount_contract :
    (∀ (m : Manager) (code : String) (session : QuizSession),
      m.sessions.get code = some session →
      GetAnswerCount m code =
        (((session.Participants.filter
            (fun e => !e.2.IsSpectator && e.2.HasAnswered)).length : Int),
          ((session.Participants.filter (fun e => !e.2.IsSpectator)).length : Int)) ∧
      (GetAnswerCount m code).1 ≤ (GetAnswerCount m code).2 ∧
      (∀ id p answer now, session.Participants.get id = some p → p.IsSpectator = true →
        GetAnswerCount (SubmitAnswer m code id answer now).1 code = GetAnswerCount m code) ∧
      (∀ id p flag, session.Participants.get id = some p → p.IsSpectator = true →
        GetAnswerCount
            { sessions := m.sessions.modify
                (fun s => { s with
                  Participants :=
                    s.Participants.modify (fun q => { q with HasAnswered := flag }) id })
                code } code =
          GetAnswerCount m code)) ∧
    (∀ hostAnswered,
      (GetAnswerCount { sessions := [("AB12CD34", exTrio hostAnswered)] } "AB12CD34").2 = 2) := by
  refine ⟨?_, by decide⟩
  intro m code session hs
  refine ⟨GetAnswerCount_eq m code session hs, ?_, ?_, ?_⟩
  · rw [GetAnswerCount_eq m code session hs]
    exact Int.ofNat_le.mpr (answeredPlayerCount_le _)
  · intro id p answer now hp hsp
    by_cases hok : (SubmitAnswer m code id answer now).2 = .ok ()
    · obtain ⟨session₀, p₀, hs₀, hstate, hp₀, ha⟩ :=
        (SubmitAnswer_ok_iff m code id answer now).1 hok
      rw [hs] at hs₀
      cases hs₀
      rw [SubmitAnswer_ok m code id answer now session p₀ hs hstate hp₀ ha]
      have hs' : (m.sessions.modify (fun _ => submitted session id answer now) code).get code =
          some (submitted session id answer now) := by
        simp only [GoMap.get_modify_self, hs, Option.map_some']
      rw [GetAnswerCount_eq _ code _ hs', GetAnswerCount_eq m code session hs]
      have := counts_modify_spectator
        (fun q => { q with CurrentAnswer := answer, HasAnswered := true, AnsweredAt := now })
        session.Participants id (fun _ h => h)
        (fun q hq => by rw [hp] at hq; cases hq; exact hsp)
      simp only [submitted, this.1, this.2]
    · rw [SubmitAnswer_fail_unchanged m code id answer now hok]
  · intro id p flag hp hsp
    exact GetAnswerCount_modify_spectator m code id session _ hs (fun _ h => h)
      (fun q hq => by rw [hp] at hq; cases hq; exact hsp)

/-- Witness of C16: the session with an open question, whose host is a spectator. -/
theorem GetAnswerCount_contract_witness :
    exStore.sessions.get "AB12CD34" = some exRound ∧
    exRound.Participants.get "p1" = some exHost ∧
    exHost.IsSpectator = true ∧
    GetAnswerCount exStore "AB12CD34" = (3, 4) ∧
    GetAnswerCount (SubmitAnswer exStore "AB12CD34" "p1" "Rome" 170).1 "AB12CD34" =
      GetAnswerCount exStore "AB12CD34" :=
  ⟨by decide, by decide, by decide, by decide,
    (GetAnswerCount_contract.1 exStore "AB12CD34" exRound (by decide)).2.2.1
      "p1" exHost "Rome" 170 (by decide) (by decide)⟩

/-- C17: for an existing session `CheckAllAnswered` is true if and only if every
participant that is not a spectator has the answered flag set; it is true when all
participants are spectators; and it is true exactly when the two numbers of
`GetAnswerCount` are equal. -/
theorem CheckAllAnswered_contract (m : Manager) (code : String) (session : QuizSession)
    (hs : m.sessions.get code = some session) :
    (CheckAllAnswered m code = true ↔
      ∀ e ∈ session.Participants, e.2.IsSpectator = false → e.2.HasAnswered = true) ∧
    ((∀ e ∈ session.Participants, e.2.IsSpectator = true) → CheckAllAnswered m code = true) ∧
    (CheckAllAnswered m code = true ↔
      (GetAnswerCount m code).1 = (GetAnswerCount m code).2) := by
  have h₁ : CheckAllAnswered m code = true ↔
      ∀ e ∈ session.Participants, e.2.IsSpectator = false → e.2.HasAnswered = true := by
    simp only [CheckAllAnswered, hs]
    exact allAnsweredLoop_iff _
  refine ⟨h₁, ?_, ?_⟩
  · intro hall
    refine h₁.mpr (fun e he hsp => ?_)
    rw [hall e he] at hsp
    cases hsp
  · rw [h₁, GetAnswerCount_eq m code session hs, ← answered_eq_iff]
    simp only [Int.natCast_inj]

/-- Witness of C17: in the session with an open question Carol has not answered. -/
theorem CheckAllAnswered_contract_witness :
    exStore.sessions.get "AB12CD34" = some exRound ∧
    CheckAllAnswered exStore "AB12CD34" = false ∧
    ((CheckAllAnswered exStore "AB12CD34" = true ↔
      ∀ e ∈ exRound.Participants, e.2.IsSpectator = false → e.2.HasAnswered = true) ∧
    ((∀ e ∈ exRound.Participants, e.2.IsSpectator = true) →
      CheckAllAnswered exStore "AB12CD34" = true) ∧
    (CheckAllAnswered exStore "AB12CD34" = true ↔
      (GetAnswerCount exStore "AB12CD34").1 = (GetAnswerCount exStore "AB12CD34").2)) :=
  ⟨by decide, by decide, CheckAllAnswered_contract exStore "AB12CD34" exRound (by decide)⟩

/-- A second instance of C17: a session of the host alone, a spectator. -/
theorem CheckAllAnswered_spectators_only :
    exSoloStore.sessions.get "AB12CD34" = some exSolo ∧
    (∀ e ∈ exSolo.Participants, e.2.IsSpectator = true) ∧
    CheckAllAnswered exSoloStore "AB12CD34" = true ∧
    GetAnswerCount exSoloStore "AB12CD34" = (0, 0) := by
  decide

/-! ## The expiry sweep -/

/-- C18: on a store whose codes are pairwise distinct, `CleanupOldSessions` with
the clock at `now` keeps exactly the sessions that were not created strictly before
`now` minus 24 hours, each unchanged under its code, and removes the others.  A
session is removed when `now` is its creation time plus 25 hours and is kept when
`now` is its creation time plus 23 hours or plus exactly 24 hours. -/
theorem CleanupOldSessions_contract (m : Manager) (hwf : m.sessions.WF) :
    (∀ now, (CleanupOldSessions m now).sessions =
      m.sessions.filter (fun e => !decide (e.2.CreatedAt < now - 24 * Hour))) ∧
    (∀ now code, (CleanupOldSessions m now).sessions.get code =
      (m.sessions.get code).filter (fun s => !decide (s.CreatedAt < now - 24 * Hour))) ∧
    (∀ code session, m.sessions.get code = some session →
      (CleanupOldSessions m (session.CreatedAt + 25 * Hour)).sessions.get code = none ∧
      (CleanupOldSessions m (session.CreatedAt + 23 * Hour)).sessions.get code = some session ∧
      (CleanupOldSessions m (session.CreatedAt + 24 * Hour)).sessions.get code =
        some session) := by
  have h₁ : ∀ now, (CleanupOldSessions m now).sessions =
      m.sessions.filter (fun e => !decide (e.2.CreatedAt < now - 24 * Hour)) := by
    intro now
    rw [cleanup_of_wf m now hwf]
    apply List.filter_congr
    intro e _
    have key : ∀ a H : Int, a + (-24) * H = a - 24 * H := by
      intro a H
      omega
    rw [key now Hour]
  have h₂ : ∀ now code, (CleanupOldSessions m now).sessions.get code =
      (m.sessions.get code).filter (fun s => !decide (s.CreatedAt < now - 24 * Hour)) := by
    intro now code
    rw [h₁ now]
    exact GoMap.get_filter_of_wf _ _ _ hwf
  refine ⟨h₁, h₂, ?_⟩
  intro code session hs
  have key : ∀ c H : Int, H = 3600000000000 →
      c < c + 25 * H - 24 * H ∧ ¬ c < c + 23 * H - 24 * H ∧ ¬ c < c + 24 * H - 24 * H := by
    intro c H hH
    omega
  obtain ⟨k₁, k₂, k₃⟩ := key session.CreatedAt Hour Hour_eq
  refine ⟨?_, ?_, ?_⟩
  · rw [h₂, hs]
    simp [Option.filter, k₁]
  · rw [h₂, hs]
    simp [Option.filter, k₂]
  · rw [h₂, hs]
    simp [Option.filter, k₃]

/-- Witness of C18: two sessions, created at 100 and two hours later; 25 hours
after the first was created the sweep removes the first and keeps the second. -/
theorem CleanupOldSessions_contract_witness :
    exTwoStore.sessions.WF ∧
    (CleanupOldSessions exTwoStore (100 + 25 * Hour)).sessions =
      [("0F9E8D7C", { exLobby with Code := "0F9E8D7C", CreatedAt := 100 + 2 * Hour })] ∧
    ((∀ now, (CleanupOldSessions exTwoStore now).sessions =
      exTwoStore.sessions.filter (fun e => !decide (e.2.CreatedAt < now - 24 * Hour))) ∧
    (∀ now code, (CleanupOldSessions exTwoStore now).sessions.get code =
      (exTwoStore.sessions.get code).filter (fun s => !decide (s.CreatedAt < now - 24 * Hour))) ∧
    (∀ code session, exTwoStore.sessions.get code = some session →
      (CleanupOldSessions exTwoStore (session.CreatedAt + 25 * Hour)).sessions.get code = none ∧
      (CleanupOldSessions exTwoStore (session.CreatedAt + 23 * Hour)).sessions.get code =
        some session ∧
      (CleanupOldSessions exTwoStore (session.CreatedAt + 24 * Hour)).sessions.get code =
        some session)) :=
  ⟨by decide, by decide, CleanupOldSessions_contract exTwoStore (by decide)⟩

/-- C19: the expiry sweep is idempotent for a fixed clock value: a second sweep
with the same `now` leaves the store of the first as it is. -/
theorem CleanupOldSessions_idempotent (m : Manager) (now : Time) :
    CleanupOldSessions (CleanupOldSessions m now) now = CleanupOldSessions m now := by
  simp only [CleanupOldSessions, cleanupLoop_eq, Manager.mk.injEq]
  apply List.filter_eq_self.mpr
  intro e he
  cases hx : expiredIn (now + (-24) * Hour)
      (m.sessions.filter (fun e => !expiredIn (now + (-24) * Hour) m.sessions e.1)) e.1 with
  | false => rfl
  | true =>
    obtain ⟨e', he', hold, _⟩ := (expiredIn_iff _ _ _).mp hx
    have hmem := List.mem_filter.mp he'
    have hexp : expiredIn (now + (-24) * Hour) m.sessions e'.1 = true :=
      (expiredIn_iff _ _ _).mpr ⟨e', hmem.1, hold, rfl⟩
    have := hmem.2
    rw [hexp] at this
    cases this

/-! ## Creating a session -/

/-- C20: for every store, quiz, random bytes and clock value, `CreateSession`
returns a code without error, the code is not empty (it has eight characters), and
`GetSession` on that code in the store returned succeeds with a session that has the
given quiz, is in Waiting state, has no participants and has the question index -1. -/
theorem CreateSession_then_GetSession (m : Manager) (quiz : Quiz)
    (bytes : Byte × Byte × Byte × Byte) (now : Time) :
    ∃ code session,
      (CreateSession m quiz bytes now).2 = .ok code ∧
      code ≠ "" ∧
      code.length = 8 ∧
      GetSession (CreateSession m quiz bytes now).1 code = .ok session ∧
      session.Quiz = quiz ∧
      session.State = .StateWaiting ∧
      session.Participants = [] ∧
      session.CurrentQuestion = -1 := by
  refine ⟨generateCode bytes,
    { Code := generateCode bytes, Quiz := quiz, Participants := [], CreatorID := "",
      CurrentQuestion := -1, State := .StateWaiting, CreatedAt := now, QuestionStarted := 0 },
    rfl, ?_, generateCode_length bytes, ?_, rfl, rfl, rfl, rfl⟩
  · intro h
    have := generateCode_length bytes
    rw [h] at this
    simp at this
  · simp only [CreateSession, GetSession, GoMap.get_set_self]

/-! ## One call at a time

What a call does to the session stored under a code: nothing, or the creation of
a session, or one `Transition`. -/

theorem CreateSession_eq (m : Manager) (quiz : Quiz) (bytes : Byte × Byte × Byte × Byte)
    (now : Time) :
    CreateSession m quiz bytes now =
      ({ sessions := m.sessions.set (generateCode bytes) (created (generateCode bytes) quiz now) },
        .ok (generateCode bytes)) := rfl

theorem cleanup_get (m : Manager) (now : Time) (code : String) :
    (CleanupOldSessions m now).sessions.get code =
      if expiredIn (now + (-24) * Hour) m.sessions code = true then none
      else m.sessions.get code := by
  simp only [CleanupOldSessions, cleanupLoop_eq]
  rw [GoMap.get_filter_key (fun k => !expiredIn (now + (-24) * Hour) m.sessions k)]
  cases expiredIn (now + (-24) * Hour) m.sessions code <;> simp

theorem RevealAnswer_not_found (m : Manager) (code : String)
    (hs : m.sessions.get code = none) :
    RevealAnswer m code = (m, .error "quiz session not found") := by
  simp [RevealAnswer, hs]

theorem RevealAnswer_panic (m : Manager) (code : String) (session : QuizSession)
    (hs : m.sessions.get code = some session) (hstate : session.State = .StateQuestion)
    (hq : index session.Quiz.Questions session.CurrentQuestion = none) :
    RevealAnswer m code = (m, .panic) := by
  simp [RevealAnswer, hs, hstate, hq]

theorem apply_get (m : Manager) (op : Op) (code : String) (session' : QuizSession)
    (h : (op.apply m).sessions.get code = some session') :
    m.sessions.get code = some session' ∨
    (∃ quiz bytes now, op = .createSession quiz bytes now ∧ generateCode bytes = code ∧
      session' = created code quiz now) ∨
    ∃ session, m.sessions.get code = some session ∧ Transition op code session session' := by
  cases op with
  | createSession quiz bytes now =>
    simp only [Op.apply, CreateSession_eq] at h
    by_cases hc : code = generateCode bytes
    · subst hc
      rw [GoMap.get_set_self] at h
      cases h
      exact Or.inr (Or.inl ⟨quiz, bytes, now, rfl, rfl, rfl⟩)
    · rw [GoMap.get_set_of_ne _ _ _ _ hc] at h
      exact Or.inl h
  | getSession c => exact Or.inl h
  | checkAllAnswered c => exact Or.inl h
  | getAnswerCount c => exact Or.inl h
  | getLeaderboard c => exact Or.inl h
  | cleanupOldSessions now =>
    simp only [Op.apply, cleanup_get] at h
    split at h
    · cases h
    · exact Or.inl h
  | addParticipant c id name now =>
    simp only [Op.apply] at h
    by_cases hok : (AddParticipant m c id name now).2 = .ok ()
    · obtain ⟨s, hs, hstate⟩ := (AddParticipant_ok_iff m c id name now).1 hok
      rw [AddParticipant_ok m c id name now s hs hstate] at h
      simp only [GoMap.get_modify_const _ _ _ _ _ hs] at h
      by_cases hc : code = c
      · subst hc
        simp only [if_true, Option.some.injEq] at h
        subst h
        exact Or.inr (Or.inr ⟨s, hs, Transition.join code id name now s hstate⟩)
      · simp only [hc, if_false] at h
        exact Or.inl h
    · rw [AddParticipant_fail_unchanged m c id name now hok] at h
      exact Or.inl h
  | startQuiz c now =>
    simp only [Op.apply] at h
    by_cases hok : (StartQuiz m c now).2 = .ok ()
    · obtain ⟨s, hs, hstate, hlen⟩ := (StartQuiz_ok_iff m c now).1 hok
      rw [StartQuiz_ok m c now s hs hstate hlen] at h
      simp only [GoMap.get_modify_const _ _ _ _ _ hs] at h
      by_cases hc : code = c
      · subst hc
        simp only [if_true, Option.some.injEq] at h
        subst h
        exact Or.inr (Or.inr ⟨s, hs, Transition.start code now s hstate hlen⟩)
      · simp only [hc, if_false] at h
        exact Or.inl h
    · rw [StartQuiz_fail_unchanged m c now hok] at h
      exact Or.inl h
  | submitAnswer c id answer now =>
    simp only [Op.apply] at h
    by_cases hok : (SubmitAnswer m c id answer now).2 = .ok ()
    · obtain ⟨s, p, hs, hstate, hp, ha⟩ := (SubmitAnswer_ok_iff m c id answer now).1 hok
      rw [SubmitAnswer_ok m c id answer now s p hs hstate hp ha] at h
      simp only [GoMap.get_modify_const _ _ _ _ _ hs] at h
      by_cases hc : code = c
      · subst hc
        simp only [if_true, Option.some.injEq] at h
        subst h
        exact Or.inr (Or.inr ⟨s, hs, Transition.submit code id answer now s p hstate hp ha⟩)
      · simp only [hc, if_false] at h
        exact Or.inl h
    · rw [SubmitAnswer_fail_unchanged m c id answer now hok] at h
      exact Or.inl h
  | revealAnswer c =>
    simp only [Op.apply] at h
    cases hs : m.sessions.get c with
    | none =>
      rw [RevealAnswer_not_found m c hs] at h
      exact Or.inl h
    | some s =>
      by_cases hstate : s.State = .StateQuestion
      · cases hq : index s.Quiz.Questions s.CurrentQuestion with
        | none =>
          rw [RevealAnswer_panic m c s hs hstate hq] at h
          exact Or.inl h
        | some q =>
          rw [RevealAnswer_ok m c s q hs hstate hq] at h
          simp only [GoMap.get_modify_const _ _ _ _ _ hs] at h
          by_cases hc : code = c
          · subst hc
            simp only [if_true, Option.some.injEq] at h
            subst h
            exact Or.inr (Or.inr ⟨s, hs, Transition.reveal code s q hstate hq⟩)
          · simp only [hc, if_false] at h
            exact Or.inl h
      · rw [RevealAnswer_wrong_state m c s hs hstate] at h
        exact Or.inl h
  | nextQuestion c now =>
    simp only [Op.apply] at h
    cases hs : m.sessions.get c with
    | none =>
      rw [NextQuestion_not_found m c now hs] at h
      exact Or.inl h
    | some s =>
      by_cases hstate : s.State = .StateAnswer
      · by_cases hlast : (s.Quiz.Questions.length : Int) ≤ s.CurrentQuestion + 1
        · rw [NextQuestion_finished m c now s hs hstate hlast] at h
          simp only [GoMap.get_modify_const _ _ _ _ _ hs] at h
          by_cases hc : code = c
          · subst hc
            simp only [if_true, Option.some.injEq] at h
            subst h
            exact Or.inr (Or.inr ⟨s, hs, Transition.finish code now s hstate hlast⟩)
          · simp only [hc, if_false] at h
            exact Or.inl h
        · have hmore : s.CurrentQuestion + 1 < (s.Quiz.Questions.length : Int) := by omega
          rw [NextQuestion_advanced m c now s hs hstate hmore] at h
          simp only [GoMap.get_modify_const _ _ _ _ _ hs] at h
          by_cases hc : code = c
          · subst hc
            simp only [if_true, Option.some.injEq] at h
            subst h
            exact Or.inr (Or.inr ⟨s, hs, Transition.advance code now s hstate hmore⟩)
          · simp only [hc, if_false] at h
            exact Or.inl h
      · rw [NextQuestion_wrong_state m c now s hs hstate] at h
        exact Or.inl h

theorem apply_sessions_shape (m : Manager) (op : Op) (hop : op.leavesScores = true) :
    (op.apply m).sessions = m.sessions ∨
      ∃ f k, (op.apply m).sessions = m.sessions.modify f k := by
  cases op with
  | createSession quiz bytes now => simp [Op.leavesScores] at hop
  | getSession c => simp [Op.leavesScores] at hop
  | revealAnswer c => simp [Op.leavesScores] at hop
  | cleanupOldSessions now => simp [Op.leavesScores] at hop
  | checkAllAnswered c => exact Or.inl rfl
  | getAnswerCount c => exact Or.inl rfl
  | getLeaderboard c => exact Or.inl rfl
  | addParticipant c id name now =>
    simp only [Op.apply, AddParticipant]
    split
    · exact Or.inl rfl
    · split
      · exact Or.inl rfl
      · exact Or.inr ⟨_, _, rfl⟩
  | startQuiz c now =>
    simp only [Op.apply, StartQuiz]
    split
    · exact Or.inl rfl
    · split
      · exact Or.inl rfl
      · split
        · exact Or.inl rfl
        · exact Or.inr ⟨_, _, rfl⟩
  | submitAnswer c id answer now =>
    simp only [Op.apply, SubmitAnswer]
    split
    · exact Or.inl rfl
    · split
      · exact Or.inl rfl
      · split
        · exact Or.inl rfl
        · split
          · exact Or.inl rfl
          · exact Or.inr ⟨_, _, rfl⟩
  | nextQuestion c now =>
    simp only [Op.apply, NextQuestion]
    split
    · exact Or.inl rfl
    · split
      · exact Or.inl rfl
      · split
        · exact Or.inr ⟨_, _, rfl⟩
        · exact Or.inr ⟨_, _, rfl⟩

theorem apply_get_isSome (m : Manager) (op : Op) (hop : op.leavesScores = true)
    (code : String) (session : QuizSession) (hs : m.sessions.get code = some session) :
    ∃ session', (op.apply m).sessions.get code = some session' := by
  have : ((op.apply m).sessions.get code).isSome = true := by
    rcases apply_sessions_shape m op hop with h | ⟨f, k, h⟩
    · rw [h, hs]; rfl
    · rw [h, GoMap.get_modify_isSome, hs]; rfl
  exact Option.isSome_iff_exists.mp this

/-! ## Invariants of the stores reached from a new manager -/

theorem okRun_true (m : Manager) (ops : List Op) : okRun (fun _ _ => true) m ops = true := by
  induction ops generalizing m with
  | nil => rfl
  | cons op ops ih => simp [okRun, ih]

theorem runFrom_invariant (P : QuizSession → Prop) (ok : Manager → Op → Bool)
    (hnew : ∀ code quiz now, P (created code quiz now))
    (hstep : ∀ m op code session session', ok m op = true →
      m.sessions.get code = some session → P session →
      Transition op code session session' → P session') :
    ∀ (ops : List Op) (m : Manager),
      (∀ code session, m.sessions.get code = some session → P session) →
      okRun ok m ops = true →
      ∀ code session, (runFrom m ops).sessions.get code = some session → P session := by
  intro ops
  induction ops with
  | nil => intro m hm _ code session hs; exact hm code session hs
  | cons op ops ih =>
    intro m hm hok code session hs
    simp only [okRun, Bool.and_eq_true] at hok
    refine ih (op.apply m) ?_ hok.2 code session hs
    intro code' s' hs'
    rcases apply_get m op code' s' hs' with h | ⟨quiz, bytes, now, _, _, rfl⟩ | ⟨s, hs₀, ht⟩
    · exact hm code' s' h
    · exact hnew _ _ _
    · exact hstep m op code' s s' hok.1 hs₀ (hm code' s hs₀) ht

theorem run_invariant (P : QuizSession → Prop)
    (hnew : ∀ code quiz now, P (created code quiz now))
    (hstep : ∀ op code session session', P session →
      Transition op code session session' → P session') :
    ∀ (ops : List Op) (code : String) (session : QuizSession),
      (run ops).sessions.get code = some session → P session := by
  intro ops code session hs
  refine runFrom_invariant P (fun _ _ => true) hnew
    (fun _ op c s s' _ _ hp ht => hstep op c s s' hp ht) ops NewManager ?_
    (okRun_true _ _) code session hs
  intro c s h
  simp [NewManager, GoMap.get] at h

theorem lifecycle_run (ops : List Op) (code : String) (session : QuizSession)
    (hs : (run ops).sessions.get code = some session) : Lifecycle session := by
  refine run_invariant Lifecycle ?_ ?_ ops code session hs
  · intro code quiz now
    exact ⟨by simp [created], fun _ => Or.inl ⟨rfl, rfl⟩⟩
  · intro op c s s' hp ht
    obtain ⟨hip, hidx⟩ := hp
    cases ht with
    | join c id name now s hstate =>
      refine ⟨by simpa [admitted] using hip, fun hq => ?_⟩
      simpa [admitted] using hidx hq
    | start c now s hstate hlen =>
      refine ⟨by simp [started], fun hq => Or.inr ⟨by simp [started], by simp [started], ?_⟩⟩
      have : s.Quiz.Questions.length ≠ 0 := fun h => hq (List.length_eq_zero.mp h)
      simp only [started]
      omega
    | submit c id answer now s p hstate hp ha =>
      refine ⟨by simpa [submitted] using hip, fun hq => ?_⟩
      simpa [submitted] using hidx hq
    | reveal c s q hstate hq' =>
      refine ⟨by simp [revealed], fun hq => Or.inr ?_⟩
      rcases hidx hq with ⟨hw, _⟩ | ⟨_, h0, h1⟩
      · rw [hstate] at hw; cases hw
      · exact ⟨by simp [revealed], by simpa [revealed] using h0, by simpa [revealed] using h1⟩
    | finish c now s hstate hlast =>
      refine ⟨by simp, fun hq => Or.inr ?_⟩
      rcases hidx hq with ⟨hw, _⟩ | ⟨_, h0, h1⟩
      · rw [hstate] at hw; cases hw
      · exact ⟨by simp, h0, h1⟩
    | advance c now s hstate hmore =>
      refine ⟨by simp [advanced], fun hq => Or.inr ?_⟩
      rcases hidx hq with ⟨hw, _⟩ | ⟨_, h0, _⟩
      · rw [hstate] at hw; cases hw
      · refine ⟨by simp [advanced], ?_, ?_⟩
        · simp only [advanced]; omega
        · simpa [advanced] using hmore

theorem index_isSome_of_lt {α : Type} (xs : List α) (i : Int) (h0 : 0 ≤ i)
    (h1 : i < (xs.length : Int)) : ∃ x, index xs i = some x := by
  cases h : index xs i with
  | some x => exact ⟨x, rfl⟩
  | none =>
    have := (index_eq_none_iff xs i h0).mp h
    omega

theorem cleanup_get_expired (m : Manager) (now : Time) (code : String) (session : QuizSession)
    (hs : m.sessions.get code = some session)
    (hold : session.CreatedAt < now + (-24) * Hour) :
    (CleanupOldSessions m now).sessions.get code = none := by
  rw [cleanup_get]
  have : expiredIn (now + (-24) * Hour) m.sessions code = true :=
    (expiredIn_iff _ _ _).mpr ⟨(code, session), GoMap.mem_of_get _ _ _ hs, hold, rfl⟩
  rw [if_pos this]

theorem zeroInWaiting_run (ops : List Op) (code : String) (session : QuizSession)
    (hs : (run ops).sessions.get code = some session) : ZeroInWaiting session := by
  refine run_invariant ZeroInWaiting ?_ ?_ ops code session hs
  · intro code quiz now _ id p hp
    simp [created, GoMap.get] at hp
  · intro op c s s' hp ht
    cases ht with
    | join c id name now s hstate =>
      intro _ id' p' hp'
      simp only [admitted] at hp'
      by_cases hid : id' = id
      · subst hid
        rw [GoMap.get_set_self] at hp'
        cases hp'
        exact ⟨rfl, rfl⟩
      · rw [GoMap.get_set_of_ne _ _ _ _ hid] at hp'
        exact hp hstate id' p' hp'
    | start c now s hstate hlen => intro h; simp [started] at h
    | submit c id answer now s p hstate hp' ha =>
      intro h
      simp only [submitted] at h
      rw [hstate] at h
      cases h
    | reveal c s q hstate hq => intro h; simp [revealed] at h
    | finish c now s hstate hlast => intro h; simp at h
    | advance c now s hstate hmore => intro h; simp [advanced] at h

theorem calculateStreakBonus_nonneg (s : Int) : 0 ≤ calculateStreakBonus s := by
  unfold calculateStreakBonus
  split_ifs <;> omega

theorem scored_score_le (b : Bool) (q : Question) (p : Participant) :
    p.Score ≤ (scored b q p).Score := by
  have := calculateStreakBonus_nonneg (p.CurrentStreak + 1)
  unfold scored
  by_cases h : p.CurrentAnswer = q.Answer
  · cases b
    · simp [h]
    · simp only [h, if_true]
      omega
  · simp [h]

theorem spectatorIDs_forEach (f : Participant → Participant) (ps : GoMap Participant)
    (hf : ∀ p, (f p).IsSpectator = p.IsSpectator) :
    spectatorIDs (ps.forEach f) = spectatorIDs ps := by
  induction ps with
  | nil => rfl
  | cons e rest ih =>
    obtain ⟨k, p⟩ := e
    simp only [spectatorIDs, GoMap.forEach] at ih ⊢
    simp only [List.map_cons, List.filter_cons, hf]
    split <;> simp [ih]

theorem spectatorIDs_modify (f : Participant → Participant) (ps : GoMap Participant)
    (id : String) (hf : ∀ p, (f p).IsSpectator = p.IsSpectator) :
    spectatorIDs (ps.modify f id) = spectatorIDs ps := by
  induction ps with
  | nil => rfl
  | cons e rest ih =>
    obtain ⟨k, p⟩ := e
    simp only [spectatorIDs] at ih ⊢
    by_cases hk : k = id
    · simp only [GoMap.modify, hk, if_true, List.filter_cons, hf]
      split <;> simp
    · simp only [GoMap.modify, hk, if_false, List.filter_cons]
      split <;> simp [ih]

theorem spectatorIDs_set (ps : GoMap Participant) (id : String) (v : Participant)
    (hv : v.IsSpectator = false) (hid : id ∉ spectatorIDs ps) :
    spectatorIDs (ps.set id v) = spectatorIDs ps := by
  induction ps with
  | nil => simp [spectatorIDs, GoMap.set, hv]
  | cons e rest ih =>
    obtain ⟨k, p⟩ := e
    simp only [spectatorIDs] at ih hid ⊢
    by_cases hk : k = id
    · subst hk
      have hp : p.IsSpectator = false := by
        cases h : p.IsSpectator with
        | false => rfl
        | true => simp [List.filter_cons, h] at hid
      simp [GoMap.set, List.filter_cons, hp, hv]
    · by_cases hp : p.IsSpectator = true
      · have hid' : id ∉ List.map Prod.fst (List.filter (fun e => e.2.IsSpectator) rest) := by
          simp only [List.filter_cons, hp, if_true, List.map_cons, List.mem_cons, not_or] at hid
          exact hid.2
        simp [GoMap.set, hk, List.filter_cons, hp, ih hid']
      · have hid' : id ∉ List.map Prod.fst (List.filter (fun e => e.2.IsSpectator) rest) := by
          simpa [List.filter_cons, hp] using hid
        simp [GoMap.set, hk, List.filter_cons, hp, ih hid']

theorem scored_isSpectator (b : Bool) (q : Question) (p : Participant) :
    (scored b q p).IsSpectator = p.IsSpectator := rfl

theorem oneSpectator_run (ops : List Op) (hok : okRun keepsCreator NewManager ops = true)
    (code : String) (session : QuizSession)
    (hs : (run ops).sessions.get code = some session) : OneSpectator session := by
  refine runFrom_invariant OneSpectator keepsCreator ?_ ?_ ops NewManager ?_ hok code session hs
  · intro code quiz now
    exact ⟨by simp [created, GoMap.WF], Or.inl rfl⟩
  · intro m op c s s' hok' hget hp ht
    obtain ⟨hwf, hone⟩ := hp
    cases ht with
    | join c id name now s hstate =>
      refine ⟨GoMap.wf_set _ _ _ hwf, Or.inr ?_⟩
      simp only [keepsCreator, hget, Bool.or_eq_true, decide_eq_true_eq] at hok'
      by_cases hlen : s.Participants.length = 0
      · have hnil : s.Participants = [] := List.length_eq_zero.mp hlen
        simp [admitted, hnil, spectatorIDs, GoMap.set, newParticipant]
      · have hne : id ≠ s.CreatorID := by
          rcases hok' with h | h
          · exact absurd h hlen
          · exact h
        have hspec : spectatorIDs s.Participants = [s.CreatorID] := by
          rcases hone with h | h
          · rw [h] at hlen; simp at hlen
          · exact h
        simp only [admitted, hlen, if_false, decide_False]
        rw [spectatorIDs_set _ _ _ rfl (by simp [hspec, hne])]
        exact hspec
    | start c now s hstate hlen =>
      refine ⟨GoMap.wf_forEach _ _ hwf, ?_⟩
      rcases hone with h | h
      · rw [h] at hlen; simp at hlen
      · exact Or.inr (by simpa [started, spectatorIDs_forEach resetAnswer _ (fun _ => rfl)] using h)
    | submit c id answer now s p hstate hp' ha =>
      refine ⟨GoMap.wf_modify _ _ _ hwf, ?_⟩
      rcases hone with h | h
      · rw [h] at hp'; simp [GoMap.get] at hp'
      · refine Or.inr ?_
        simp only [submitted]
        rw [spectatorIDs_modify
          (fun p => { p with CurrentAnswer := answer, HasAnswered := true, AnsweredAt := now })
          _ _ (fun _ => rfl)]
        exact h
    | reveal c s q hstate hq =>
      have hshape : (revealed s q).Participants =
          s.Participants.forEach
            (fun v => if v.IsSpectator then v else scored s.Quiz.StreakBonus q v) := by
        simp only [revealed, revealLoop_fst, GoMap.forEach]
      have hf : ∀ v : Participant,
          (if v.IsSpectator then v else scored s.Quiz.StreakBonus q v).IsSpectator =
            v.IsSpectator := by
        intro v; split <;> rfl
      refine ⟨by rw [hshape]; exact GoMap.wf_forEach _ _ hwf, ?_⟩
      rcases hone with h | h
      · exact Or.inl (by rw [hshape, h]; rfl)
      · refine Or.inr ?_
        rw [hshape, spectatorIDs_forEach _ _ hf]
        simpa [revealed] using h
    | finish c now s hstate hlast => exact ⟨hwf, hone⟩
    | advance c now s hstate hmore =>
      refine ⟨GoMap.wf_forEach _ _ hwf, ?_⟩
      rcases hone with h | h
      · exact Or.inl (by simp [advanced, h, GoMap.forEach])
      · exact Or.inr (by simpa [advanced, spectatorIDs_forEach resetAnswer _ (fun _ => rfl)] using h)
  · intro c s h
    simp [NewManager, GoMap.get] at h

theorem revealLoop_forall₂_mem (b : Bool) (q : Question)
    (R : String × Participant → ParticipantInfo → Prop) (ps : GoMap Participant)
    (hR : ∀ id p, (id, p) ∈ ps → p.IsSpectator = false → R (id, p) (scoreParticipant b q p).2) :
    List.Forall₂ R (ps.filter (fun e => !e.2.IsSpectator)) (revealLoop b q ps).2 := by
  induction ps with
  | nil => exact List.Forall₂.nil
  | cons e rest ih =>
    obtain ⟨id, p⟩ := e
    have ih' := ih (fun id' p' hm hs => hR id' p' (List.mem_cons_of_mem _ hm) hs)
    by_cases h : p.IsSpectator = true
    · simpa [revealLoop, h] using ih'
    · have h' : p.IsSpectator = false := by simpa using h
      simpa [revealLoop, h'] using And.intro (hR id p (List.mem_cons_self _ _) h') ih'

theorem freshRound_submitAll (quiz : Quiz) (idx : Int) (code : String) :
    ∀ (subs : List (String × String × Time)) (m : Manager),
      (∃ s, m.sessions.get code = some s ∧ FreshRound quiz idx s) →
      ∃ s, (submitAll m code subs).sessions.get code = some s ∧ FreshRound quiz idx s := by
  intro subs
  induction subs with
  | nil => intro m h; exact h
  | cons x rest ih =>
    obtain ⟨id, answer, now⟩ := x
    intro m ⟨s, hs, hfr⟩
    simp only [submitAll]
    apply ih
    by_cases hok : (SubmitAnswer m code id answer now).2 = .ok ()
    · obtain ⟨s₀, p, hs₀, hstate, hp, ha⟩ := (SubmitAnswer_ok_iff m code id answer now).1 hok
      rw [hs] at hs₀
      cases hs₀
      rw [SubmitAnswer_ok m code id answer now s p hs hstate hp ha]
      refine ⟨submitted s id answer now,
        by simp only [GoMap.get_modify_self, hs, Option.map_some'], ?_⟩
      obtain ⟨h1, h2, h3, h4⟩ := hfr
      refine ⟨by simpa [submitted] using h1, by simpa [submitted] using h2,
        by simpa [submitted] using h3, ?_⟩
      intro e he hna
      simp only [submitted] at he
      rcases GoMap.mem_modify _ _ _ _ he with h | ⟨v, _, rfl⟩
      · exact h4 e h hna
      · simp at hna
    · rw [SubmitAnswer_fail_unchanged m code id answer now hok]
      exact ⟨s, hs, hfr⟩

/-! ## Sessions that are not there, and sessions that are over -/

/-- C21: for a code that the store does not hold, `GetSession`, `AddParticipant`,
`StartQuiz`, `SubmitAnswer`, `RevealAnswer`, `NextQuestion` and `GetLeaderboard`
each return the error "quiz session not found", and those that can write return the
store they were given.  A code is in that situation after an expiry sweep that finds
its session created before `now` minus 24 hours. -/
theorem session_not_found :
    (∀ (m : Manager) (code : String), m.sessions.get code = none →
      GetSession m code = .error "quiz session not found" ∧
      (∀ participantID name now,
        AddParticipant m code participantID name now =
          (m, .error "quiz session not found")) ∧
      (∀ now, StartQuiz m code now = (m, .error "quiz session not found")) ∧
      (∀ participantID answer now,
        SubmitAnswer m code participantID answer now =
          (m, .error "quiz session not found")) ∧
      RevealAnswer m code = (m, .error "quiz session not found") ∧
      (∀ now, NextQuestion m code now = (m, .error "quiz session not found")) ∧
      GetLeaderboard m code = .error "quiz session not found") ∧
    (∀ (m : Manager) (now : Time) (code : String) (session : QuizSession),
      m.sessions.get code = some session → session.CreatedAt < now - 24 * Hour →
      (CleanupOldSessions m now).sessions.get code = none) := by
  constructor
  · intro m code hs
    refine ⟨?_, ?_, ?_, ?_, ?_, ?_, ?_⟩
    · simp [GetSession, hs]
    · intro id name now; simp [AddParticipant, hs]
    · intro now; simp [StartQuiz, hs]
    · intro id answer now; simp [SubmitAnswer, hs]
    · simp [RevealAnswer, hs]
    · intro now; simp [NextQuestion, hs]
    · simp [GetLeaderboard, hs]
  · intro m now code session hs hold
    have key : ∀ a H : Int, a - 24 * H = a + (-24) * H := by
      intro a H
      omega
    rw [key now Hour] at hold
    exact cleanup_get_expired m now code session hs hold

/-- Witness of C21: a code that was never created, and the first session of the
two-session store 25 hours after it was created. -/
theorem session_not_found_witness :
    (exStore.sessions.get "ZZZZZZZZ" = none ∧
      RevealAnswer exStore "ZZZZZZZZ" = (exStore, .error "quiz session not found") ∧
      NextQuestion exStore "ZZZZZZZZ" 170 = (exStore, .error "quiz session not found")) ∧
    (exTwoStore.sessions.get "AB12CD34" = some exRound ∧
      exRound.CreatedAt < 100 + 25 * Hour - 24 * Hour ∧
      (CleanupOldSessions exTwoStore (100 + 25 * Hour)).sessions.get "AB12CD34" = none ∧
      RevealAnswer (CleanupOldSessions exTwoStore (100 + 25 * Hour)) "AB12CD34" =
        (CleanupOldSessions exTwoStore (100 + 25 * Hour), .error "quiz session not found")) :=
  ⟨⟨by decide, (session_not_found.1 exStore "ZZZZZZZZ" (by decide)).2.2.2.2.1,
      (session_not_found.1 exStore "ZZZZZZZZ" (by decide)).2.2.2.2.2.1 170⟩,
    ⟨by decide, by decide,
      session_not_found.2 exTwoStore (100 + 25 * Hour) "AB12CD34" exRound
        (by decide) (by decide),
      (session_not_found.1 (CleanupOldSessions exTwoStore (100 + 25 * Hour)) "AB12CD34"
        (by decide)).2.2.2.2.1⟩⟩

/-- C24: Finished is terminal.  On a session in Finished state `AddParticipant`,
`StartQuiz`, `SubmitAnswer`, `RevealAnswer` and `NextQuestion` each return an error
and the store they were given, so the session is as it was. -/
theorem finished_is_terminal (m : Manager) (code : String) (session : QuizSession)
    (hs : m.sessions.get code = some session) (hstate : session.State = .StateFinished) :
    (∀ participantID name now,
      AddParticipant m code participantID name now = (m, .error "quiz has already started")) ∧
    (∀ now, StartQuiz m code now = (m, .error "quiz already started")) ∧
    (∀ participantID answer now,
      SubmitAnswer m code participantID answer now =
        (m, .error "not accepting answers right now")) ∧
    RevealAnswer m code = (m, .error "not in question state") ∧
    (∀ now, NextQuestion m code now = (m, .error "not in answer state")) := by
  refine ⟨?_, ?_, ?_, ?_, ?_⟩
  · intro id name now; simp [AddParticipant, hs, hstate]
  · intro now; simp [StartQuiz, hs, hstate]
  · intro id answer now; simp [SubmitAnswer, hs, hstate]
  · simp [RevealAnswer, hs, hstate]
  · intro now; simp [NextQuestion, hs, hstate]

/-- Witness of C24: the finished session of the host, Alice, Bob and Charlie. -/
theorem finished_is_terminal_witness :
    exBoardStore.sessions.get "AB12CD34" = some exBoard ∧
    exBoard.State = .StateFinished ∧
    (∀ participantID name now,
      AddParticipant exBoardStore "AB12CD34" participantID name now =
        (exBoardStore, .error "quiz has already started")) ∧
    (∀ now, StartQuiz exBoardStore "AB12CD34" now =
      (exBoardStore, .error "quiz already started")) ∧
    (∀ participantID answer now,
      SubmitAnswer exBoardStore "AB12CD34" participantID answer now =
        (exBoardStore, .error "not accepting answers right now")) ∧
    RevealAnswer exBoardStore "AB12CD34" = (exBoardStore, .error "not in question state") ∧
    (∀ now, NextQuestion exBoardStore "AB12CD34" now =
      (exBoardStore, .error "not in answer state")) :=
  ⟨by decide, by decide,
    finished_is_terminal exBoardStore "AB12CD34" exBoard (by decide) (by decide)⟩

/-! ## The lifecycle -/

/-- C22: in every store reached from a new manager by any sequence of calls, a
session whose quiz has at least one question has an index of a question whenever its
state is Question or Answer, has the index -1 if and only if its state is Waiting,
and `RevealAnswer` on it does not panic on the question lookup. -/
theorem index_invariant (ops : List Op) (code : String) (session : QuizSession)
    (hs : (run ops).sessions.get code = some session)
    (hq : session.Quiz.Questions ≠ []) :
    ((session.State = .StateQuestion ∨ session.State = .StateAnswer) →
      0 ≤ session.CurrentQuestion ∧
      session.CurrentQuestion < (session.Quiz.Questions.length : Int)) ∧
    (session.CurrentQuestion = -1 ↔ session.State = .StateWaiting) ∧
    (RevealAnswer (run ops) code).2 ≠ .panic := by
  obtain ⟨_, hidx⟩ := lifecycle_run ops code session hs
  have hidx := hidx hq
  refine ⟨?_, ?_, ?_⟩
  · intro hst
    rcases hidx with ⟨hw, _⟩ | ⟨_, h0, h1⟩
    · rcases hst with h | h <;> rw [h] at hw <;> cases hw
    · exact ⟨h0, h1⟩
  · rcases hidx with ⟨hw, hi⟩ | ⟨hnw, h0, _⟩
    · exact ⟨fun _ => hw, fun _ => hi⟩
    · exact ⟨fun h => by omega, fun h => absurd h hnw⟩
  · by_cases hstate : session.State = .StateQuestion
    · rcases hidx with ⟨hw, _⟩ | ⟨_, h0, h1⟩
      · rw [hstate] at hw; cases hw
      · obtain ⟨q, hq'⟩ := index_isSome_of_lt _ _ h0 h1
        rw [RevealAnswer_ok _ code session q hs hstate hq']
        simp
    · rw [RevealAnswer_wrong_state _ code session hs hstate]
      simp

/-- Witness of C22: the session left by the short game `exOps`. -/
theorem index_invariant_witness :
    (run exOps).sessions.get "AB12CD34" = some exPlayed ∧
    exPlayed.Quiz.Questions ≠ [] ∧
    ((exPlayed.State = .StateQuestion ∨ exPlayed.State = .StateAnswer) →
      0 ≤ exPlayed.CurrentQuestion ∧
      exPlayed.CurrentQuestion < (exPlayed.Quiz.Questions.length : Int)) ∧
    (exPlayed.CurrentQuestion = -1 ↔ exPlayed.State = .StateWaiting) ∧
    (RevealAnswer (run exOps) "AB12CD34").2 ≠ .panic :=
  ⟨by decide, by decide, index_invariant exOps "AB12CD34" exPlayed (by decide) (by decide)⟩

/-- C25: a call changes the state of the session stored under a code only from
Waiting to Question (`StartQuiz`), from Question to Answer (`RevealAnswer`), or from
Answer to Question or Finished (`NextQuestion`); after every other call the session
under the code has the state it had, unless `CreateSession` drew the same code again
and stored its new session, in Waiting state, there.  No store reached from a new
manager holds a session in the in-progress state. -/
theorem state_edges :
    (∀ (m : Manager) (op : Op) (code : String) (session session' : QuizSession),
      m.sessions.get code = some session →
      (op.apply m).sessions.get code = some session' →
      session'.State = session.State ∨
      (∃ now, op = .startQuiz code now ∧ session.State = .StateWaiting ∧
        session'.State = .StateQuestion) ∨
      (op = .revealAnswer code ∧ session.State = .StateQuestion ∧
        session'.State = .StateAnswer) ∨
      (∃ now, op = .nextQuestion code now ∧ session.State = .StateAnswer ∧
        (session'.State = .StateQuestion ∨ session'.State = .StateFinished)) ∨
      (∃ quiz bytes now, op = .createSession quiz bytes now ∧ generateCode bytes = code ∧
        session' = created code quiz now)) ∧
    (∀ (ops : List Op) (code : String) (session : QuizSession),
      (run ops).sessions.get code = some session → session.State ≠ .StateInProgress) := by
  refine ⟨?_, fun ops code session hs => (lifecycle_run ops code session hs).1⟩
  intro m op code s s' hs hs'
  rcases apply_get m op code s' hs' with h | ⟨quiz, bytes, now, hop, hc, hcr⟩ | ⟨s₀, hs₀, ht⟩
  · rw [hs] at h
    cases h
    exact Or.inl rfl
  · exact Or.inr (Or.inr (Or.inr (Or.inr ⟨quiz, bytes, now, hop, hc, hcr⟩)))
  · rw [hs] at hs₀
    cases hs₀
    cases ht with
    | join c id name now s hstate => exact Or.inl (by simp [admitted])
    | start c now s hstate hlen => exact Or.inr (Or.inl ⟨now, rfl, hstate, by simp [started]⟩)
    | submit c id answer now s p hstate hp ha => exact Or.inl (by simp [submitted])
    | reveal c s q hstate hq => exact Or.inr (Or.inr (Or.inl ⟨rfl, hstate, by simp [revealed]⟩))
    | finish c now s hstate hlast =>
      exact Or.inr (Or.inr (Or.inr (Or.inl ⟨now, rfl, hstate, Or.inr rfl⟩)))
    | advance c now s hstate hmore =>
      exact Or.inr (Or.inr (Or.inr (Or.inl ⟨now, rfl, hstate, Or.inl (by simp [advanced])⟩)))

/-- Witness of C25: `StartQuiz` on the waiting session of the host and Carol, and
the session left by the short game `exOps`. -/
theorem state_edges_witness :
    (exOpenLobbyStore.sessions.get "AB12CD34" = some exOpenLobby ∧
      ((Op.startQuiz "AB12CD34" 140).apply exOpenLobbyStore).sessions.get "AB12CD34" =
        some (started exOpenLobby 140) ∧
      exOpenLobby.State = .StateWaiting ∧
      (started exOpenLobby 140).State = .StateQuestion ∧
      ((started exOpenLobby 140).State = exOpenLobby.State ∨
        (∃ now, Op.startQuiz "AB12CD34" 140 = .startQuiz "AB12CD34" now ∧
          exOpenLobby.State = .StateWaiting ∧
          (started exOpenLobby 140).State = .StateQuestion) ∨
        (Op.startQuiz "AB12CD34" 140 = .revealAnswer "AB12CD34" ∧
          exOpenLobby.State = .StateQuestion ∧
          (started exOpenLobby 140).State = .StateAnswer) ∨
        (∃ now, Op.startQuiz "AB12CD34" 140 = .nextQuestion "AB12CD34" now ∧
          exOpenLobby.State = .StateAnswer ∧
          ((started exOpenLobby 140).State = .StateQuestion ∨
            (started exOpenLobby 140).State = .StateFinished)) ∨
        (∃ quiz bytes now, Op.startQuiz "AB12CD34" 140 = .createSession quiz bytes now ∧
          generateCode bytes = "AB12CD34" ∧
          started exOpenLobby 140 = created "AB12CD34" quiz now))) ∧
    ((run exOps).sessions.get "AB12CD34" = some exPlayed ∧
      exPlayed.State ≠ .StateInProgress) :=
  ⟨⟨by decide, by decide, by decide, by decide,
      state_edges.1 exOpenLobbyStore (.startQuiz "AB12CD34" 140) "AB12CD34" exOpenLobby
        (started exOpenLobby 140) (by decide) (by decide)⟩,
    ⟨by decide, state_edges.2 exOps "AB12CD34" exPlayed (by decide)⟩⟩

/-! ## Scores and streaks -/

/-- C26: a score never decreases.  For every store reached from a new manager, every
further call, and every id that the session under a code binds before and after the
call, the score after the call is at least the score before it. -/
theorem score_never_decreases (ops : List Op) (op : Op) (code id : String)
    (session session' : QuizSession) (p p' : Participant)
    (hs : (run ops).sessions.get code = some session)
    (hs' : (op.apply (run ops)).sessions.get code = some session')
    (hp : session.Participants.get id = some p)
    (hp' : session'.Participants.get id = some p') :
    p.Score ≤ p'.Score := by
  have hzero := zeroInWaiting_run ops code session hs
  rcases apply_get _ op code session' hs' with h | ⟨quiz, bytes, now, _, _, hcr⟩ | ⟨s₀, hs₀, ht⟩
  · rw [hs] at h
    cases h
    rw [hp] at hp'
    cases hp'
    exact Int.le_refl _
  · subst hcr
    simp [created, GoMap.get] at hp'
  · rw [hs] at hs₀
    cases hs₀
    cases ht with
    | join c name' nm now s hstate =>
      simp only [admitted] at hp'
      by_cases hid : id = name'
      · subst hid
        rw [GoMap.get_set_self] at hp'
        cases hp'
        have := (hzero hstate id p hp).1
        simp [newParticipant, this]
      · rw [GoMap.get_set_of_ne _ _ _ _ hid, hp] at hp'
        cases hp'
        exact Int.le_refl _
    | start c now s hstate hlen =>
      simp only [started, GoMap.get_forEach, hp, Option.map_some', Option.some.injEq] at hp'
      subst hp'
      exact Int.le_refl _
    | submit c id' answer now s p₀ hstate hp₀ ha =>
      simp only [submitted] at hp'
      by_cases hid : id = id'
      · subst hid
        rw [GoMap.get_modify_self, hp] at hp'
        cases hp'
        exact Int.le_refl _
      · rw [GoMap.get_modify_of_ne _ _ _ _ hid, hp] at hp'
        cases hp'
        exact Int.le_refl _
    | reveal c s q hstate hq =>
      rw [revealed_get, hp] at hp'
      simp only [Option.map_some', Option.some.injEq] at hp'
      subst hp'
      split
      · exact Int.le_refl _
      · exact scored_score_le _ _ _
    | finish c now s hstate hlast =>
      simp only [hp, Option.some.injEq] at hp'
      subst hp'
      exact Int.le_refl _
    | advance c now s hstate hmore =>
      simp only [advanced, GoMap.get_forEach, hp, Option.map_some', Option.some.injEq] at hp'
      subst hp'
      exact Int.le_refl _

/-- Witness of C26: Carol has answered the first question; the reveal takes her
score from 0 to 1. -/
theorem score_never_decreases_witness :
    (run exOpsAnswered).sessions.get "AB12CD34" = some exAnswered ∧
    ((Op.revealAnswer "AB12CD34").apply (run exOpsAnswered)).sessions.get "AB12CD34" =
      some (revealed exAnswered exFirstQuestion) ∧
    exAnswered.Participants.get "p4" =
      some { exCarol with CurrentAnswer := "A", HasAnswered := true, AnsweredAt := 150 } ∧
    (revealed exAnswered exFirstQuestion).Participants.get "p4" =
      some { exCarol with
        CurrentAnswer := "A", HasAnswered := true, AnsweredAt := 150, Score := 1,
        CurrentStreak := 1 } ∧
    ({ exCarol with CurrentAnswer := "A", HasAnswered := true, AnsweredAt := 150 } :
        Participant).Score ≤
      ({ exCarol with
        CurrentAnswer := "A", HasAnswered := true, AnsweredAt := 150, Score := 1,
        CurrentStreak := 1 } : Participant).Score :=
  ⟨by decide, by decide, by decide, by decide,
    score_never_decreases exOpsAnswered (.revealAnswer "AB12CD34") "AB12CD34" "p4"
      exAnswered (revealed exAnswered exFirstQuestion)
      { exCarol with CurrentAnswer := "A", HasAnswered := true, AnsweredAt := 150 }
      { exCarol with
        CurrentAnswer := "A", HasAnswered := true, AnsweredAt := 150, Score := 1,
        CurrentStreak := 1 }
      (by decide) (by decide) (by decide) (by decide)⟩

/-- C27: scores and streaks change only in `RevealAnswer`.  For every store reached
from a new manager and every call of `AddParticipant`, `StartQuiz`, `SubmitAnswer`,
`NextQuestion`, `GetAnswerCount`, `CheckAllAnswered` or `GetLeaderboard`, every
participant of a session is still in the session after the call, with the score and
the streak it had. -/
theorem scores_change_only_in_reveal (ops : List Op) (op : Op) (code id : String)
    (session : QuizSession) (p : Participant)
    (hop : op.leavesScores = true)
    (hs : (run ops).sessions.get code = some session)
    (hp : session.Participants.get id = some p) :
    ∃ session' p',
      (op.apply (run ops)).sessions.get code = some session' ∧
      session'.Participants.get id = some p' ∧
      p'.Score = p.Score ∧ p'.CurrentStreak = p.CurrentStreak := by
  have hzero := zeroInWaiting_run ops code session hs
  obtain ⟨session', hs'⟩ := apply_get_isSome _ op hop code session hs
  refine ⟨session', ?_⟩
  rcases apply_get _ op code session' hs' with h | ⟨quiz, bytes, now, hcr, _, _⟩ | ⟨s₀, hs₀, ht⟩
  · rw [hs] at h
    cases h
    exact ⟨p, hs', hp, rfl, rfl⟩
  · subst hcr
    simp [Op.leavesScores] at hop
  · rw [hs] at hs₀
    cases hs₀
    cases ht with
    | join c id' name now s hstate =>
      by_cases hid : id = id'
      · subst hid
        refine ⟨newParticipant id name (decide (session.Participants.length = 0)) now, hs',
          GoMap.get_set_self _ _ _, ?_, ?_⟩
        · exact (hzero hstate id p hp).1.symm
        · exact (hzero hstate id p hp).2.symm
      · refine ⟨p, hs', ?_, rfl, rfl⟩
        simp only [admitted]
        rw [GoMap.get_set_of_ne _ _ _ _ hid, hp]
    | start c now s hstate hlen =>
      exact ⟨resetAnswer p, hs', by simp [started, GoMap.get_forEach, hp], rfl, rfl⟩
    | submit c id' answer now s p₀ hstate hp₀ ha =>
      by_cases hid : id = id'
      · subst hid
        exact ⟨{ p with CurrentAnswer := answer, HasAnswered := true, AnsweredAt := now }, hs',
          by simp only [submitted, GoMap.get_modify_self, hp, Option.map_some'], rfl, rfl⟩
      · refine ⟨p, hs', ?_, rfl, rfl⟩
        simp only [submitted]
        rw [GoMap.get_modify_of_ne _ _ _ _ hid, hp]
    | reveal c s q hstate hq => simp [Op.leavesScores] at hop
    | finish c now s hstate hlast => exact ⟨p, hs', hp, rfl, rfl⟩
    | advance c now s hstate hmore =>
      exact ⟨resetAnswer p, hs', by simp [advanced, GoMap.get_forEach, hp], rfl, rfl⟩

/-- Witness of C27: after the short game `exOps` Carol, with one point and a
streak of one, submits an answer to the second question. -/
theorem scores_change_only_in_reveal_witness :
    (Op.submitAnswer "AB12CD34" "p4" "B" 170).leavesScores = true ∧
    (run exOps).sessions.get "AB12CD34" = some exPlayed ∧
    exPlayed.Participants.get "p4" =
      some { exCarol with Score := 1, CurrentStreak := 1, AnsweredAt := 150 } ∧
    ∃ session' p',
      ((Op.submitAnswer "AB12CD34" "p4" "B" 170).apply (run exOps)).sessions.get "AB12CD34" =
        some session' ∧
      session'.Participants.get "p4" = some p' ∧
      p'.Score = ({ exCarol with Score := 1, CurrentStreak := 1, AnsweredAt := 150 } :
        Participant).Score ∧
      p'.CurrentStreak =
        ({ exCarol with Score := 1, CurrentStreak := 1, AnsweredAt := 150 } :
          Participant).CurrentStreak :=
  ⟨by decide, by decide, by decide,
    scores_change_only_in_reveal exOps (.submitAnswer "AB12CD34" "p4" "B" 170) "AB12CD34" "p4"
      exPlayed { exCarol with Score := 1, CurrentStreak := 1, AnsweredAt := 150 }
      (by decide) (by decide) (by decide)⟩

/-! ## The spectator -/

/-- C23, counterexample: the host is admitted, and then admitted again under the
same id.  The session has one participant, the creator, and nobody is stored as a
spectator. -/
theorem readmitted_creator_is_no_spectator :
    (run exReadmitOps).sessions.get "AB12CD34" = some exReadmitted ∧
    ¬ (exReadmitted.Participants = [] ∨
      (exReadmitted.Participants.filter (fun e => e.2.IsSpectator)).map Prod.fst =
        [exReadmitted.CreatorID]) := by
  decide

/-- C23, amended: in every store reached from a new manager by a sequence of calls
that never admits a participant under the id of the creator of a session that has
participants, the ids of the participants of a session are pairwise distinct, and
the session has no participants or exactly one participant stored as a spectator,
under the id of the creator. -/
theorem one_spectator_unless_creator_readmitted (ops : List Op) (code : String)
    (session : QuizSession)
    (hok : okRun keepsCreator NewManager ops = true)
    (hs : (run ops).sessions.get code = some session) :
    session.Participants.WF ∧
    (session.Participants = [] ∨
      (session.Participants.filter (fun e => e.2.IsSpectator)).map Prod.fst =
        [session.CreatorID]) :=
  oneSpectator_run ops hok code session hs

/-- Witness of the amended C23: the session left by the short game `exOps`. -/
theorem one_spectator_unless_creator_readmitted_witness :
    okRun keepsCreator NewManager exOps = true ∧
    (run exOps).sessions.get "AB12CD34" = some exPlayed ∧
    exPlayed.Participants.WF ∧
    (exPlayed.Participants = [] ∨
      (exPlayed.Participants.filter (fun e => e.2.IsSpectator)).map Prod.fst =
        [exPlayed.CreatorID]) :=
  ⟨by decide, by decide,
    one_spectator_unless_creator_readmitted exOps "AB12CD34" exPlayed (by decide) (by decide)⟩

/-! ## From one question to the next -/

/-- C28: a session has a question open and a further question behind it.  After
`RevealAnswer` and `NextQuestion`, which returns `true`, the session has the further
question open and every participant has the answered flag off and no answer stored.
After any submissions to that question, `RevealAnswer` carries the answer of the
further question and reports a participant that is not a spectator correct if and
only if the stored answer equals it; a participant who has not submitted has no
answer stored, whatever was submitted before, and when the answer of the further
question is not empty is reported incorrect, with the score kept, streak 0 and no
bonus. -/
theorem next_round_is_judged_afresh (m : Manager) (code : String) (now : Time)
    (session : QuizSession) (currentQ nextQ : Question)
    (hs : m.sessions.get code = some session)
    (hstate : session.State = .StateQuestion)
    (hq : index session.Quiz.Questions session.CurrentQuestion = some currentQ)
    (hq' : index session.Quiz.Questions (session.CurrentQuestion + 1) = some nextQ) :
    (RevealAnswer m code).2 =
      .ok { CorrectAnswer := currentQ.Answer,
            Participants :=
              (revealLoop session.Quiz.StreakBonus currentQ session.Participants).2 } ∧
    (NextQuestion (RevealAnswer m code).1 code now).2 = .ok true ∧
    (∃ session₂,
      (NextQuestion (RevealAnswer m code).1 code now).1.sessions.get code = some session₂ ∧
      session₂.State = .StateQuestion ∧
      session₂.CurrentQuestion = session.CurrentQuestion + 1 ∧
      ∀ e ∈ session₂.Participants, e.2.HasAnswered = false ∧ e.2.CurrentAnswer = "") ∧
    (∀ subs : List (String × String × Time),
      ∃ session₃ reveal,
        (submitAll (NextQuestion (RevealAnswer m code).1 code now).1 code subs).sessions.get
          code = some session₃ ∧
        (RevealAnswer
          (submitAll (NextQuestion (RevealAnswer m code).1 code now).1 code subs) code).2 =
          .ok reveal ∧
        reveal.CorrectAnswer = nextQ.Answer ∧
        List.Forall₂
          (fun e info =>
            info.Answer = e.2.CurrentAnswer ∧
            (info.IsCorrect = true ↔ e.2.CurrentAnswer = nextQ.Answer) ∧
            (e.2.HasAnswered = false →
              e.2.CurrentAnswer = "" ∧
              (nextQ.Answer ≠ "" →
                info.IsCorrect = false ∧ info.Score = e.2.Score ∧ info.Streak = 0 ∧
                info.StreakBonus = 0)))
          (session₃.Participants.filter (fun e => !e.2.IsSpectator)) reveal.Participants) := by
  have hr := RevealAnswer_ok m code session currentQ hs hstate hq
  have hs₁ : (m.sessions.modify (fun _ => revealed session currentQ) code).get code =
      some (revealed session currentQ) := by
    simp only [GoMap.get_modify_self, hs, Option.map_some']
  have hmore : (revealed session currentQ).CurrentQuestion + 1 <
      ((revealed session currentQ).Quiz.Questions.length : Int) :=
    (index_eq_some_lt _ _ _ hq').2
  have hn := NextQuestion_advanced _ code now (revealed session currentQ) hs₁ rfl hmore
  have hs₂ : ((m.sessions.modify (fun _ => revealed session currentQ) code).modify
      (fun _ => advanced (revealed session currentQ) now) code).get code =
      some (advanced (revealed session currentQ) now) := by
    simp only [GoMap.get_modify_self, hs₁, Option.map_some']
  have e₂ : NextQuestion (RevealAnswer m code).1 code now =
      ({ sessions := (m.sessions.modify (fun _ => revealed session currentQ) code).modify
          (fun _ => advanced (revealed session currentQ) now) code }, .ok true) := by
    rw [hr]; exact hn
  refine ⟨by rw [hr], by rw [e₂], ⟨advanced (revealed session currentQ) now,
    by rw [e₂]; exact hs₂, rfl, rfl, ?_⟩, ?_⟩
  · intro e he
    simp only [advanced, GoMap.forEach, List.mem_map] at he
    obtain ⟨e₀, _, rfl⟩ := he
    exact ⟨rfl, rfl⟩
  · intro subs
    rw [e₂]
    have hfresh : FreshRound session.Quiz (session.CurrentQuestion + 1)
        (advanced (revealed session currentQ) now) := by
      refine ⟨rfl, rfl, rfl, ?_⟩
      intro e he _
      simp only [advanced, GoMap.forEach, List.mem_map] at he
      obtain ⟨e₀, _, rfl⟩ := he
      rfl
    obtain ⟨s₃, hs₃, h1, h2, h3, h4⟩ :=
      freshRound_submitAll session.Quiz (session.CurrentQuestion + 1) code subs _
        ⟨_, hs₂, hfresh⟩
    have hq₃ : index s₃.Quiz.Questions s₃.CurrentQuestion = some nextQ := by
      rw [h2, h3]; exact hq'
    refine ⟨s₃, AnswerReveal.mk nextQ.Answer
      (revealLoop s₃.Quiz.StreakBonus nextQ s₃.Participants).2, hs₃, ?_, rfl, ?_⟩
    · rw [RevealAnswer_ok _ code s₃ nextQ hs₃ h1 hq₃]
    · apply revealLoop_forall₂_mem
      intro id p hmem hspec
      rw [scoreParticipant_snd]
      refine ⟨rfl, by simp, ?_⟩
      intro hna
      have hempty : p.CurrentAnswer = "" := h4 (id, p) hmem hna
      refine ⟨hempty, fun hne => ?_⟩
      have hneq : ¬ p.CurrentAnswer = nextQ.Answer := by
        rw [hempty]; exact fun h => hne h.symm
      simp [scored, hneq]

/-- Witness of C28: Carol has answered the first question of the example quiz with
"A"; the second question has the answer "B". -/
theorem next_round_is_judged_afresh_witness :
    (run exOpsAnswered).sessions.get "AB12CD34" = some exAnswered ∧
    exAnswered.State = .StateQuestion ∧
    index exAnswered.Quiz.Questions exAnswered.CurrentQuestion = some exFirstQuestion ∧
    index exAnswered.Quiz.Questions (exAnswered.CurrentQuestion + 1) = some exSecondQuestion ∧
    (RevealAnswer (NextQuestion (RevealAnswer (run exOpsAnswered) "AB12CD34").1
        "AB12CD34" 160).1 "AB12CD34").2 =
      .ok { CorrectAnswer := "B",
            Participants :=
              [{ Name := "Carol", Answer := "", IsCorrect := false, Score := 1, Streak := 0,
                 StreakBonus := 0, QuickestAnswerFlag := false }] } ∧
    (NextQuestion (RevealAnswer (run exOpsAnswered) "AB12CD34").1 "AB12CD34" 160).2 =
      .ok true ∧
    ∃ session₂,
      (NextQuestion (RevealAnswer (run exOpsAnswered) "AB12CD34").1 "AB12CD34"
        160).1.sessions.get "AB12CD34" = some session₂ ∧
      session₂.State = .StateQuestion ∧
      session₂.CurrentQuestion = exAnswered.CurrentQuestion + 1 ∧
      ∀ e ∈ session₂.Participants, e.2.HasAnswered = false ∧ e.2.CurrentAnswer = "" :=
  ⟨by decide, by decide, by decide, by decide, by decide,
    (next_round_is_judged_afresh (run exOpsAnswered) "AB12CD34" 160 exAnswered
      exFirstQuestion exSecondQuestion (by decide) (by decide) (by decide) (by decide)).2.1,
    (next_round_is_judged_afresh (run exOpsAnswered) "AB12CD34" 160 exAnswered
      exFirstQuestion exSecondQuestion (by decide) (by decide) (by decide) (by decide)).2.2.1⟩

/-! ## Whole games -/

/-- C29: end to end on the quiz with the single question of answer "A", whatever its
bonus flags.  After the host, Alice and Bob join, the quiz starts, Alice submits "A"
and Bob submits "B".  `RevealAnswer` reports Alice correct with score 1 and Bob
incorrect with score 0; the following `NextQuestion` returns `false` and the session
is Finished. -/
theorem end_to_end_single_question :
    ∀ streakBonus quickestAnswerBonus : Bool,
      (RevealAnswer (run (exEndToEndOps streakBonus quickestAnswerBonus)) "AB12CD34").2 =
        .ok { CorrectAnswer := "A",
              Participants :=
                [{ Name := "Alice", Answer := "A", IsCorrect := true, Score := 1, Streak := 1,
                   StreakBonus := 0, QuickestAnswerFlag := false },
                 { Name := "Bob", Answer := "B", IsCorrect := false, Score := 0, Streak := 0,
                   StreakBonus := 0, QuickestAnswerFlag := false }] } ∧
      (NextQuestion
        (RevealAnswer (run (exEndToEndOps streakBonus quickestAnswerBonus)) "AB12CD34").1
        "AB12CD34" 170).2 = .ok false ∧
      ((NextQuestion
        (RevealAnswer (run (exEndToEndOps streakBonus quickestAnswerBonus)) "AB12CD34").1
        "AB12CD34" 170).1.sessions.get "AB12CD34").map (fun s => s.State) =
        some .StateFinished := by
  decide

/-- C30, the code at the failing input, the calls of `TestRevealAnswer` and of
`TestGetLeaderboard`.  Alice is added first: she is stored as a spectator, her
correct answer "A" leaves her score at 0 and the reveal lists Bob alone; of Alice,
Bob and Charlie the leaderboard lists two. -/
theorem first_added_is_not_scored :
    (RevealAnswer exTestRevealStore "AB12CD34").2 =
      .ok { CorrectAnswer := "A",
            Participants :=
              [{ Name := "Bob", Answer := "B", IsCorrect := false, Score := 0, Streak := 0,
                 StreakBonus := 0, QuickestAnswerFlag := false }] } ∧
    (((RevealAnswer exTestRevealStore "AB12CD34").1.sessions.get "AB12CD34").bind
      (fun s => s.Participants.get "p1")).map
        (fun p => (p.CurrentAnswer, p.IsSpectator, p.Score)) = some ("A", true, 0) ∧
    GetLeaderboard exTestBoardStore "AB12CD34" = .ok [boardEntry "Bob" 0, boardEntry "Charlie" 0] := by
  decide

/-! ## Isolation of sessions and the score invariant -/

namespace GoMap

theorem mem_set {α : Type} (m : GoMap α) (k : String) (v : α) (e : String × α)
    (h : e ∈ set m k v) : e ∈ m ∨ e = (k, v) := by
  induction m with
  | nil =>
    simp only [set, List.mem_singleton] at h
    exact Or.inr h
  | cons e₀ rest ih =>
    obtain ⟨k', v'⟩ := e₀
    by_cases hk : k' = k
    · subst hk
      simp only [set, if_true, List.mem_cons] at h
      rcases h with rfl | h
      · exact Or.inr rfl
      · exact Or.inl (List.mem_cons_of_mem _ h)
    · simp only [set, hk, if_false, List.mem_cons] at h
      rcases h with rfl | h
      · exact Or.inl (List.mem_cons_self _ _)
      · rcases ih h with h' | h'
        · exact Or.inl (List.mem_cons_of_mem _ h')
        · exact Or.inr h'

end GoMap

theorem scored_sound (b : Bool) (q : Question) (p : Participant) (hp : p.Sound)
    (hns : p.IsSpectator = false) : (scored b q p).Sound := by
  obtain ⟨h0, h1, _⟩ := hp
  have hb := calculateStreakBonus_nonneg (p.CurrentStreak + 1)
  refine ⟨?_, ?_, ?_⟩
  · unfold scored
    by_cases h : p.CurrentAnswer = q.Answer
    · simp only [h, if_true]; omega
    · simp [h]
  · unfold scored
    by_cases h : p.CurrentAnswer = q.Answer
    · cases b
      · simp only [h, if_true]
        simp only [Bool.false_eq_true, if_false]
        omega
      · simp only [h, if_true]
        omega
    · simp only [h, if_false]
      omega
  · intro hs
    rw [scored_isSpectator, hns] at hs
    cases hs

theorem streakWithinScore_run (ops : List Op) (code : String) (session : QuizSession)
    (hs : (run ops).sessions.get code = some session) : StreakWithinScore session := by
  refine run_invariant StreakWithinScore ?_ ?_ ops code session hs
  · intro code quiz now e he
    simp [created] at he
  · intro op c s s' hp ht
    cases ht with
    | join c id name now s hstate =>
      intro e he
      rcases GoMap.mem_set _ _ _ _ he with h | rfl
      · exact hp e h
      · exact ⟨le_refl _, le_refl _, fun _ => ⟨rfl, rfl⟩⟩
    | start c now s hstate hlen =>
      intro e he
      simp only [started, GoMap.forEach, List.mem_map] at he
      obtain ⟨e₀, he₀, rfl⟩ := he
      exact hp e₀ he₀
    | submit c id answer now s p hstate hp' ha =>
      intro e he
      rcases GoMap.mem_modify _ _ _ _ he with h | ⟨v, hv, rfl⟩
      · exact hp e h
      · exact hp (id, v) hv
    | reveal c s q hstate hq =>
      intro e he
      simp only [revealed, revealLoop_fst, List.mem_map] at he
      obtain ⟨e₀, he₀, rfl⟩ := he
      by_cases hsp : e₀.2.IsSpectator = true
      · simp only [hsp, if_true]
        exact hp e₀ he₀
      · simp only [hsp]
        exact scored_sound _ _ _ (hp e₀ he₀) (by simpa using hsp)
    | finish c now s hstate hlast => exact hp
    | advance c now s hstate hmore =>
      intro e he
      simp only [advanced, GoMap.forEach, List.mem_map] at he
      obtain ⟨e₀, he₀, rfl⟩ := he
      exact hp e₀ he₀

/-- C35: in every store reached from a new manager by any sequence of calls, every
participant of every session has a streak that is at least 0 and at most the score,
and every participant stored as a spectator has score 0 and streak 0. -/
theorem streak_within_score (ops : List Op) (code id : String) (session : QuizSession)
    (p : Participant)
    (hs : (run ops).sessions.get code = some session)
    (hp : (id, p) ∈ session.Participants) :
    0 ≤ p.CurrentStreak ∧ p.CurrentStreak ≤ p.Score ∧
    (p.IsSpectator = true → p.Score = 0 ∧ p.CurrentStreak = 0) :=
  streakWithinScore_run ops code session hs (id, p) hp

/-- Witness of C35: Carol after the short game `exOps`, with one point and a streak
of one. -/
theorem streak_within_score_witness :
    (run exOps).sessions.get "AB12CD34" = some exPlayed ∧
    ("p4", { exCarol with Score := 1, CurrentStreak := 1, AnsweredAt := 150 }) ∈ exPlayed.Participants ∧
    (0 : Int) ≤ 1 ∧ (1 : Int) ≤ 1 ∧
    (exCarol.IsSpectator = true → (1 : Int) = 0 ∧ (1 : Int) = 0) :=
  ⟨by decide, by decide,
    streak_within_score exOps "AB12CD34" "p4" exPlayed
      { exCarol with Score := 1, CurrentStreak := 1, AnsweredAt := 150 } (by decide) (by decide)⟩


/-- A call of one of the five writing operations on the code `c1` leaves the store
as it is or rewrites the binding of `c1`. -/
theorem sessions_shape_of_code (m : Manager) (c1 : String) :
    (∀ id name now, (AddParticipant m c1 id name now).1.sessions = m.sessions ∨
      ∃ f, (AddParticipant m c1 id name now).1.sessions = m.sessions.modify f c1) ∧
    (∀ now, (StartQuiz m c1 now).1.sessions = m.sessions ∨
      ∃ f, (StartQuiz m c1 now).1.sessions = m.sessions.modify f c1) ∧
    (∀ id answer now, (SubmitAnswer m c1 id answer now).1.sessions = m.sessions ∨
      ∃ f, (SubmitAnswer m c1 id answer now).1.sessions = m.sessions.modify f c1) ∧
    ((RevealAnswer m c1).1.sessions = m.sessions ∨
      ∃ f, (RevealAnswer m c1).1.sessions = m.sessions.modify f c1) ∧
    (∀ now, (NextQuestion m c1 now).1.sessions = m.sessions ∨
      ∃ f, (NextQuestion m c1 now).1.sessions = m.sessions.modify f c1) := by
  refine ⟨?_, ?_, ?_, ?_, ?_⟩
  · intro id name now
    simp only [AddParticipant]
    split
    · exact Or.inl rfl
    · split
      · exact Or.inl rfl
      · exact Or.inr ⟨_, rfl⟩
  · intro now
    simp only [StartQuiz]
    split
    · exact Or.inl rfl
    · split
      · exact Or.inl rfl
      · split
        · exact Or.inl rfl
        · exact Or.inr ⟨_, rfl⟩
  · intro id answer now
    simp only [SubmitAnswer]
    split
    · exact Or.inl rfl
    · split
      · exact Or.inl rfl
      · split
        · exact Or.inl rfl
        · split
          · exact Or.inl rfl
          · exact Or.inr ⟨_, rfl⟩
  · simp only [RevealAnswer]
    split
    · exact Or.inl rfl
    · split
      · exact Or.inl rfl
      · split
        · exact Or.inl rfl
        · exact Or.inr ⟨_, rfl⟩
  · intro now
    simp only [NextQuestion]
    split
    · exact Or.inl rfl
    · split
      · exact Or.inl rfl
      · split
        · exact Or.inr ⟨_, rfl⟩
        · exact Or.inr ⟨_, rfl⟩

/-- C34: sessions are isolated.  For every store and two distinct codes `c1` and
`c2`, a call of `AddParticipant`, `StartQuiz`, `SubmitAnswer`, `RevealAnswer` or
`NextQuestion` on `c1`, with any arguments and whether it succeeds or fails, leaves
under `c2` exactly what the store held there before. -/
theorem session_isolation (m : Manager) (c1 c2 : String) (hne : c1 ≠ c2) :
    (∀ id name now,
      (AddParticipant m c1 id name now).1.sessions.get c2 = m.sessions.get c2) ∧
    (∀ now, (StartQuiz m c1 now).1.sessions.get c2 = m.sessions.get c2) ∧
    (∀ id answer now,
      (SubmitAnswer m c1 id answer now).1.sessions.get c2 = m.sessions.get c2) ∧
    (RevealAnswer m c1).1.sessions.get c2 = m.sessions.get c2 ∧
    (∀ now, (NextQuestion m c1 now).1.sessions.get c2 = m.sessions.get c2) := by
  have key : ∀ sessions' : GoMap QuizSession,
      (sessions' = m.sessions ∨ ∃ f, sessions' = m.sessions.modify f c1) →
      sessions'.get c2 = m.sessions.get c2 := by
    rintro _ (rfl | ⟨f, rfl⟩)
    · rfl
    · exact GoMap.get_modify_of_ne f m.sessions c1 c2 (Ne.symm hne)
  obtain ⟨h₁, h₂, h₃, h₄, h₅⟩ := sessions_shape_of_code m c1
  exact ⟨fun id name now => key _ (h₁ id name now), fun now => key _ (h₂ now),
    fun id answer now => key _ (h₃ id answer now), key _ h₄, fun now => key _ (h₅ now)⟩

/-- Witness of C34: the store `exTwoStore` holds an open question under "AB12CD34"
and a waiting session under "0F9E8D7C". -/
theorem session_isolation_witness :
    "AB12CD34" ≠ "0F9E8D7C" ∧
    exTwoStore.sessions.get "AB12CD34" = some exRound ∧
    (exTwoStore.sessions.get "0F9E8D7C").isSome = true ∧
    (RevealAnswer exTwoStore "AB12CD34").1 ≠ exTwoStore ∧
    ((∀ id name now,
      (AddParticipant exTwoStore "AB12CD34" id name now).1.sessions.get "0F9E8D7C" =
        exTwoStore.sessions.get "0F9E8D7C") ∧
    (∀ now, (StartQuiz exTwoStore "AB12CD34" now).1.sessions.get "0F9E8D7C" =
      exTwoStore.sessions.get "0F9E8D7C") ∧
    (∀ id answer now,
      (SubmitAnswer exTwoStore "AB12CD34" id answer now).1.sessions.get "0F9E8D7C" =
        exTwoStore.sessions.get "0F9E8D7C") ∧
    (RevealAnswer exTwoStore "AB12CD34").1.sessions.get "0F9E8D7C" =
      exTwoStore.sessions.get "0F9E8D7C" ∧
    (∀ now, (NextQuestion exTwoStore "AB12CD34" now).1.sessions.get "0F9E8D7C" =
      exTwoStore.sessions.get "0F9E8D7C")) :=
  ⟨by decide, by decide, by decide, by decide,
    session_isolation exTwoStore "AB12CD34" "0F9E8D7C" (by decide)⟩

/-! ## The quiz parser: validation -/

theorem answerFound_iff (answer : String) (options : List String) :
    answerFound answer options = true ↔ answer ∈ options := by
  induction options with
  | nil => simp [answerFound]
  | cons opt rest ih =>
    by_cases h : opt = answer
    · simp [answerFound, h]
    · have h' : ¬answer = opt := fun e => h e.symm
      simp [answerFound, h, h', ih]

theorem validateQuestions_none (qs : List Question) : ∀ i, validateQuestions qs i = none →
    ∀ q ∈ qs, q.Text ≠ "" ∧ q.Options ≠ [] ∧ q.Answer ≠ "" ∧ q.Answer ∈ q.Options := by
  induction qs with
  | nil => intro i _ q hq; cases hq
  | cons q₀ rest ih =>
    intro i h q hq
    unfold validateQuestions at h
    split_ifs at h with h₁ h₂ h₃ h₄
    rcases List.mem_cons.mp hq with rfl | hq
    · refine ⟨h₁, ?_, h₃, ?_⟩
      · intro he
        rw [he] at h₂
        exact h₂ rfl
      · exact (answerFound_iff _ _).mp (by simpa using h₄)
    · exact ih (i + 1) h q hq

/-- The two ways `ParseQuizMarkdown` ends: with an error, or with the quiz it has
read, which then passes every check of the validation. -/
theorem ParseQuizMarkdown_cases (markdown : String) :
    (∃ msg, ParseQuizMarkdown markdown = .error msg) ∨
    (ParseQuizMarkdown markdown = .ok (parsedQuiz markdown) ∧
      (scanLines markdown).2 = false ∧
      (parsedQuiz markdown).Title ≠ "" ∧ (parsedQuiz markdown).Questions ≠ [] ∧
      ∀ q ∈ (parsedQuiz markdown).Questions,
        q.Text ≠ "" ∧ q.Options ≠ [] ∧ q.Answer ≠ "" ∧ q.Answer ∈ q.Options) := by
  unfold ParseQuizMarkdown
  by_cases h₁ : (scanLines markdown).2 = true
  · exact Or.inl ⟨_, by simp only [h₁, if_true]; rfl⟩
  · by_cases h₂ : (parsedQuiz markdown).Title = ""
    · exact Or.inl ⟨_, by simp only [h₁, h₂, if_true]; rfl⟩
    · by_cases h₃ : (parsedQuiz markdown).Questions.length = 0
      · exact Or.inl ⟨_, by simp only [h₁, h₂, h₃, if_true]; rfl⟩
      · cases h₄ : validateQuestions (parsedQuiz markdown).Questions 0 with
        | some msg => exact Or.inl ⟨msg, by simp only [h₁, h₂, h₃, h₄]; rfl⟩
        | none =>
          refine Or.inr ⟨by simp only [h₁, h₂, h₃, h₄]; rfl, by simpa using h₁, h₂, ?_,
            validateQuestions_none _ 0 h₄⟩
          intro he
          rw [he] at h₃
          exact h₃ rfl

theorem saveQuestion_title (quiz : Quiz) (cur : Option Question) :
    (saveQuestion quiz cur).Title = quiz.Title := by
  unfold saveQuestion
  split
  · split <;> rfl
  · rfl

theorem parseSetting_title (quiz : Quiz) (trimmed : String) :
    (parseSetting quiz trimmed).Title = quiz.Title := by
  unfold parseSetting
  simp only
  split_ifs
  · split <;> rfl
  · split <;> rfl
  · rfl
  · rfl

theorem parseSetting_questions (quiz : Quiz) (trimmed : String) :
    (parseSetting quiz trimmed).Questions = quiz.Questions := by
  unfold parseSetting
  simp only
  split_ifs
  · split <;> rfl
  · split <;> rfl
  · rfl
  · rfl

theorem parseQuestionLine_title (st : ParseState) (trimmed : String) :
    (parseQuestionLine st trimmed).quiz.Title = st.quiz.Title := by
  unfold parseQuestionLine
  split_ifs
  · exact saveQuestion_title _ _
  · rfl
  · rfl
  · rfl
  · rfl

theorem parseLine_title (st : ParseState) (line : String)
    (h : HasPrefix (TrimSpace line) "# " = true → TrimSpace line = "# Settings") :
    (parseLine st line).quiz.Title = st.quiz.Title := by
  unfold parseLine
  simp only
  split_ifs with h₁ h₂ h₃ h₄ h₅ h₆
  · rfl
  · rfl
  · exact absurd (h h₃.1) h₂
  · exact parseQuestionLine_title { st with inSettings := false } _
  · show (parseSetting st.quiz (TrimSpace line)).Title = st.quiz.Title
    exact parseSetting_title st.quiz _
  · exact parseQuestionLine_title st _
  · exact parseQuestionLine_title st _

theorem foldl_parseLine_title (lines : List String)
    (h : ∀ line ∈ lines, HasPrefix (TrimSpace line) "# " = true → TrimSpace line = "# Settings") :
    ∀ st : ParseState, (lines.foldl parseLine st).quiz.Title = st.quiz.Title := by
  induction lines with
  | nil => intro st; rfl
  | cons line rest ih =>
    intro st
    rw [List.foldl_cons, ih (fun l hl => h l (List.mem_cons_of_mem _ hl)),
      parseLine_title st line (h line (List.mem_cons_self _ _))]

theorem parseQuestionLine_none (st : ParseState) (trimmed : String)
    (h : HasPrefix trimmed "###" = false) (hcur : st.currentQuestion = none) :
    parseQuestionLine st trimmed = st := by
  unfold parseQuestionLine
  simp [h, hcur]

theorem parseLine_no_question (st : ParseState) (line : String)
    (h : HasPrefix (TrimSpace line) "###" = false)
    (hcur : st.currentQuestion = none) (hqs : st.quiz.Questions = []) :
    (parseLine st line).currentQuestion = none ∧ (parseLine st line).quiz.Questions = [] := by
  unfold parseLine
  simp only
  split_ifs with h₁ h₂ h₃ h₄ h₅ h₆
  · exact ⟨hcur, hqs⟩
  · exact ⟨hcur, hqs⟩
  · exact ⟨hcur, hqs⟩
  · rw [parseQuestionLine_none { st with inSettings := false } _ h hcur]
    exact ⟨hcur, hqs⟩
  · refine ⟨hcur, ?_⟩
    show (parseSetting st.quiz (TrimSpace line)).Questions = []
    rw [parseSetting_questions]
    exact hqs
  · rw [parseQuestionLine_none _ _ h hcur]
    exact ⟨hcur, hqs⟩
  · rw [parseQuestionLine_none _ _ h hcur]
    exact ⟨hcur, hqs⟩

theorem foldl_parseLine_no_question (lines : List String)
    (h : ∀ line ∈ lines, HasPrefix (TrimSpace line) "###" = false) :
    ∀ st : ParseState, st.currentQuestion = none → st.quiz.Questions = [] →
      (lines.foldl parseLine st).currentQuestion = none ∧
      (lines.foldl parseLine st).quiz.Questions = [] := by
  induction lines with
  | nil => intro st h₁ h₂; exact ⟨h₁, h₂⟩
  | cons line rest ih =>
    intro st h₁ h₂
    obtain ⟨h₁', h₂'⟩ := parseLine_no_question st line (h line (List.mem_cons_self _ _)) h₁ h₂
    rw [List.foldl_cons]
    exact ih (fun l hl => h l (List.mem_cons_of_mem _ hl)) _ h₁' h₂'

theorem parsedQuiz_no_title (markdown : String)
    (h : ∀ line ∈ (scanLines markdown).1,
      HasPrefix (TrimSpace line) "# " = true → TrimSpace line = "# Settings") :
    (parsedQuiz markdown).Title = "" := by
  unfold parsedQuiz
  simp only
  rw [saveQuestion_title, foldl_parseLine_title _ h]
  rfl

theorem parsedQuiz_no_question (markdown : String)
    (h : ∀ line ∈ (scanLines markdown).1, HasPrefix (TrimSpace line) "###" = false) :
    (parsedQuiz markdown).Questions = [] := by
  obtain ⟨h₁, h₂⟩ := foldl_parseLine_no_question _ h
    { quiz := newQuiz, currentQuestion := none, inSettings := false } rfl rfl
  unfold parsedQuiz
  simp only
  rw [h₁]
  exact h₂

/-- C31: a quiz that `ParseQuizMarkdown` returns without error is validated.  It is
the quiz read from the markdown, its title is not empty, it has a question, and every
question has a text, an option, an answer, and its answer among its options.  Hence
a markdown is rejected with an error when none of its lines is a title line (a line
that after trimming begins with "# " and is not the settings header), when none of
its lines is a question line (a line that after trimming begins with "###"), and
when a question read from it has an answer that is not among its options. -/
theorem ParseQuizMarkdown_validates :
    (∀ markdown quiz, ParseQuizMarkdown markdown = .ok quiz →
      quiz = parsedQuiz markdown ∧ quiz.Title ≠ "" ∧ quiz.Questions ≠ [] ∧
      ∀ q ∈ quiz.Questions,
        q.Text ≠ "" ∧ q.Options ≠ [] ∧ q.Answer ≠ "" ∧ q.Answer ∈ q.Options) ∧
    (∀ markdown,
      (∀ line ∈ (scanLines markdown).1,
        HasPrefix (TrimSpace line) "# " = true → TrimSpace line = "# Settings") →
      ∃ msg, ParseQuizMarkdown markdown = .error msg) ∧
    (∀ markdown,
      (∀ line ∈ (scanLines markdown).1, HasPrefix (TrimSpace line) "###" = false) →
      ∃ msg, ParseQuizMarkdown markdown = .error msg) ∧
    (∀ markdown,
      (∃ q ∈ (parsedQuiz markdown).Questions, q.Answer ∉ q.Options) →
      ∃ msg, ParseQuizMarkdown markdown = .error msg) := by
  refine ⟨?_, ?_, ?_, ?_⟩
  · intro markdown quiz h
    rcases ParseQuizMarkdown_cases markdown with ⟨msg, he⟩ | ⟨hok, _, ht, hq, hv⟩
    · rw [he] at h
      cases h
    · rw [hok] at h
      cases h
      exact ⟨rfl, ht, hq, hv⟩
  · intro markdown h
    rcases ParseQuizMarkdown_cases markdown with he | ⟨_, _, ht, _, _⟩
    · exact he
    · exact absurd (parsedQuiz_no_title markdown h) ht
  · intro markdown h
    rcases ParseQuizMarkdown_cases markdown with he | ⟨_, _, _, hq, _⟩
    · exact he
    · exact absurd (parsedQuiz_no_question markdown h) hq
  · rintro markdown ⟨q, hq, hna⟩
    rcases ParseQuizMarkdown_cases markdown with he | ⟨_, _, _, _, hv⟩
    · exact he
    · exact absurd (hv q hq).2.2.2 hna

/-- Witness of C31: the markdown of `TestParseQuizMarkdown` gives the quiz that the
test expects, and the markdowns of the tests without a title, without a question and
with the answer "Option C" give the errors of the three checks. -/
theorem ParseQuizMarkdown_validates_witness :
    ParseQuizMarkdown exMarkdown = .ok exParsed ∧
    (exParsed = parsedQuiz exMarkdown ∧ exParsed.Title ≠ "" ∧ exParsed.Questions ≠ [] ∧
      ∀ q ∈ exParsed.Questions,
        q.Text ≠ "" ∧ q.Options ≠ [] ∧ q.Answer ≠ "" ∧ q.Answer ∈ q.Options) ∧
    ParseQuizMarkdown exNoTitle = .error "quiz must have a title" ∧
    (∃ msg, ParseQuizMarkdown exNoTitle = .error msg) ∧
    ParseQuizMarkdown exNoQuestions = .error "quiz must have at least one question" ∧
    (∃ msg, ParseQuizMarkdown exNoQuestions = .error msg) ∧
    ParseQuizMarkdown exInvalidAnswer =
      .error "question 1: answer \x27Option C\x27 not found in options" ∧
    (∃ msg, ParseQuizMarkdown exInvalidAnswer = .error msg) :=
  ⟨by decide, ParseQuizMarkdown_validates.1 exMarkdown exParsed (by decide),
    by decide, ParseQuizMarkdown_validates.2.1 exNoTitle (by decide),
    by decide, ParseQuizMarkdown_validates.2.2.1 exNoQuestions (by decide),
    by decide, ParseQuizMarkdown_validates.2.2.2 exInvalidAnswer (by decide)⟩

/-! ## The quiz parser: durations -/

theorem char_in_range (c : Char) (lo hi : Nat) (h₁ : lo ≤ c.toNat) (h₂ : c.toNat ≤ hi) :
    ∃ n, lo ≤ n ∧ n ≤ hi ∧ c = Char.ofNat n :=
  ⟨c.toNat, h₁, h₂, (Char.ofNat_toNat c).symm⟩

theorem isDigit_bounds (c : Char) : c.isDigit = true ↔ 48 ≤ c.toNat ∧ c.toNat ≤ 57 := by
  simp only [Char.isDigit, Bool.and_eq_true, decide_eq_true_eq, Char.toNat, ge_iff_le]
  rw [UInt32.le_def, UInt32.le_def]
  rfl

theorem isDigit_mem (c : Char) (h : c.isDigit = true) : c ∈ "0123456789".toList := by
  obtain ⟨h₁, h₂⟩ := (isDigit_bounds c).mp h
  obtain ⟨n, hn₁, hn₂, rfl⟩ := char_in_range c 48 57 h₁ h₂
  interval_cases n <;> decide


theorem digitChar_spec : ∀ m, m < 10 →
    (Nat.digitChar m).isDigit = true ∧ (Nat.digitChar m).toNat - 48 = m := by
  decide

theorem digitsValue_cons (c : Char) (ds : List Char) (acc : Nat) :
    (c :: ds).foldl (fun acc c => acc * 10 + (c.toNat - 48)) acc =
      ds.foldl (fun acc c => acc * 10 + (c.toNat - 48)) (acc * 10 + (c.toNat - 48)) := rfl

theorem toDigitsCore_spec (fuel : Nat) : ∀ (n : Nat) (ds : List Char), n < fuel →
    (∀ c ∈ ds, c.isDigit = true) →
    (∀ c ∈ Nat.toDigitsCore 10 fuel n ds, c.isDigit = true) ∧
    Nat.toDigitsCore 10 fuel n ds ≠ [] ∧
    digitsValue (Nat.toDigitsCore 10 fuel n ds) =
      ds.foldl (fun acc c => acc * 10 + (c.toNat - 48)) n := by
  induction fuel with
  | zero => intro n ds h; omega
  | succ fuel ih =>
    intro n ds h hds
    obtain ⟨hd₁, hd₂⟩ := digitChar_spec (n % 10) (Nat.mod_lt _ (by decide))
    have hds' : ∀ c ∈ Nat.digitChar (n % 10) :: ds, c.isDigit = true := by
      intro c hc
      rcases List.mem_cons.mp hc with rfl | hc
      · exact hd₁
      · exact hds c hc
    unfold Nat.toDigitsCore
    by_cases h0 : n / 10 = 0
    · simp only [h0, if_true]
      refine ⟨hds', List.cons_ne_nil _ _, ?_⟩
      have hn : n % 10 = n := Nat.mod_eq_of_lt (by omega)
      rw [hn] at hd₂ ⊢
      simp only [digitsValue, List.foldl_cons, hd₂, Nat.zero_mul, Nat.zero_add]
    · simp only [h0, if_false]
      obtain ⟨h₁, h₂, h₃⟩ := ih (n / 10) (Nat.digitChar (n % 10) :: ds) (by omega) hds'
      refine ⟨h₁, h₂, ?_⟩
      rw [h₃]
      simp only [List.foldl_cons, hd₂]
      congr 1
      omega

theorem toString_digits (n : Nat) :
    (toString n).toList ≠ [] ∧ (∀ c ∈ (toString n).toList, c.isDigit = true) ∧
    digitsValue (toString n).toList = n := by
  obtain ⟨h₁, h₂, h₃⟩ := toDigitsCore_spec (n + 1) n [] (by omega) (by simp)
  exact ⟨h₂, h₁, h₃⟩


theorem trim_eq (l : List Char) (h₁ : l.head?.map IsSpace = some false)
    (h₂ : l.getLast?.map IsSpace = some false) :
    (l.dropWhile IsSpace).rdropWhile IsSpace = l := by
  have h : l.dropWhile IsSpace = l := by
    cases l with
    | nil => rfl
    | cons c cs =>
      have hc : IsSpace c = false := by simpa using h₁
      simp [List.dropWhile, hc]
  rw [h, List.rdropWhile_eq_self_iff]
  intro hl
  rw [List.getLast?_eq_getLast _ hl] at h₂
  simpa using h₂

theorem map_fixed {α : Type} (f : α → α) (l : List α) (h : ∀ c ∈ l, f c = c) :
    l.map f = l := by
  induction l with
  | nil => rfl
  | cons c cs ih =>
    rw [List.map_cons, h c (List.mem_cons_self _ _),
      ih (fun x hx => h x (List.mem_cons_of_mem _ hx))]

theorem isDigit_fixed (c : Char) (h : c.isDigit = true) :
    IsSpace c = false ∧ toLowerRune c = c ∧ isRegexpSpace c = false ∧ c ≠ '-' ∧ c ≠ '+' := by
  have key : ∀ c ∈ "0123456789".toList,
      IsSpace c = false ∧ toLowerRune c = c ∧ isRegexpSpace c = false ∧ c ≠ '-' ∧ c ≠ '+' := by
    decide
  exact key c (isDigit_mem c h)

theorem matchDuration_of_not_digit (l : List Char)
    (h : ∀ c, l.head? = some c → c.isDigit = false) : matchDuration l = none := by
  cases l with
  | nil => rfl
  | cons c cs => simp [matchDuration, h c rfl]

theorem matchSpacesUnit_replicate (k : Nat) (u : List Char) (cap : String)
    (hu : ∀ c, u.head? = some c → isRegexpSpace c = false)
    (hcap : matchUnit u = some cap) :
    matchSpacesUnit (List.replicate k ' ' ++ u) = some cap := by
  induction k with
  | zero =>
    cases u with
    | nil => simpa [matchSpacesUnit] using hcap
    | cons c cs => simpa [matchSpacesUnit, hu c rfl] using hcap
  | succ k ih =>
    have : isRegexpSpace ' ' = true := by decide
    simp [List.replicate_succ, matchSpacesUnit, this, ih]

theorem matchDuration_digits (ds : List Char) (rest : List Char) (cap : String)
    (hds : ds ≠ []) (hdig : ∀ c ∈ ds, c.isDigit = true)
    (hrest : ∀ c, rest.head? = some c → c.isDigit = false)
    (hcap : matchSpacesUnit rest = some cap) :
    matchDuration (ds ++ rest) = some (ds, cap) := by
  induction ds with
  | nil => exact absurd rfl hds
  | cons d ds ih =>
    have hd : d.isDigit = true := hdig d (List.mem_cons_self _ _)
    cases ds with
    | nil =>
      simp [matchDuration, hd, matchDuration_of_not_digit rest hrest, hcap]
    | cons d' ds' =>
      have := ih (List.cons_ne_nil _ _) (fun c hc => hdig c (List.mem_cons_of_mem _ hc))
      simp only [List.cons_append] at this ⊢
      rw [matchDuration, if_pos hd, this]


/-- The first group's unit for a unit word of the durations. -/
theorem unit_facts : ∀ u ∈ ["second", "seconds", "sec", "s", "minute", "minutes", "min", "m"],
    u.toList.getLast?.map IsSpace = some false ∧
    u.toList.map toLowerRune = u.toList ∧
    u.toList.head?.map (fun c => c.isDigit || isRegexpSpace c) = some false ∧
    matchUnit u.toList =
      some (if u = "seconds" then "second" else if u = "minutes" then "minute" else u) := by
  decide

theorem Atoi_digits (ds : List Char) (hds : ds ≠ []) (hdig : ∀ c ∈ ds, c.isDigit = true)
    (hval : digitsValue ds < 2 ^ 63) : Atoi (String.mk ds) = .ok (digitsValue ds : Int) := by
  cases ds with
  | nil => exact absurd rfl hds
  | cons d ds =>
    obtain ⟨_, _, _, hm, hp⟩ := isDigit_fixed d (hdig d (List.mem_cons_self _ _))
    have hall : (d :: ds).all Char.isDigit = true := List.all_eq_true.mpr hdig
    have hdigits : afterSign (String.mk (d :: ds)).toList = d :: ds := by
      show afterSign (d :: ds) = d :: ds
      unfold afterSign
      split
      · next h => cases h; exact absurd rfl hm
      · next h => cases h; exact absurd rfl hp
      · rfl
    have hh : (String.mk (d :: ds)).toList.head? ≠ some '-' := by
      show (d :: ds).head? ≠ some '-'
      simp [hm]
    unfold Atoi
    simp only [hdigits, hall]
    have hval' : digitsValue (d :: ds) < 9223372036854775808 := by
      have : (2 : Nat) ^ 63 = 9223372036854775808 := by norm_num
      omega
    simp [hm, hval']


theorem duration_text_fixed (ds : List Char) (k : Nat) (unit : String)
    (hds : ds ≠ []) (hdig : ∀ c ∈ ds, c.isDigit = true)
    (hunit : unit ∈ ["second", "seconds", "sec", "s", "minute", "minutes", "min", "m"]) :
    ToLower (TrimSpace (String.mk (ds ++ List.replicate k ' ' ++ unit.toList))) =
      String.mk (ds ++ List.replicate k ' ' ++ unit.toList) := by
  obtain ⟨hlast, hlow, _, _⟩ := unit_facts unit hunit
  obtain ⟨d, ds', rfl⟩ := List.exists_cons_of_ne_nil hds
  obtain ⟨hsp, _, _, _, _⟩ := isDigit_fixed d (hdig d (List.mem_cons_self _ _))
  obtain ⟨x, hx, hxs⟩ := Option.map_eq_some'.mp hlast
  have htrim : TrimSpace (String.mk (d :: ds' ++ List.replicate k ' ' ++ unit.toList)) =
      String.mk (d :: ds' ++ List.replicate k ' ' ++ unit.toList) := by
    unfold TrimSpace
    congr 1
    refine trim_eq _ ?_ ?_
    · show Option.map IsSpace (some d) = some false
      rw [Option.map_some', hsp]
    · show Option.map IsSpace (d :: ds' ++ List.replicate k ' ' ++ unit.toList).getLast? = _
      rw [List.getLast?_append, hx]
      simpa using hxs
  rw [htrim]
  unfold ToLower
  congr 1
  show List.map toLowerRune (d :: ds' ++ List.replicate k ' ' ++ unit.toList) = _
  rw [List.map_append, List.map_append, hlow, List.map_replicate,
    map_fixed toLowerRune (d :: ds') (fun c hc => (isDigit_fixed c (hdig c hc)).2.1)]
  have h₂ : toLowerRune ' ' = ' ' := by decide
  rw [h₂]

theorem find_duration_text (ds : List Char) (k : Nat) (unit : String)
    (hds : ds ≠ []) (hdig : ∀ c ∈ ds, c.isDigit = true)
    (hunit : unit ∈ ["second", "seconds", "sec", "s", "minute", "minutes", "min", "m"]) :
    FindStringSubmatch (ds ++ List.replicate k ' ' ++ unit.toList) =
      some (ds, if unit = "seconds" then "second" else if unit = "minutes" then "minute"
        else unit) := by
  obtain ⟨_, _, hhead, hcap⟩ := unit_facts unit hunit
  obtain ⟨x, hx, hxs⟩ := Option.map_eq_some'.mp hhead
  have hxs : x.isDigit = false ∧ isRegexpSpace x = false := by simpa using hxs
  have hm : matchDuration (ds ++ (List.replicate k ' ' ++ unit.toList)) =
      some (ds, if unit = "seconds" then "second" else if unit = "minutes" then "minute"
        else unit) := by
    refine matchDuration_digits ds _ _ hds hdig ?_
      (matchSpacesUnit_replicate k unit.toList _ ?_ hcap)
    · intro c hc
      cases k with
      | zero =>
        rw [List.replicate_zero, List.nil_append, hx] at hc
        cases hc
        exact hxs.1
      | succ k =>
        rw [List.replicate_succ, List.cons_append, List.head?_cons] at hc
        cases hc
        decide
    · intro c hc
      rw [hx] at hc
      cases hc
      exact hxs.2
  rw [List.append_assoc]
  obtain ⟨d, ds', rfl⟩ := List.exists_cons_of_ne_nil hds
  rw [List.cons_append] at hm ⊢
  rw [FindStringSubmatch, hm]

theorem parseDuration_digits_unit (ds : List Char) (k : Nat) (unit : String)
    (hds : ds ≠ []) (hdig : ∀ c ∈ ds, c.isDigit = true) (hval : digitsValue ds < 2 ^ 63)
    (hunit : unit ∈ ["second", "seconds", "sec", "s", "minute", "minutes", "min", "m"]) :
    parseDuration (String.mk (ds ++ List.replicate k ' ' ++ unit.toList)) =
      if unit ∈ ["minute", "minutes", "min", "m"] then
        .ok (wrapInt ((digitsValue ds : Int) * 60))
      else .ok (digitsValue ds : Int) := by
  unfold parseDuration
  simp only [duration_text_fixed ds k unit hds hdig hunit]
  show (match FindStringSubmatch (ds ++ List.replicate k ' ' ++ unit.toList) with
    | some (digits, unit) => _
    | none => _) = _
  rw [find_duration_text ds k unit hds hdig hunit]
  simp only [Atoi_digits ds hds hdig hval]
  simp only [List.mem_cons, List.mem_singleton, List.not_mem_nil, or_false] at hunit
  rcases hunit with rfl | rfl | rfl | rfl | rfl | rfl | rfl | rfl <;> simp


theorem matchUnit_of_digit (d : Char) (rest : List Char) (h : d.isDigit = true) :
    matchUnit (d :: rest) = none := by
  have hd := isDigit_mem d h
  simp only [String.toList, List.mem_cons, List.mem_singleton, List.not_mem_nil, or_false] at hd
  rcases hd with rfl | rfl | rfl | rfl | rfl | rfl | rfl | rfl | rfl | rfl <;> rfl

theorem matchSpacesUnit_of_digits (ds : List Char) (hdig : ∀ c ∈ ds, c.isDigit = true) :
    matchSpacesUnit ds = none := by
  cases ds with
  | nil => rfl
  | cons d ds =>
    have hd := hdig d (List.mem_cons_self _ _)
    rw [matchSpacesUnit, if_neg (by simp [(isDigit_fixed d hd).2.2.1])]
    exact matchUnit_of_digit d ds hd

theorem matchDuration_of_digits (ds : List Char) (hdig : ∀ c ∈ ds, c.isDigit = true) :
    matchDuration ds = none := by
  induction ds with
  | nil => rfl
  | cons d ds ih =>
    have hds : ∀ c ∈ ds, c.isDigit = true := fun c hc => hdig c (List.mem_cons_of_mem _ hc)
    rw [matchDuration, if_pos (hdig d (List.mem_cons_self _ _)), ih hds,
      matchSpacesUnit_of_digits ds hds]
    rfl

theorem find_of_digits (ds : List Char) (hdig : ∀ c ∈ ds, c.isDigit = true) :
    FindStringSubmatch ds = none := by
  induction ds with
  | nil => rfl
  | cons d ds ih =>
    rw [FindStringSubmatch, matchDuration_of_digits _ hdig]
    exact ih (fun c hc => hdig c (List.mem_cons_of_mem _ hc))

theorem find_of_no_digit (l : List Char) (h : ∀ c ∈ l, c.isDigit = false) :
    FindStringSubmatch l = none := by
  induction l with
  | nil => rfl
  | cons c cs ih =>
    rw [FindStringSubmatch, matchDuration_of_not_digit (c :: cs)
      (fun x hx => by cases hx; exact h _ (List.mem_cons_self _ _))]
    exact ih (fun x hx => h x (List.mem_cons_of_mem _ hx))

theorem parseDuration_digits (ds : List Char) (hds : ds ≠ [])
    (hdig : ∀ c ∈ ds, c.isDigit = true) (hval : digitsValue ds < 2 ^ 63) :
    parseDuration (String.mk ds) = .ok (digitsValue ds : Int) := by
  have hfix : ToLower (TrimSpace (String.mk ds)) = String.mk ds := by
    obtain ⟨d, ds', rfl⟩ := List.exists_cons_of_ne_nil hds
    have htrim : TrimSpace (String.mk (d :: ds')) = String.mk (d :: ds') := by
      unfold TrimSpace
      congr 1
      refine trim_eq _ ?_ ?_
      · show Option.map IsSpace (some d) = some false
        rw [Option.map_some', (isDigit_fixed d (hdig d (List.mem_cons_self _ _))).1]
      · show Option.map IsSpace (d :: ds').getLast? = some false
        rw [List.getLast?_eq_getLast _ (List.cons_ne_nil _ _), Option.map_some',
          (isDigit_fixed _ (hdig _ (List.getLast_mem _))).1]
    rw [htrim]
    unfold ToLower
    congr 1
    exact map_fixed toLowerRune (d :: ds') (fun c hc => (isDigit_fixed c (hdig c hc)).2.1)
  unfold parseDuration
  simp only [hfix]
  show (match FindStringSubmatch ds with
    | some (digits, unit) => _
    | none => _) = _
  rw [find_of_digits ds hdig]
  simp only [parseNumber, Atoi_digits ds hds hdig hval]

theorem toLowerRune_isDigit (c : Char) (h : c.isDigit = false) :
    (toLowerRune c).isDigit = false := by
  unfold toLowerRune
  split
  · rfl
  · split
    · rfl
    · unfold Char.toLower
      by_cases hc : c.toNat ≥ 65 ∧ c.toNat ≤ 90
      · obtain ⟨n, hn₁, hn₂, rfl⟩ := char_in_range c 65 90 hc.1 hc.2
        interval_cases n <;> rfl
      · simp only [hc, if_false]
        exact h

theorem parseDuration_no_digit (s : String) (h : ∀ c ∈ s.toList, c.isDigit = false) :
    parseDuration s = .error ("invalid duration format: " ++ ToLower (TrimSpace s)) := by
  have hno : ∀ c ∈ (ToLower (TrimSpace s)).toList, c.isDigit = false := by
    intro c hc
    obtain ⟨c', hc', rfl⟩ := List.mem_map.mp hc
    exact toLowerRune_isDigit c'
      (h c' ((List.dropWhile_sublist _).subset ((List.rdropWhile_prefix _ _).subset hc')))
  unfold parseDuration
  simp only [find_of_no_digit _ hno]
  have hat : ∃ msg, Atoi (ToLower (TrimSpace s)) = .error msg := by
    generalize ToLower (TrimSpace s) = t at hno
    have hsub : ∀ c ∈ afterSign t.toList, c.isDigit = false := by
      intro c hc
      unfold afterSign at hc
      split at hc
      · next heq => exact hno c (by rw [heq]; exact List.mem_cons_of_mem _ hc)
      · next heq => exact hno c (by rw [heq]; exact List.mem_cons_of_mem _ hc)
      · exact hno c hc
    simp only [Atoi]
    by_cases he : afterSign t.toList = []
    · rw [if_pos (Or.inl he)]
      exact ⟨_, rfl⟩
    · obtain ⟨x, xs, hx⟩ := List.exists_cons_of_ne_nil he
      have : (afterSign t.toList).all Char.isDigit = false := by
        rw [List.all_eq_false]
        exact ⟨x, by rw [hx]; exact List.mem_cons_self _ _,
          by simp [hsub x (by rw [hx]; exact List.mem_cons_self _ _)]⟩
      rw [if_pos (Or.inr this)]
      exact ⟨_, rfl⟩
  obtain ⟨msg, hmsg⟩ := hat
  simp only [parseNumber, hmsg]


theorem wrapInt_of_range (x : Int) (h₀ : -(2 ^ 63) ≤ x) (h₁ : x < 2 ^ 63) : wrapInt x = x := by
  unfold wrapInt
  norm_num at h₀ h₁ ⊢
  omega

theorem duration_text_eq (n k : Nat) (unit : String) :
    toString n ++ String.mk (List.replicate k ' ') ++ unit =
      String.mk ((toString n).toList ++ List.replicate k ' ' ++ unit.toList) := rfl

/-- C32, the counterexample: the largest Go `int` is within the range of `int`, and
with the unit `m` the product by sixty wraps around to -60. -/
theorem parseDuration_minutes_wrap :
    (9223372036854775807 : Nat) < 2 ^ 63 ∧
    parseDuration (toString 9223372036854775807 ++ "m") = .ok (-60) ∧
    parseDuration (toString 9223372036854775807 ++ "m") ≠
      .ok (60 * ((9223372036854775807 : Nat) : Int)) := by
  decide

/-- C32 as amended: `parseDuration` converts a duration text to seconds.  For every
natural number `n` that a Go `int` holds, written in decimal and followed by any
number of spaces and one of the units second, seconds, sec, s, the result is `n`;
followed by any number of spaces and one of the units minute, minutes, min, m it is
`60 * n`, provided that a Go `int` holds `60 * n` as well; the number alone gives
`n`; and a text without a decimal digit gives an error. -/
theorem parseDuration_converts (n k : Nat) (hn : n < 2 ^ 63) :
    (∀ unit ∈ ["second", "seconds", "sec", "s"],
      parseDuration (toString n ++ String.mk (List.replicate k ' ') ++ unit) = .ok (n : Int)) ∧
    (60 * n < 2 ^ 63 → ∀ unit ∈ ["minute", "minutes", "min", "m"],
      parseDuration (toString n ++ String.mk (List.replicate k ' ') ++ unit) =
        .ok (60 * (n : Int))) ∧
    parseDuration (toString n) = .ok (n : Int) ∧
    ∀ s : String, (∀ c ∈ s.toList, c.isDigit = false) → ∃ msg, parseDuration s = .error msg := by
  obtain ⟨hne, hdig, hval⟩ := toString_digits n
  have hv : digitsValue (toString n).toList < 2 ^ 63 := by rw [hval]; exact hn
  refine ⟨?_, ?_, ?_, ?_⟩
  · intro unit hunit
    have hmem : unit ∈ ["second", "seconds", "sec", "s", "minute", "minutes", "min", "m"] := by
      simp only [List.mem_cons, List.mem_singleton, List.not_mem_nil, or_false] at hunit ⊢
      tauto
    rw [duration_text_eq, parseDuration_digits_unit _ k unit hne hdig hv hmem, hval]
    simp only [List.mem_cons, List.mem_singleton, List.not_mem_nil, or_false] at hunit
    rcases hunit with rfl | rfl | rfl | rfl <;> simp
  · intro h60 unit hunit
    have hmem : unit ∈ ["second", "seconds", "sec", "s", "minute", "minutes", "min", "m"] := by
      simp only [List.mem_cons, List.mem_singleton, List.not_mem_nil, or_false] at hunit ⊢
      tauto
    rw [duration_text_eq, parseDuration_digits_unit _ k unit hne hdig hv hmem, hval,
      if_pos hunit, wrapInt_of_range, mul_comm]
    · have : (0 : Int) ≤ (n : Int) * 60 := by positivity
      have h2 : -((2 : Int) ^ 63) ≤ 0 := by norm_num
      omega
    · have : ((60 * n : Nat) : Int) < ((2 ^ 63 : Nat) : Int) := Int.ofNat_lt.mpr h60
      push_cast at this
      omega
  · have := parseDuration_digits _ hne hdig hv
    rw [hval] at this
    exact this
  · intro s hs
    exact ⟨_, parseDuration_no_digit s hs⟩

/-- Witness of C32: the seven rows of the table of `TestParseDuration`. -/
theorem parseDuration_converts_witness :
    (10 : Nat) < 2 ^ 63 ∧
    parseDuration "10 seconds" = .ok 10 ∧
    parseDuration "1 minute" = .ok 60 ∧
    parseDuration "2 minutes" = .ok 120 ∧
    parseDuration "30s" = .ok 30 ∧
    parseDuration "1m" = .ok 60 ∧
    parseDuration "45" = .ok 45 ∧
    ∃ msg, parseDuration "invalid" = .error msg :=
  ⟨by decide,
    (parseDuration_converts 10 1 (by decide)).1 "seconds" (by decide),
    (parseDuration_converts 1 1 (by decide)).2.1 (by decide) "minute" (by decide),
    (parseDuration_converts 2 1 (by decide)).2.1 (by decide) "minutes" (by decide),
    (parseDuration_converts 30 0 (by decide)).1 "s" (by decide),
    (parseDuration_converts 1 0 (by decide)).2.1 (by decide) "m" (by decide),
    (parseDuration_converts 45 0 (by decide)).2.2.1,
    (parseDuration_converts 0 0 (by decide)).2.2.2 "invalid" (by decide)⟩

end QuickWiz
